import Mathlib

/-! The gthree loader: a shallow embedding of `gthreeloader.c`.

The development embeds the two entry points of `gthree/gthreeloader.c`

* `gthree_loader_convert_json_to_variant` (lines 37-149), the value extractor, and
* `gthree_loader_new_from_variant` (lines 189-361), the face-record decoder,

together with `gthree_loader_new_from_json` (lines 151-176), and proves properties of them.

Conventions.

* Coordinates are C `double`s, of a type `α` that is a parameter.  The loader copies them,
  except that `graphene_vec3_init` and `graphene_vec2_init` take `float` parameters: a
  coordinate passed to them is converted to `float`, by the function `toFloat` of the
  machine.
* `guint32` values are natural numbers; arithmetic done by the code in `guint32` is reduced
  modulo `2 ^ 32`.  The `int` variables `face_index`, `face1_index`, `face2_index` and the UV
  addresses computed from them are integers reduced into the range of `int` by `wrapInt`.
* The code ignores the result of every `g_variant_iter_loop` inside a record and reads locals
  it never initialised.  Whatever such an access yields is supplied by the `Machine`, so that
  every statement proved for all machines holds for whatever the machine happens to deliver.
* The code indexes the UV buffers without a bounds check.  A read outside a buffer has no
  defined behaviour and can end the process: `uvRead` is `none` there, the predicates
  `readVecInRange` ... `decodeInRange` tell whether a run makes such a read, and
  `gthree_loader_new_from_variant` has no result (`none`) for a run that does.  The functions
  of the face loop (`readVec` ... `decodeFaces`) give the state of a run as long as it goes
  on: what they give from such a read onwards is what a run would hold if it went on, with
  `mem` for the value found outside the buffer.
-/

namespace Gthree

/-! ## What the C source leaves to the machine -/

/-- What the machine does where the C source does not fix it: the conversion of a `double` to
`float`, and the values found where the code reads what it has not defined. -/
structure Machine (α : Type) where
  /-- The conversion of a `double` argument to a `float` parameter (lines 230 and 298): the
  nearest `float`, as a `double`. -/
  toFloat : α → α
  /-- Content of a `guint32` local after the `k`-th `g_variant_iter_loop` call that found the
  iterator exhausted (the code never checks the result, lines 249-347). -/
  word : Nat → Nat
  /-- Content of the memory at offset `off` of the buffer of UV layer `layer`, for an offset
  outside the buffer, in a run that goes on after reading it (lines 296-297). -/
  mem : Nat → Nat → α
  /-- Content of the local `graphene_vec3_t v` of line 239, which is never written. -/
  v : α × α × α
  /-- Content of an element of the local array `vec` of line 289 before it is written. -/
  vec : α × α

/-- The value of an `int` after a computation whose result in the integers is `x`: `x` itself
when it lies in the range of `int`, and `x` reduced modulo `2 ^ 32` into that range otherwise
(two's complement). -/
def wrapInt (x : Int) : Int := (x + 2 ^ 31) % 2 ^ 32 - 2 ^ 31

/-- The call `graphene_vec3_init (&v, x, y, z)` of line 230 (graphene library): the three
parameters are `float`, so every `double` argument is converted to `float`. -/
def graphene_vec3_init {α : Type} (u : Machine α) (x y z : α) : α × α × α :=
  (u.toFloat x, u.toFloat y, u.toFloat z)

/-- The call `graphene_vec2_init (&vec[j], u, v)` of line 298 (graphene library): the two
parameters are `float`, so every `double` argument is converted to `float`. -/
def graphene_vec2_init {α : Type} (u : Machine α) (x y : α) : α × α :=
  (u.toFloat x, u.toFloat y)

/-! ## The geometry model (external collaborator) -/

/-- A triangle of the geometry: three vertex indices and an optional material index. -/
structure GthreeFace where
  a : Nat
  b : Nat
  c : Nat
  material_index : Option Nat
  deriving DecidableEq

/-- The output container: vertices and faces in append order, and the `set_uv` assignments
`(layer, address, uv)` in call order, the address being `3 * face + slot`. -/
structure GthreeGeometry (α : Type) where
  vertices : List (α × α × α)
  faces : List GthreeFace
  uvs : List (Nat × Int × (α × α))
  deriving DecidableEq

/-- Modelled from the spec: `gthree_geometry_new` is not in the sources; a geometry is
"created fresh per decode call", with no vertex, no face and no UV assignment. -/
def gthree_geometry_new {α : Type} : GthreeGeometry α :=
  { vertices := [], faces := [], uvs := [] }

/-- Modelled from the spec: `gthree_geometry_add_vertex` is not in the sources; it is the
builder's `append_vertex`, "ids are assigned in append order starting at 0". -/
def gthree_geometry_add_vertex {α : Type} (g : GthreeGeometry α) (v : α × α × α) :
    GthreeGeometry α :=
  { g with vertices := g.vertices ++ [v] }

/-- Modelled from the spec: `gthree_face_new` is not in the sources; a new face holds its
three vertex indices and has no material index yet (the material index is "optional"). -/
def gthree_face_new (a b c : Nat) : GthreeFace :=
  { a := a, b := b, c := c, material_index := none }

/-- Modelled from the spec: `gthree_geometry_add_face` is not in the sources; it is the
builder's `append_face`, "ids are assigned in append order starting at 0". -/
def gthree_geometry_add_face {α : Type} (g : GthreeGeometry α) (f : GthreeFace) :
    GthreeGeometry α :=
  { g with faces := g.faces ++ [f] }

/-- Update the element at position `i` of a list, if there is one. -/
def modifyAt {β : Type} (f : β → β) : Nat → List β → List β
  | _, [] => []
  | 0, x :: xs => f x :: xs
  | i + 1, x :: xs => x :: modifyAt f i xs

/-- Modelled from the spec: `gthree_face_set_material_index` is not in the sources; it is the
builder's `set_material_index(face_id, idx)`.  The C code passes the face pointer; the model
passes the position `face` the face object has in the geometry that owns it. -/
def gthree_face_set_material_index {α : Type} (g : GthreeGeometry α) (face : Nat)
    (material : Nat) : GthreeGeometry α :=
  { g with faces := modifyAt (fun f => { f with material_index := some material }) face g.faces }

/-- Modelled from the spec: `gthree_geometry_set_uv_n` is not in the sources; it is the
builder's `set_uv(layer, face_id, slot, u, v)` with the address `3 * face_id + slot` already
computed by the caller.  The assignment is recorded after the earlier ones. -/
def gthree_geometry_set_uv_n {α : Type} (g : GthreeGeometry α) (layer : Nat) (index : Int)
    (uv : α × α) : GthreeGeometry α :=
  { g with uvs := g.uvs ++ [(layer, index, uv)] }

/-- The per-layer UV assignment table read off the recorded assignments: the value assigned
last to `address` in `layer`, if any. -/
def uvAt {α : Type} (g : GthreeGeometry α) (layer : Nat) (address : Int) : Option (α × α) :=
  (g.uvs.reverse.find? (fun e => e.1 == layer && e.2.1 == address)).map (fun e => e.2.2)

/-! ## The face-record iterator -/

/-- The `GVariantIter` over the `au` face array: the values not yet consumed, and the number of
reads attempted after the end was reached. -/
structure GVariantIter where
  rest : List Nat
  missed : Nat
  deriving DecidableEq

/-- The call `g_variant_iter_loop (iter, "u", &x)`: the next value, or nothing (`FALSE`) at
the end. -/
def g_variant_iter_loop (it : GVariantIter) : Option Nat × GVariantIter :=
  match it.rest with
  | x :: r => (some x, { it with rest := r })
  | [] => (none, { it with missed := it.missed + 1 })

/-- The statement `g_variant_iter_loop (iter, "u", &x);` with its result ignored: `x` holds the
next value of the stream, or an indeterminate `guint32` when the stream is exhausted. -/
def loop_u {α : Type} (u : Machine α) (it : GVariantIter) : Nat × GVariantIter :=
  match g_variant_iter_loop it with
  | (some x, it1) => (x, it1)
  | (none, it1) => (u.word it.missed % 2 ^ 32, it1)

/-! ## Constants of lines 178-187 -/

def FACE_QUAD_MASK : Nat := 1 <<< 0
def FACE_MATERIAL_MASK : Nat := 1 <<< 1
def FACE_UV_MASK : Nat := 1 <<< 2
def FACE_VERTEX_UV_MASK : Nat := 1 <<< 3
def FACE_NORMAL_MASK : Nat := 1 <<< 4
def FACE_VERTEX_NORMAL_MASK : Nat := 1 <<< 5
def FACE_COLOR_MASK : Nat := 1 <<< 6
def FACE_VERTEX_COLOR_MASK : Nat := 1 <<< 7

def MAX_UVS : Nat := 2

/-! ## The face loop of `gthree_loader_new_from_variant` (lines 236-354) -/

/-- The variables that live across one iteration of the face loop. -/
structure FaceLoop (α : Type) where
  geometry : GthreeGeometry α
  face_index : Int
  iter : GVariantIter
  deriving DecidableEq

/-- The locals set by lines 247-271 and used by the rest of the iteration.  `face1` and `face2`
are the face pointers, held as positions in the geometry (`none` is `NULL`). -/
structure FaceLocals where
  is_quad : Bool
  face1 : Nat
  face2 : Option Nat
  face1_index : Int
  face2_index : Int
  deriving DecidableEq

/-- Lines 247-271: read the position indices and append one or two faces; every `face_index++`
is computed in `int`. -/
def emitFaces {α : Type} (u : Machine α) (face_type : Nat) (st : FaceLoop α) :
    FaceLoop α × FaceLocals :=
  let is_quad : Bool := face_type &&& FACE_QUAD_MASK != 0
  let ra := loop_u u st.iter
  let rb := loop_u u ra.2
  let rc := loop_u u rb.2
  if is_quad then
    let rd := loop_u u rc.2
    let g1 := gthree_geometry_add_face st.geometry (gthree_face_new ra.1 rb.1 rd.1)
    let g2 := gthree_geometry_add_face g1 (gthree_face_new rb.1 rc.1 rd.1)
    ({ geometry := g2, face_index := wrapInt (wrapInt (st.face_index + 1) + 1), iter := rd.2 },
     { is_quad := is_quad, face1 := st.geometry.faces.length, face2 := some g1.faces.length,
       face1_index := st.face_index, face2_index := wrapInt (st.face_index + 1) })
  else
    let g1 := gthree_geometry_add_face st.geometry (gthree_face_new ra.1 rb.1 rc.1)
    ({ geometry := g1, face_index := wrapInt (st.face_index + 1), iter := rc.2 },
     { is_quad := is_quad, face1 := st.geometry.faces.length, face2 := none,
       face1_index := st.face_index, face2_index := -1 })

/-- Lines 273-279: the material index. -/
def readMaterial {α : Type} (u : Machine α) (face_type : Nat) (l : FaceLocals)
    (st : FaceLoop α) : FaceLoop α :=
  if face_type &&& FACE_MATERIAL_MASK != 0 then
    let rm := loop_u u st.iter
    let g1 := gthree_face_set_material_index st.geometry l.face1 rm.1
    let g2 := match l.face2 with
      | some face2 => gthree_face_set_material_index g1 face2 rm.1
      | none => g1
    { st with geometry := g2, iter := rm.2 }
  else st

/-- Lines 296-297: the read `uvs[layer][off]`, made without a bounds check.  Inside the buffer it
yields the element; outside the buffer it has no defined behaviour (`none`): the process can be
killed there. -/
def uvRead {α : Type} (buf : List α) (off : Nat) : Option α := buf.get? off

/-- Lines 296-297: the `double` the read `uvs[layer][off]` leaves in `u` or `v` when the run
goes on: the element read, and after a read outside the buffer what the machine found
there. -/
def uvFetch {α : Type} (u : Machine α) (layer : Nat) (buf : List α) (off : Nat) : α :=
  match uvRead buf off with
  | some x => x
  | none => u.mem layer off

/-- Lines 296-297: the pair `u, v` of doubles read for the index `vertex_uv_index`; both
offsets are computed in `guint32`. -/
def uvDeref {α : Type} (u : Machine α) (layer : Nat) (buf : List α)
    (vertex_uv_index : Nat) : α × α :=
  (uvFetch u layer buf (vertex_uv_index * 2 % 2 ^ 32),
   uvFetch u layer buf ((vertex_uv_index * 2 + 1) % 2 ^ 32))

/-- Lines 296-297: whether both reads made for the index `vertex_uv_index` are inside the
buffer. -/
def uvInRange {α : Type} (buf : List α) (vertex_uv_index : Nat) : Bool :=
  (uvRead buf (vertex_uv_index * 2 % 2 ^ 32)).isSome &&
    (uvRead buf ((vertex_uv_index * 2 + 1) % 2 ^ 32)).isSome

/-- Lines 291-299: the loop `for (j = 0; j < vec_len; j++)`, returning `vec[0 .. vec_len-1]`. -/
def readVec {α : Type} (u : Machine α) (layer : Nat) (buf : List α) :
    Nat → GVariantIter → List (α × α) × GVariantIter
  | 0, it => ([], it)
  | n + 1, it =>
    let r := loop_u u it
    let uv := uvDeref u layer buf r.1
    let more := readVec u layer buf n r.2
    (graphene_vec2_init u uv.1 uv.2 :: more.1, more.2)

/-- Lines 291-299: whether every read of the buffer made by the loop of `readVec` is inside
the buffer. -/
def readVecInRange {α : Type} (u : Machine α) (buf : List α) : Nat → GVariantIter → Bool
  | 0, _ => true
  | n + 1, it =>
    let r := loop_u u it
    uvInRange buf r.1 && readVecInRange u buf n r.2

/-- Lines 301-315: the three or six `gthree_geometry_set_uv_n` calls of one layer; the
addresses are computed in `int`. -/
def assignUvs {α : Type} (u : Machine α) (l : FaceLocals) (layer : Nat)
    (vec : List (α × α)) (g : GthreeGeometry α) : GthreeGeometry α :=
  if l.is_quad then
    let g := gthree_geometry_set_uv_n g layer (wrapInt (l.face1_index * 3)) (vec.getD 0 u.vec)
    let g := gthree_geometry_set_uv_n g layer (wrapInt (wrapInt (l.face1_index * 3) + 1))
      (vec.getD 1 u.vec)
    let g := gthree_geometry_set_uv_n g layer (wrapInt (wrapInt (l.face1_index * 3) + 2))
      (vec.getD 3 u.vec)
    let g := gthree_geometry_set_uv_n g layer (wrapInt (l.face2_index * 3)) (vec.getD 1 u.vec)
    let g := gthree_geometry_set_uv_n g layer (wrapInt (wrapInt (l.face2_index * 3) + 1))
      (vec.getD 2 u.vec)
    gthree_geometry_set_uv_n g layer (wrapInt (wrapInt (l.face2_index * 3) + 2))
      (vec.getD 3 u.vec)
  else
    let g := gthree_geometry_set_uv_n g layer (wrapInt (l.face1_index * 3)) (vec.getD 0 u.vec)
    let g := gthree_geometry_set_uv_n g layer (wrapInt (wrapInt (l.face1_index * 3) + 1))
      (vec.getD 1 u.vec)
    gthree_geometry_set_uv_n g layer (wrapInt (wrapInt (l.face1_index * 3) + 2))
      (vec.getD 2 u.vec)

/-- Lines 287-316: the loop `for (layer = 0; layer < n_uvs; layer++)`; the second argument is
the current `layer`, the third the buffers `uvs[layer .. n_uvs-1]`. -/
def readLayers {α : Type} (u : Machine α) (l : FaceLocals) :
    Nat → List (List α) → FaceLoop α → FaceLoop α
  | _, [], st => st
  | layer, buf :: more, st =>
    let r := readVec u layer buf (if l.is_quad then 4 else 3) st.iter
    readLayers u l (layer + 1) more
      { st with geometry := assignUvs u l layer r.1 st.geometry, iter := r.2 }

/-- Lines 287-316: whether every read of a UV buffer made by the loop of `readLayers` is inside
its buffer. -/
def readLayersInRange {α : Type} (u : Machine α) (l : FaceLocals) :
    Nat → List (List α) → FaceLoop α → Bool
  | _, [], _ => true
  | layer, buf :: more, st =>
    let r := readVec u layer buf (if l.is_quad then 4 else 3) st.iter
    readVecInRange u buf (if l.is_quad then 4 else 3) st.iter &&
      readLayersInRange u l (layer + 1) more
        { st with geometry := assignUvs u l layer r.1 st.geometry, iter := r.2 }

/-- Lines 283-317: the vertex-UV step. -/
def readVertexUvs {α : Type} (u : Machine α) (uvs : List (List α)) (face_type : Nat)
    (l : FaceLocals) (st : FaceLoop α) : FaceLoop α :=
  if face_type &&& FACE_VERTEX_UV_MASK != 0 then readLayers u l 0 uvs st else st

/-- Lines 283-317: whether every read of a UV buffer made by the vertex-UV step is inside its
buffer. -/
def readVertexUvsInRange {α : Type} (u : Machine α) (uvs : List (List α)) (face_type : Nat)
    (l : FaceLocals) (st : FaceLoop α) : Bool :=
  if face_type &&& FACE_VERTEX_UV_MASK != 0 then readLayersInRange u l 0 uvs st else true

/-- Lines 325-333 and 341-349: three reads, and a fourth for a quad; the values are dropped. -/
def skipPerVertex {α : Type} (u : Machine α) (is_quad : Bool) (it : GVariantIter) :
    GVariantIter :=
  let it := (loop_u u it).2
  let it := (loop_u u it).2
  let it := (loop_u u it).2
  if is_quad then (loop_u u it).2 else it

/-- Lines 319-349: the normal and colour fields are read and dropped. -/
def skipReserved {α : Type} (u : Machine α) (face_type : Nat) (is_quad : Bool)
    (it : GVariantIter) : GVariantIter :=
  let it := if face_type &&& FACE_NORMAL_MASK != 0 then (loop_u u it).2 else it
  let it := if face_type &&& FACE_VERTEX_NORMAL_MASK != 0 then skipPerVertex u is_quad it else it
  let it := if face_type &&& FACE_COLOR_MASK != 0 then (loop_u u it).2 else it
  if face_type &&& FACE_VERTEX_COLOR_MASK != 0 then skipPerVertex u is_quad it else it

/-- Lines 244-351: the body of the face loop, entered with `face_type` already read. -/
def decodeRecord {α : Type} (u : Machine α) (uvs : List (List α)) (face_type : Nat)
    (st : FaceLoop α) : FaceLoop α :=
  let e := emitFaces u face_type st
  let st := readMaterial u face_type e.2 e.1
  let st := readVertexUvs u uvs face_type e.2 st
  let it := skipReserved u face_type e.2.is_quad st.iter
  { st with geometry := gthree_geometry_add_vertex st.geometry u.v, iter := it }

/-- Lines 244-351: whether every read of a UV buffer made by one run of the body of the face
loop is inside its buffer. -/
def decodeRecordInRange {α : Type} (u : Machine α) (uvs : List (List α)) (face_type : Nat)
    (st : FaceLoop α) : Bool :=
  let e := emitFaces u face_type st
  let st := readMaterial u face_type e.2 e.1
  readVertexUvsInRange u uvs face_type e.2 st

/-- Lines 242-352: `while (g_variant_iter_loop (iter, "u", &face_type)) { ... }`, run for at
most `fuel` iterations. -/
def faceLoop {α : Type} (u : Machine α) (uvs : List (List α)) :
    Nat → FaceLoop α → FaceLoop α
  | 0, st => st
  | fuel + 1, st =>
    match g_variant_iter_loop st.iter with
    | (some face_type, it) =>
      faceLoop u uvs fuel (decodeRecord u uvs face_type { st with iter := it })
    | (none, it) => { st with iter := it }

/-- Lines 242-352: whether every read of a UV buffer made by the face loop, run for at most
`fuel` iterations, is inside its buffer. -/
def faceLoopInRange {α : Type} (u : Machine α) (uvs : List (List α)) :
    Nat → FaceLoop α → Bool
  | 0, _ => true
  | fuel + 1, st =>
    match g_variant_iter_loop st.iter with
    | (some face_type, it) =>
      decodeRecordInRange u uvs face_type { st with iter := it } &&
        faceLoopInRange u uvs fuel (decodeRecord u uvs face_type { st with iter := it })
    | (none, _) => true

/-! ## `gthree_loader_new_from_variant` (lines 189-361) -/

/-- The `a{sv}` dictionary handed to the loader: each of the three entries may be absent. -/
structure GVariant (α : Type) where
  uvs : Option (List (List α))
  vertices : Option (List α)
  faces : Option (List Nat)
  deriving DecidableEq

/-- The `GError` domains and codes that occur: the loader's own `GTHREE_LOADER_ERROR_FAIL`, and
the errors of the JSON parser. -/
inductive GErrorCode where
  | GTHREE_LOADER_ERROR_FAIL
  | JSON_PARSER_ERROR
  deriving DecidableEq

/-- A `GError`: code and message. -/
structure GError where
  code : GErrorCode
  message : String
  deriving DecidableEq

/-- The loader object: `priv->geometry` and `priv->materials`. -/
structure GthreeLoader (α : Type) where
  geometry : GthreeGeometry α
  materials : List Nat
  deriving DecidableEq

/-- Lines 206-216: the loop over the layers of `"uvs"`; the first argument is
`uvs[0 .. n_uvs-1]`, the layers retained so far. -/
def retainUvs {α : Type} : List (List α) → List (List α) → List (List α)
  | uvs, [] => uvs
  | uvs, uvN :: more =>
    if uvs.length < MAX_UVS then
      if uvN.length > 0 then retainUvs (uvs ++ [uvN]) more else retainUvs uvs more
    else retainUvs uvs more

/-- Lines 226-232: the loop over the `"vertices"` array, three doubles per vertex, which
`graphene_vec3_init` stores as `float`s. -/
def addVertices {α : Type} (u : Machine α) (g : GthreeGeometry α) : List α → GthreeGeometry α
  | x :: y :: z :: more =>
    addVertices u (gthree_geometry_add_vertex g (graphene_vec3_init u x y z)) more
  | _ => g

/-- Lines 236-354: the faces of the `"faces"` array, decoded into `geometry`. -/
def decodeFaces {α : Type} (u : Machine α) (uvs : List (List α))
    (geometry : GthreeGeometry α) (faces : List Nat) : FaceLoop α :=
  faceLoop u uvs (faces.length + 1)
    { geometry := geometry, face_index := 0, iter := { rest := faces, missed := 0 } }

/-- Lines 202-219: the buffers `uvs[0 .. n_uvs-1]` retained from the `"uvs"` entry. -/
def retainedUvs {α : Type} (value : GVariant α) : List (List α) :=
  match value.uvs with
  | some layers => retainUvs [] layers
  | none => []

/-- Lines 236-354: whether every read of a UV buffer made while the `"faces"` array is decoded
is inside its buffer. -/
def decodeFacesInRange {α : Type} (u : Machine α) (uvs : List (List α))
    (geometry : GthreeGeometry α) (faces : List Nat) : Bool :=
  faceLoopInRange u uvs (faces.length + 1)
    { geometry := geometry, face_index := 0, iter := { rest := faces, missed := 0 } }

/-- The geometry built by `gthree_loader_new_from_variant` (lines 200-354). -/
def buildGeometry {α : Type} (u : Machine α) (value : GVariant α) : GthreeGeometry α :=
  let geometry : GthreeGeometry α := gthree_geometry_new
  let uvs := retainedUvs value
  let geometry := match value.vertices with
    | some data => addVertices u geometry data
    | none => geometry
  match value.faces with
  | some faces => (decodeFaces u uvs geometry faces).geometry
  | none => geometry

/-- Lines 200-354: whether every read of a UV buffer made by `gthree_loader_new_from_variant`
is inside its buffer. -/
def decodeInRange {α : Type} (u : Machine α) (value : GVariant α) : Bool :=
  let geometry : GthreeGeometry α := gthree_geometry_new
  let uvs := retainedUvs value
  let geometry := match value.vertices with
    | some data => addVertices u geometry data
    | none => geometry
  match value.faces with
  | some faces => decodeFacesInRange u uvs geometry faces
  | none => true

/-- Function `gthree_loader_new_from_variant`.  A call that returns gives the returned pointer
(`none` is `NULL`) and the content of `*error` afterwards (`none`: not set); the function has
no statement that sets `*error` or returns `NULL`.  A call that reads outside a UV buffer
(lines 296-297) has no defined result: `none`.  `texture_path` is not used by the code. -/
def gthree_loader_new_from_variant {α : Type} (u : Machine α) (value : GVariant α) :
    Option (Option (GthreeLoader α) × Option GError) :=
  if decodeInRange u value then
    some (some { geometry := buildGeometry u value, materials := [] }, none)
  else none

/-! ## `gthree_loader_convert_json_to_variant` (lines 37-149) -/

/-- A node of the parsed document.  A scalar is given by what `json_node_get_double` and
`json_node_get_int` return for it. -/
inductive JsonNode (α : Type) where
  | null : JsonNode α
  | value (asDouble : α) (asInt : Int) : JsonNode α
  | array (elements : List (JsonNode α)) : JsonNode α
  | object (members : List (String × JsonNode α)) : JsonNode α

/-- The test `JSON_NODE_HOLDS_OBJECT (node)`, for a node pointer that may be `NULL`. -/
def JSON_NODE_HOLDS_OBJECT {α : Type} : Option (JsonNode α) → Bool
  | some (JsonNode.object _) => true
  | _ => false

/-- The test `JSON_NODE_HOLDS_ARRAY (node)`. -/
def JSON_NODE_HOLDS_ARRAY {α : Type} : JsonNode α → Bool
  | JsonNode.array _ => true
  | _ => false

/-- Function `json_node_get_object`: the members of an object node. -/
def json_node_get_object {α : Type} : Option (JsonNode α) → List (String × JsonNode α)
  | some (JsonNode.object members) => members
  | _ => []

/-- Function `json_object_get_member`: the member of that name, `none` (`NULL`) if there is
none. -/
def json_object_get_member {α : Type} (obj : List (String × JsonNode α)) (name : String) :
    Option (JsonNode α) :=
  (obj.find? (fun m => m.1 == name)).map (fun m => m.2)

/-- Function `json_node_get_array`: the elements of an array node. -/
def json_node_get_array {α : Type} : JsonNode α → List (JsonNode α)
  | JsonNode.array elements => elements
  | _ => []

/-- Function `json_array_get_double_element`, as a function of the element: `0.0` (here `zero`)
for an element that is no scalar. -/
def json_array_get_double_element {α : Type} (zero : α) : JsonNode α → α
  | JsonNode.value d _ => d
  | _ => zero

/-- Function `json_array_get_int_element`, as a function of the element: `0` for an element
that is no scalar. -/
def json_array_get_int_element {α : Type} : JsonNode α → Int
  | JsonNode.value _ i => i
  | _ => 0

/-- Function `json_array_get_array_element` followed by the reads of its length and elements:
an element that is no array yields `NULL`, whose length is `0`. -/
def json_array_get_array_element {α : Type} : JsonNode α → List (JsonNode α)
  | JsonNode.array elements => elements
  | _ => []

/-- The cast `(guint32)` of a `gint64`. -/
def toGuint32 (v : Int) : Nat := (v % 2 ^ 32).toNat

/-- Lines 55-88: the `"uvs"` member.  An absent member adds no entry; a member that is no
array is an error (`goto error`); otherwise every element is read as an array of doubles. -/
def convertUvs {α : Type} (zero : α) :
    Option (JsonNode α) → Except GError (Option (List (List α)))
  | none => Except.ok none
  | some uvs =>
    if !JSON_NODE_HOLDS_ARRAY uvs then
      Except.error { code := GErrorCode.GTHREE_LOADER_ERROR_FAIL, message := "vertices not array" }
    else
      Except.ok (some ((json_node_get_array uvs).map (fun uvN =>
        (json_array_get_array_element uvN).map (json_array_get_double_element zero))))

/-- Lines 90-114: the `"vertices"` member, read as an array of doubles. -/
def convertVertices {α : Type} (zero : α) : Option (JsonNode α) → Except GError (Option (List α))
  | none => Except.ok none
  | some vertices =>
    if !JSON_NODE_HOLDS_ARRAY vertices then
      Except.error { code := GErrorCode.GTHREE_LOADER_ERROR_FAIL, message := "vertices not array" }
    else
      Except.ok (some ((json_node_get_array vertices).map (json_array_get_double_element zero)))

/-- Lines 116-140: the `"faces"` member, every element read as an integer and cast to
`guint32`. -/
def convertFaces {α : Type} : Option (JsonNode α) → Except GError (Option (List Nat))
  | none => Except.ok none
  | some faces =>
    if !JSON_NODE_HOLDS_ARRAY faces then
      Except.error { code := GErrorCode.GTHREE_LOADER_ERROR_FAIL, message := "faces not array" }
    else
      Except.ok (some ((json_node_get_array faces).map
        (fun e => toGuint32 (json_array_get_int_element e))))

/-- Function `gthree_loader_convert_json_to_variant`: the returned variant (`none` is `NULL`)
and the content of `*error` afterwards (`none`: not set). -/
def gthree_loader_convert_json_to_variant {α : Type} (zero : α) (root : Option (JsonNode α)) :
    Option (GVariant α) × Option GError :=
  if !JSON_NODE_HOLDS_OBJECT root then
    (none, some { code := GErrorCode.GTHREE_LOADER_ERROR_FAIL, message := "no root object" })
  else
    let root_obj := json_node_get_object root
    match convertUvs zero (json_object_get_member root_obj "uvs") with
    | Except.error e => (none, some e)
    | Except.ok uvs =>
      match convertVertices zero (json_object_get_member root_obj "vertices") with
      | Except.error e => (none, some e)
      | Except.ok vertices =>
        match convertFaces (json_object_get_member root_obj "faces") with
        | Except.error e => (none, some e)
        | Except.ok faces => (some { uvs := uvs, vertices := vertices, faces := faces }, none)

/-! ## `gthree_loader_new_from_json` (lines 151-176) -/

/-- Function `gthree_loader_new_from_json`.  The call `json_parser_load_from_data` followed by
`json_parser_get_root` is the parameter `parse`: an error, or the root node (`none` for an
empty document).  The result is `none` when the call of `gthree_loader_new_from_variant` has
no defined result. -/
def gthree_loader_new_from_json {α : Type} (zero : α) (u : Machine α)
    (parse : String → Except GError (Option (JsonNode α))) (data : String) :
    Option (Option (GthreeLoader α) × Option GError) :=
  match parse data with
  | Except.error e => some (none, some e)
  | Except.ok root =>
    match gthree_loader_convert_json_to_variant zero root with
    | (none, error) => some (none, error)
    | (some variant, error) =>
      match gthree_loader_new_from_variant u variant with
      | none => none
      | some (loader, none) => some (loader, error)
      | some (loader, some e) => some (loader, some e)

/-! ## Test data -/

/-- A machine that delivers zeros, for doubles that are all `float`s. -/
def zeros : Machine Int :=
  { toFloat := fun x => x, word := fun _ => 0, mem := fun _ _ => 0, v := (0, 0, 0),
    vec := (0, 0) }

/-- The nearest `float` of an integer of magnitude below `2 ^ 25`: the integer itself up to
magnitude `2 ^ 24` and when it is even, and the nearest multiple of `4` when it is odd and
larger (the tie goes to the even significand). -/
def nearestFloat (x : Int) : Int :=
  if x.natAbs ≤ 2 ^ 24 then x
  else if x.natAbs % 2 = 0 then x
  else x.sign * (((x.natAbs + 1) / 4 * 4 : Nat) : Int)

/-- A machine whose doubles are integers, converted to `float` by `nearestFloat`, and which
delivers zeros. -/
def singles : Machine Int :=
  { toFloat := nearestFloat, word := fun _ => 0, mem := fun _ _ => 0, v := (0, 0, 0),
    vec := (0, 0) }

/-! ## The record format and the results of a record, in the words of the specification -/

/-- The flag `[bit k]`: `1` when bit `k` of the bitmask `m` is set, else `0`. -/
def flagBit (m k : Nat) : Nat := if m.testBit k then 1 else 0

/-- The number `n` of position indices of a record: `4` for a quad (bit 0), else `3`. -/
def vertexCount (m : Nat) : Nat := if m.testBit 0 then 4 else 3

/-- The number of triangles a record yields: `2` for a quad, else `1`. -/
def faceCount (m : Nat) : Nat := if m.testBit 0 then 2 else 1

/-- The integers after the bitmask that carry geometry: positions, material, vertex-UV indices
(for `L` retained layers). -/
def coreCount (L m : Nat) : Nat :=
  vertexCount m + flagBit m 1 + flagBit m 3 * L * vertexCount m

/-- The integers of the reserved fields: normal, vertex normals, colour, vertex colours. -/
def reservedCount (m : Nat) : Nat :=
  flagBit m 4 + flagBit m 5 * vertexCount m + flagBit m 6 + flagBit m 7 * vertexCount m

/-- The integers a record with bitmask `m` declares after the bitmask. -/
def fieldCount (L m : Nat) : Nat := coreCount L m + reservedCount m

/-- A complete record: a bitmask followed by exactly the integers it declares. -/
def CompleteRecord (L : Nat) : List Nat → Prop
  | [] => False
  | m :: fields => fields.length = fieldCount L m

instance (L : Nat) (r : List Nat) : Decidable (CompleteRecord L r) := by
  cases r
  · exact isFalse (fun h => h)
  · exact Nat.decEq _ _

/-- The material index a record assigns: the integer after the position indices when bit 1 is
set. -/
def recordMaterial (m : Nat) (fields : List Nat) : Option Nat :=
  if m.testBit 1 then some (fields.getD (vertexCount m) 0) else none

/-- The faces of a record: `(a,b,d)` then `(b,c,d)` for a quad, `(a,b,c)` otherwise, each with
the record's material index. -/
def recordFaces (m : Nat) (fields : List Nat) : List GthreeFace :=
  if m.testBit 0 then
    [{ a := fields.getD 0 0, b := fields.getD 1 0, c := fields.getD 3 0,
       material_index := recordMaterial m fields },
     { a := fields.getD 1 0, b := fields.getD 2 0, c := fields.getD 3 0,
       material_index := recordMaterial m fields }]
  else
    [{ a := fields.getD 0 0, b := fields.getD 1 0, c := fields.getD 2 0,
       material_index := recordMaterial m fields }]

/-- The UV assignments of one layer: slots of face1 get `vec[0], vec[1], vec[3]` and slots of
face2 get `vec[1], vec[2], vec[3]` for a quad; slots of face1 get `vec[0], vec[1], vec[2]`
otherwise.  The addresses `3 * face + slot` are computed with `adr` applied to every
intermediate result: `wrapInt` for the arithmetic of the code, the identity for the integers. -/
def slotUvs {α : Type} (adr : Int → Int) (quad : Bool) (layer : Nat)
    (face1_index face2_index : Int) (vec : List (α × α)) (d : α × α) :
    List (Nat × Int × (α × α)) :=
  if quad then
    [(layer, adr (face1_index * 3), vec.getD 0 d),
     (layer, adr (adr (face1_index * 3) + 1), vec.getD 1 d),
     (layer, adr (adr (face1_index * 3) + 2), vec.getD 3 d),
     (layer, adr (face2_index * 3), vec.getD 1 d),
     (layer, adr (adr (face2_index * 3) + 1), vec.getD 2 d),
     (layer, adr (adr (face2_index * 3) + 2), vec.getD 3 d)]
  else
    [(layer, adr (face1_index * 3), vec.getD 0 d),
     (layer, adr (adr (face1_index * 3) + 1), vec.getD 1 d),
     (layer, adr (adr (face1_index * 3) + 2), vec.getD 2 d)]

/-- The UV assignments of a record, layer after layer: layer `layer + i` takes the `i`-th group
of `n` indices of `idx` and dereferences them with `deref layer buf`. -/
def layersUvs {α : Type} (adr : Int → Int) (deref : Nat → List α → Nat → α × α) (d : α × α)
    (quad : Bool) (face1_index face2_index : Int) :
    Nat → List (List α) → List Nat → List (Nat × Int × (α × α))
  | _, [], _ => []
  | layer, buf :: more, idx =>
    slotUvs adr quad layer face1_index face2_index
        ((idx.take (if quad then 4 else 3)).map (deref layer buf)) d ++
      layersUvs adr deref d quad face1_index face2_index (layer + 1) more
        (idx.drop (if quad then 4 else 3))

/-- The value `face2_index` has after lines 247-271. -/
def face2Index (adr : Int → Int) (m : Nat) (face_index : Int) : Int :=
  if m.testBit 0 then adr (face_index + 1) else -1

/-- The value `face_index` has after lines 247-271. -/
def nextFaceIndex (m : Nat) (face_index : Int) : Int :=
  if m.testBit 0 then wrapInt (wrapInt (face_index + 1) + 1) else wrapInt (face_index + 1)

/-- The element `vec[j]` of lines 296-298 for the UV index `i`: the pair read, converted to
`float`s. -/
def uvVec {α : Type} (u : Machine α) (layer : Nat) (buf : List α) (i : Nat) : α × α :=
  graphene_vec2_init u (uvDeref u layer buf i).1 (uvDeref u layer buf i).2

/-- The UV assignments of a record with bitmask `m`, with the addresses computed by `adr`. -/
def recordUvsWith {α : Type} (adr : Int → Int) (u : Machine α) (uvs : List (List α)) (m : Nat)
    (face_index : Int) (fields : List Nat) : List (Nat × Int × (α × α)) :=
  if m.testBit 3 then
    layersUvs adr (uvVec u) u.vec (m.testBit 0) face_index (face2Index adr m face_index) 0 uvs
      (fields.drop (vertexCount m + flagBit m 1))
  else []

/-- The UV assignments of a record with bitmask `m`. -/
def recordUvs {α : Type} (u : Machine α) (uvs : List (List α)) (m : Nat) (face_index : Int)
    (fields : List Nat) : List (Nat × Int × (α × α)) :=
  recordUvsWith wrapInt u uvs m face_index fields

/-- The geometry after a record with bitmask `m` and fields `fields`. -/
def recordGeometry {α : Type} (u : Machine α) (uvs : List (List α)) (m : Nat)
    (face_index : Int) (fields : List Nat) (g : GthreeGeometry α) : GthreeGeometry α :=
  { vertices := g.vertices ++ [u.v],
    faces := g.faces ++ recordFaces m fields,
    uvs := g.uvs ++ recordUvs u uvs m face_index fields }

/-- A step on the iterator that takes `c` values: the values left are those after the first
`c`, and no read is missed when `c` values are there. -/
def Consumes (f : GVariantIter → GVariantIter) (c : Nat) : Prop :=
  ∀ it, (f it).rest = it.rest.drop c ∧ (c ≤ it.rest.length → (f it).missed = it.missed)

/-- The geometry and the face counter after a sequence of records. -/
def applyRecords {α : Type} (u : Machine α) (uvs : List (List α)) :
    GthreeGeometry α → Int → List (List Nat) → GthreeGeometry α × Int
  | g, fi, [] => (g, fi)
  | g, fi, [] :: rs => applyRecords u uvs g fi rs
  | g, fi, (m :: fields) :: rs =>
    applyRecords u uvs (recordGeometry u uvs m fi fields g) (nextFaceIndex m fi) rs

/-- The bitmask of a record: its first integer. -/
def recordMask (r : List Nat) : Nat := r.headD 0

/-- A quad record: bit 0 of the bitmask is set. -/
def isQuadRecord (r : List Nat) : Bool := (recordMask r).testBit 0

/-- The bitmask with bits 4, 5, 6 and 7 (normal, vertex normals, colour, vertex colours)
cleared. -/
def clearReserved (m : Nat) : Nat := m ^^^ (m &&& 0xF0)

/-- The `j`-th UV index of the group a record holds for layer `l`. -/
def uvIndex (m : Nat) (fields : List Nat) (l j : Nat) : Nat :=
  fields.getD (vertexCount m + flagBit m 1 + l * vertexCount m + j) 0

/-- Whether the UV indices `idx` of a record, taken layer after layer in groups of `n` (`4` for
a quad, else `3`), all have both their offsets inside the buffer of their layer. -/
def layersInRange {α : Type} (quad : Bool) : List (List α) → List Nat → Bool
  | [], _ => true
  | buf :: more, idx =>
    (idx.take (if quad then 4 else 3)).all (uvInRange buf) &&
      layersInRange quad more (idx.drop (if quad then 4 else 3))

/-- Whether every UV index of a record has both its offsets inside the buffer of its layer. -/
def recordInRange {α : Type} (uvs : List (List α)) : List Nat → Bool
  | [] => true
  | m :: fields =>
    !m.testBit 3 || layersInRange (m.testBit 0) uvs (fields.drop (vertexCount m + flagBit m 1))

/-- The UV indices of a record are in range: when bit 3 is set, for every retained layer `l` and
every `j < n` the two offsets of the `j`-th UV index of the group of layer `l` are inside the
buffer of layer `l`. -/
def UvIndicesInRange {α : Type} (uvs : List (List α)) : List Nat → Prop
  | [] => True
  | m :: fields =>
    m.testBit 3 = true → ∀ l buf, uvs.get? l = some buf → ∀ j, j < vertexCount m →
      uvInRange buf (uvIndex m fields l j) = true

/-- The stream of `715827883` triangle records `0, 0,0,0`, as a list of records. -/
def manyTriangles : List (List Nat) := List.replicate 715827883 [0, 0, 0, 0]

/-- A machine with recognisable contents, for doubles that are all `float`s: the `k`-th missed
read leaves `77 + k`, and the memory at offset `off` outside the buffer of layer `layer` holds
`1000 * (layer + 1) + off`. -/
def probe : Machine Int :=
  { toFloat := fun x => x, word := fun k => 77 + k,
    mem := fun layer off => 1000 * (layer + 1) + off, v := (0, 0, 0), vec := (0, 0) }

/-- A non-empty UV layer. -/
def nonEmptyLayer {α : Type} (layer : List α) : Bool := decide (layer.length > 0)

/-- Two bitmasks that agree on bits 0, 1, 3, 4, 5, 6 and 7: they differ at most in bit 2 and in
bits above bit 7. -/
def sameFlags (m1 m2 : Nat) : Prop :=
  m1.testBit 0 = m2.testBit 0 ∧ m1.testBit 1 = m2.testBit 1 ∧ m1.testBit 3 = m2.testBit 3 ∧
    m1.testBit 4 = m2.testBit 4 ∧ m1.testBit 5 = m2.testBit 5 ∧ m1.testBit 6 = m2.testBit 6 ∧
    m1.testBit 7 = m2.testBit 7

instance (m1 m2 : Nat) : Decidable (sameFlags m1 m2) := by
  unfold sameFlags; infer_instance

/-- The number of times the body of the face loop (lines 244-351) runs, for at most `fuel`
iterations: the loop of `faceLoop`, counting. -/
def iterations {α : Type} (u : Machine α) (uvs : List (List α)) :
    Nat → FaceLoop α → Nat
  | 0, _ => 0
  | fuel + 1, st =>
    match g_variant_iter_loop st.iter with
    | (some face_type, it) =>
      1 + iterations u uvs fuel (decodeRecord u uvs face_type { st with iter := it })
    | (none, _) => 0

/-- The number of face records `decodeFaces` decodes. -/
def recordsDecoded {α : Type} (u : Machine α) (uvs : List (List α))
    (geometry : GthreeGeometry α) (faces : List Nat) : Nat :=
  iterations u uvs (faces.length + 1)
    { geometry := geometry, face_index := 0, iter := { rest := faces, missed := 0 } }

/-- The invariant of the face loop: `face_index` is the number of faces of the geometry, and
every UV address written so far belongs to one of these faces. -/
def LoopInvariant {α : Type} (st : FaceLoop α) : Prop :=
  st.face_index = st.geometry.faces.length ∧
    ∀ e ∈ st.geometry.uvs, 0 ≤ e.2.1 ∧ e.2.1 < 3 * st.face_index

/-- A UV assignment with its address moved by `d`. -/
def shiftUv {α : Type} (d : Int) (e : Nat × Int × (α × α)) : Nat × Int × (α × α) :=
  (e.1, e.2.1 + d, e.2.2)

/-! ## Lemmas and theorems -/

theorem mask_testBit (m k : Nat) : (m &&& 1 <<< k != 0) = m.testBit k := by
  rw [Nat.one_shiftLeft]
  by_cases h : m.testBit k
  · rw [h]
    simp only [bne_iff_ne, ne_eq]
    intro h0
    have := congrArg (fun x => Nat.testBit x k) h0
    simp [Nat.testBit_and, Nat.testBit_two_pow_self, h] at this
  · simp only [Bool.not_eq_true] at h
    rw [h]
    simp only [bne_eq_false_iff_eq]
    apply Nat.eq_of_testBit_eq
    intro i
    simp only [Nat.testBit_and, Nat.testBit_two_pow, Nat.zero_testBit]
    by_cases hi : k = i
    · subst hi; simp [h]
    · simp [hi]

@[simp]
theorem quad_mask (m : Nat) : (m &&& FACE_QUAD_MASK != 0) = m.testBit 0 := mask_testBit m 0
@[simp]
theorem material_mask (m : Nat) : (m &&& FACE_MATERIAL_MASK != 0) = m.testBit 1 :=
  mask_testBit m 1
@[simp]
theorem vertex_uv_mask (m : Nat) : (m &&& FACE_VERTEX_UV_MASK != 0) = m.testBit 3 :=
  mask_testBit m 3
@[simp]
theorem normal_mask (m : Nat) : (m &&& FACE_NORMAL_MASK != 0) = m.testBit 4 :=
  mask_testBit m 4
@[simp]
theorem vertex_normal_mask (m : Nat) :
    (m &&& FACE_VERTEX_NORMAL_MASK != 0) = m.testBit 5 := mask_testBit m 5
@[simp]
theorem color_mask (m : Nat) : (m &&& FACE_COLOR_MASK != 0) = m.testBit 6 :=
  mask_testBit m 6
@[simp]
theorem vertex_color_mask (m : Nat) :
    (m &&& FACE_VERTEX_COLOR_MASK != 0) = m.testBit 7 := mask_testBit m 7

@[simp]
theorem loop_u_cons {α : Type} (u : Machine α) (x : Nat) (r : List Nat) (k : Nat) :
    loop_u u { rest := x :: r, missed := k } = (x, { rest := r, missed := k }) := rfl

theorem loop_u_rest {α : Type} (u : Machine α) (it : GVariantIter) :
    (loop_u u it).2.rest = it.rest.drop 1 := by
  obtain ⟨rest, k⟩ := it
  cases rest <;> rfl

theorem loop_u_snd {α : Type} (u : Machine α) (it : GVariantIter)
    (h : 1 ≤ it.rest.length) :
    (loop_u u it).2 = { rest := it.rest.drop 1, missed := it.missed } := by
  obtain ⟨rest, k⟩ := it
  cases rest with
  | nil => simp at h
  | cons x r => rfl

theorem skipPerVertex_rest {α : Type} (u : Machine α) (q : Bool) (it : GVariantIter) :
    (skipPerVertex u q it).rest = it.rest.drop (if q then 4 else 3) := by
  cases q <;> simp [skipPerVertex, loop_u_rest, List.drop_drop]

theorem skipPerVertex_eq {α : Type} (u : Machine α) (q : Bool) (it : GVariantIter)
    (h : (if q then 4 else 3) ≤ it.rest.length) :
    skipPerVertex u q it = { rest := it.rest.drop (if q then 4 else 3), missed := it.missed } := by
  obtain ⟨rest, k⟩ := it
  cases q
  · obtain _ | ⟨a, _ | ⟨b, _ | ⟨c, r⟩⟩⟩ := rest <;> simp at h
    simp [skipPerVertex]
  · obtain _ | ⟨a, _ | ⟨b, _ | ⟨c, _ | ⟨d, r⟩⟩⟩⟩ := rest <;> simp at h
    simp [skipPerVertex]

theorem Consumes.eq {f : GVariantIter → GVariantIter} {c : Nat} (h : Consumes f c)
    (it : GVariantIter) (hc : c ≤ it.rest.length) :
    f it = { rest := it.rest.drop c, missed := it.missed } := by
  obtain ⟨h1, h2⟩ := h it
  cases hs : f it with
  | mk rest missed => rw [hs] at h1 h2; simp at h1 h2; rw [h1, h2 hc]

theorem consumes_id : Consumes (fun it => it) 0 := fun it => ⟨by simp, fun _ => rfl⟩

theorem consumes_loop_u {α : Type} (u : Machine α) :
    Consumes (fun it => (loop_u u it).2) 1 := by
  intro it
  refine ⟨loop_u_rest u it, fun h => ?_⟩
  show (loop_u u it).2.missed = it.missed
  rw [loop_u_snd u it h]

theorem Consumes.comp {f g : GVariantIter → GVariantIter} {a b : Nat} (hf : Consumes f a)
    (hg : Consumes g b) : Consumes (fun it => g (f it)) (a + b) := by
  intro it
  obtain ⟨f1, f2⟩ := hf it
  obtain ⟨g1, g2⟩ := hg (f it)
  refine ⟨by rw [g1, f1, List.drop_drop], fun h => ?_⟩
  rw [g2 (by rw [f1, List.length_drop]; omega), f2 (by omega)]

theorem Consumes.cond {f : GVariantIter → GVariantIter} {c : Nat} (hf : Consumes f c)
    (b : Bool) : Consumes (fun it => if b then f it else it) (if b then c else 0) := by
  cases b
  · simpa using consumes_id
  · simpa using hf

theorem consumes_skipPerVertex {α : Type} (u : Machine α) (q : Bool) :
    Consumes (skipPerVertex u q) (if q then 4 else 3) := by
  intro it
  exact ⟨skipPerVertex_rest u q it, fun h => by rw [skipPerVertex_eq u q it h]⟩

theorem consumes_skipReserved {α : Type} (u : Machine α) (m : Nat) :
    Consumes (skipReserved u m (m.testBit 0)) (reservedCount m) := by
  have h := ((((consumes_loop_u u).cond (m.testBit 4)).comp
    ((consumes_skipPerVertex u (m.testBit 0)).cond (m.testBit 5))).comp
    ((consumes_loop_u u).cond (m.testBit 6))).comp
    ((consumes_skipPerVertex u (m.testBit 0)).cond (m.testBit 7))
  have hc : reservedCount m = (((if m.testBit 4 then 1 else 0) +
      (if m.testBit 5 then (if m.testBit 0 then 4 else 3) else 0)) +
      (if m.testBit 6 then 1 else 0)) +
      (if m.testBit 7 then (if m.testBit 0 then 4 else 3) else 0) := by
    simp only [reservedCount, flagBit, vertexCount]
    cases m.testBit 0 <;> cases m.testBit 4 <;> cases m.testBit 5 <;> cases m.testBit 6 <;>
      cases m.testBit 7 <;> rfl
  rw [hc]
  intro it
  have := h it
  simpa only [skipReserved, normal_mask, vertex_normal_mask, color_mask, vertex_color_mask]
    using this

theorem modifyAt_length {β : Type} (f : β → β) (i : Nat) (xs : List β) :
    (modifyAt f i xs).length = xs.length := by
  induction xs generalizing i with
  | nil => cases i <;> rfl
  | cons x xs ih => cases i <;> simp [modifyAt, ih]

theorem modifyAt_append {β : Type} (f : β → β) (i : Nat) (xs ys : List β) :
    modifyAt f (xs.length + i) (xs ++ ys) = xs ++ modifyAt f i ys := by
  induction xs with
  | nil => simp
  | cons x xs ih =>
    have : (x :: xs).length + i = (xs.length + i) + 1 := by simp; omega
    rw [this]
    simp [modifyAt, ih]

theorem modifyAt_append_zero {β : Type} (f : β → β) (xs : List β) (y : β) (ys : List β) :
    modifyAt f xs.length (xs ++ y :: ys) = xs ++ f y :: ys := by
  have e := modifyAt_append f 0 xs (y :: ys)
  simpa [modifyAt] using e

theorem modifyAt_append_one {β : Type} (f : β → β) (xs : List β) (y z : β) (ys : List β) :
    modifyAt f (xs.length + 1) (xs ++ y :: z :: ys) = xs ++ y :: f z :: ys := by
  have e := modifyAt_append f 1 xs (y :: z :: ys)
  simpa [modifyAt] using e

theorem wrapInt_of_range (x : Int) (h1 : -(2 ^ 31) ≤ x) (h2 : x < 2 ^ 31) : wrapInt x = x := by
  unfold wrapInt; omega

theorem wrapInt_wrapInt_add (a b : Int) : wrapInt (wrapInt a + b) = wrapInt (a + b) := by
  unfold wrapInt; omega

theorem nextFaceIndex_eq (m : Nat) (fi : Int) :
    nextFaceIndex m fi = wrapInt (fi + faceCount m) := by
  simp only [nextFaceIndex, faceCount]
  split
  · rw [wrapInt_wrapInt_add]; congr 1; omega
  · rfl

theorem nextFaceIndex_of_range (m : Nat) (fi : Int) (h1 : 0 ≤ fi)
    (h2 : fi + faceCount m < 2 ^ 31) : nextFaceIndex m fi = fi + faceCount m := by
  rw [nextFaceIndex_eq]
  exact wrapInt_of_range _ (by omega) h2

theorem emitFaces_rest {α : Type} (u : Machine α) (m : Nat) (st : FaceLoop α) :
    (emitFaces u m st).1.iter.rest = st.iter.rest.drop (vertexCount m) := by
  simp only [emitFaces, quad_mask, vertexCount]
  cases m.testBit 0 <;> simp [loop_u_rest, List.drop_drop]

theorem emitFaces_locals {α : Type} (u : Machine α) (m : Nat) (st : FaceLoop α) :
    (emitFaces u m st).2 =
      { is_quad := m.testBit 0, face1 := st.geometry.faces.length,
        face2 := if m.testBit 0 then some (st.geometry.faces.length + 1) else none,
        face1_index := st.face_index, face2_index := face2Index wrapInt m st.face_index } := by
  simp only [emitFaces, quad_mask, face2Index]
  cases m.testBit 0 <;> simp [gthree_geometry_add_face]

theorem emitFaces_face_index {α : Type} (u : Machine α) (m : Nat) (st : FaceLoop α) :
    (emitFaces u m st).1.face_index = nextFaceIndex m st.face_index := by
  simp only [emitFaces, quad_mask, nextFaceIndex]
  cases m.testBit 0 <;> simp

theorem emitFaces_eq {α : Type} (u : Machine α) (m : Nat) (g : GthreeGeometry α)
    (fi : Int) (fields : List Nat) (k : Nat) (h : vertexCount m ≤ fields.length) :
    (emitFaces u m { geometry := g, face_index := fi, iter := { rest := fields, missed := k } }).1 =
      { geometry := { g with faces := g.faces ++
          (if m.testBit 0 then
            [gthree_face_new (fields.getD 0 0) (fields.getD 1 0) (fields.getD 3 0),
             gthree_face_new (fields.getD 1 0) (fields.getD 2 0) (fields.getD 3 0)]
           else [gthree_face_new (fields.getD 0 0) (fields.getD 1 0) (fields.getD 2 0)]) },
        face_index := nextFaceIndex m fi,
        iter := { rest := fields.drop (vertexCount m), missed := k } } := by
  revert h
  simp only [emitFaces, quad_mask, nextFaceIndex, vertexCount]
  cases m.testBit 0
  · obtain _ | ⟨a, _ | ⟨b, _ | ⟨c, r⟩⟩⟩ := fields <;> intro h <;> simp at h
    simp [gthree_geometry_add_face]
  · obtain _ | ⟨a, _ | ⟨b, _ | ⟨c, _ | ⟨d, r⟩⟩⟩⟩ := fields <;> intro h <;> simp at h
    simp [gthree_geometry_add_face]

theorem readMaterial_rest {α : Type} (u : Machine α) (m : Nat) (l : FaceLocals)
    (st : FaceLoop α) :
    (readMaterial u m l st).iter.rest = st.iter.rest.drop (flagBit m 1) := by
  simp only [readMaterial, material_mask, flagBit]
  cases m.testBit 1 <;> simp [loop_u_rest]

theorem readMaterial_face_index {α : Type} (u : Machine α) (m : Nat) (l : FaceLocals)
    (st : FaceLoop α) : (readMaterial u m l st).face_index = st.face_index := by
  simp only [readMaterial, material_mask]
  cases m.testBit 1 <;> simp

theorem readMaterial_faces_length {α : Type} (u : Machine α) (m : Nat) (l : FaceLocals)
    (st : FaceLoop α) :
    (readMaterial u m l st).geometry.faces.length = st.geometry.faces.length := by
  simp only [readMaterial, material_mask]
  cases m.testBit 1
  · simp
  · cases l.face2 <;> simp [gthree_face_set_material_index, modifyAt_length]

theorem readMaterial_vertices {α : Type} (u : Machine α) (m : Nat) (l : FaceLocals)
    (st : FaceLoop α) :
    (readMaterial u m l st).geometry.vertices = st.geometry.vertices := by
  simp only [readMaterial, material_mask]
  cases m.testBit 1
  · simp
  · cases l.face2 <;> simp [gthree_face_set_material_index]

theorem readMaterial_uvs {α : Type} (u : Machine α) (m : Nat) (l : FaceLocals)
    (st : FaceLoop α) :
    (readMaterial u m l st).geometry.uvs = st.geometry.uvs := by
  simp only [readMaterial, material_mask]
  cases m.testBit 1
  · simp
  · cases l.face2 <;> simp [gthree_face_set_material_index]

/-- Lines 247-279 on a stream that holds the positions and the material index. -/
theorem emit_material_eq {α : Type} (u : Machine α) (m : Nat) (g : GthreeGeometry α)
    (fi : Int) (fields : List Nat) (k : Nat) (h : vertexCount m + flagBit m 1 ≤ fields.length) :
    readMaterial u m
        (emitFaces u m
          { geometry := g, face_index := fi, iter := { rest := fields, missed := k } }).2
        (emitFaces u m
          { geometry := g, face_index := fi, iter := { rest := fields, missed := k } }).1 =
      { geometry := { g with faces := g.faces ++ recordFaces m fields },
        face_index := nextFaceIndex m fi,
        iter := { rest := fields.drop (vertexCount m + flagBit m 1), missed := k } } := by
  rw [emitFaces_locals, emitFaces_eq u m g fi fields k (by omega)]
  revert h
  simp only [readMaterial, material_mask, recordFaces, recordMaterial, flagBit, vertexCount]
  cases h0 : m.testBit 0 <;> cases h1 : m.testBit 1 <;> intro h <;> simp at h
  · simp [gthree_face_new]
  · obtain _ | ⟨a, _ | ⟨b, _ | ⟨c, _ | ⟨d, r⟩⟩⟩⟩ := fields <;> simp at h
    simp [gthree_face_set_material_index, modifyAt_append_zero, gthree_face_new]
  · simp [gthree_face_new]
  · obtain _ | ⟨a, _ | ⟨b, _ | ⟨c, _ | ⟨d, _ | ⟨x, r⟩⟩⟩⟩⟩ := fields <;> simp at h
    simp [gthree_face_set_material_index, modifyAt_append_zero, modifyAt_append_one,
      gthree_face_new]

theorem readVec_rest {α : Type} (u : Machine α) (layer : Nat) (buf : List α) (n : Nat)
    (it : GVariantIter) : (readVec u layer buf n it).2.rest = it.rest.drop n := by
  induction n generalizing it with
  | zero => simp [readVec]
  | succ n ih =>
    simp only [readVec, ih, loop_u_rest, List.drop_drop]
    rw [Nat.add_comm]

theorem readVec_eq {α : Type} (u : Machine α) (layer : Nat) (buf : List α) (n : Nat)
    (it : GVariantIter) (h : n ≤ it.rest.length) :
    readVec u layer buf n it =
      ((it.rest.take n).map (uvVec u layer buf),
       { rest := it.rest.drop n, missed := it.missed }) := by
  induction n generalizing it with
  | zero => simp [readVec]
  | succ n ih =>
    obtain ⟨rest, k⟩ := it
    cases rest with
    | nil => simp at h
    | cons x r =>
      simp only [List.length_cons, Nat.add_le_add_iff_right] at h
      simp [readVec, uvVec, ih { rest := r, missed := k } h]

theorem assignUvs_eq {α : Type} (u : Machine α) (l : FaceLocals) (layer : Nat)
    (vec : List (α × α)) (g : GthreeGeometry α) :
    assignUvs u l layer vec g =
      { g with uvs := g.uvs ++
          slotUvs wrapInt l.is_quad layer l.face1_index l.face2_index vec u.vec } := by
  simp only [assignUvs, slotUvs, gthree_geometry_set_uv_n]
  cases l.is_quad <;> simp

theorem readLayers_rest {α : Type} (u : Machine α) (l : FaceLocals) (layer : Nat)
    (uvs : List (List α)) (st : FaceLoop α) :
    (readLayers u l layer uvs st).iter.rest =
      st.iter.rest.drop (uvs.length * (if l.is_quad then 4 else 3)) := by
  induction uvs generalizing layer st with
  | nil => simp [readLayers]
  | cons buf more ih =>
    simp only [readLayers, ih, readVec_rest, List.drop_drop, List.length_cons]
    congr 1
    rw [Nat.add_mul, Nat.one_mul, Nat.add_comm]

theorem readLayers_face_index {α : Type} (u : Machine α) (l : FaceLocals) (layer : Nat)
    (uvs : List (List α)) (st : FaceLoop α) :
    (readLayers u l layer uvs st).face_index = st.face_index := by
  induction uvs generalizing layer st with
  | nil => simp [readLayers]
  | cons buf more ih => simp only [readLayers, ih]

theorem readLayers_faces {α : Type} (u : Machine α) (l : FaceLocals) (layer : Nat)
    (uvs : List (List α)) (st : FaceLoop α) :
    (readLayers u l layer uvs st).geometry.faces = st.geometry.faces := by
  induction uvs generalizing layer st with
  | nil => simp [readLayers]
  | cons buf more ih => simp only [readLayers, ih, assignUvs_eq]

theorem readLayers_vertices {α : Type} (u : Machine α) (l : FaceLocals) (layer : Nat)
    (uvs : List (List α)) (st : FaceLoop α) :
    (readLayers u l layer uvs st).geometry.vertices = st.geometry.vertices := by
  induction uvs generalizing layer st with
  | nil => simp [readLayers]
  | cons buf more ih => simp only [readLayers, ih, assignUvs_eq]

theorem readLayers_eq {α : Type} (u : Machine α) (l : FaceLocals) (layer : Nat)
    (uvs : List (List α)) (g : GthreeGeometry α) (fi : Int) (idx : List Nat) (k : Nat)
    (h : uvs.length * (if l.is_quad then 4 else 3) ≤ idx.length) :
    readLayers u l layer uvs
        { geometry := g, face_index := fi, iter := { rest := idx, missed := k } } =
      { geometry := { g with uvs := (g.uvs ++
          layersUvs wrapInt (uvVec u) u.vec l.is_quad l.face1_index l.face2_index layer uvs
            idx) },
        face_index := fi,
        iter := { rest := idx.drop (uvs.length * (if l.is_quad then 4 else 3)), missed := k } } := by
  induction uvs generalizing layer g idx with
  | nil => simp [readLayers, layersUvs]
  | cons buf more ih =>
    simp only [List.length_cons, Nat.add_mul, Nat.one_mul] at h
    have h1 : (if l.is_quad then 4 else 3) ≤ idx.length := by omega
    have h2 : more.length * (if l.is_quad then 4 else 3) ≤
        (idx.drop (if l.is_quad then 4 else 3)).length := by
      rw [List.length_drop]; omega
    simp only [readLayers]
    rw [readVec_eq u layer buf _ _ h1]
    simp only [assignUvs_eq]
    rw [ih (layer + 1) _ _ h2]
    simp only [layersUvs, List.append_assoc, List.drop_drop, List.length_cons, Nat.add_mul,
      Nat.one_mul]
    rw [Nat.add_comm (if l.is_quad then 4 else 3) (more.length * (if l.is_quad then 4 else 3))]

theorem readVertexUvs_rest {α : Type} (u : Machine α) (uvs : List (List α)) (m : Nat)
    (l : FaceLocals) (hl : l.is_quad = m.testBit 0) (st : FaceLoop α) :
    (readVertexUvs u uvs m l st).iter.rest =
      st.iter.rest.drop (flagBit m 3 * uvs.length * vertexCount m) := by
  simp only [readVertexUvs, vertex_uv_mask, flagBit, vertexCount]
  cases h3 : m.testBit 3
  · simp
  · simp [readLayers_rest, hl]

theorem readVertexUvs_face_index {α : Type} (u : Machine α) (uvs : List (List α))
    (m : Nat) (l : FaceLocals) (st : FaceLoop α) :
    (readVertexUvs u uvs m l st).face_index = st.face_index := by
  simp only [readVertexUvs]
  split
  · exact readLayers_face_index u l 0 uvs st
  · rfl

theorem readVertexUvs_faces {α : Type} (u : Machine α) (uvs : List (List α))
    (m : Nat) (l : FaceLocals) (st : FaceLoop α) :
    (readVertexUvs u uvs m l st).geometry.faces = st.geometry.faces := by
  simp only [readVertexUvs]
  split
  · exact readLayers_faces u l 0 uvs st
  · rfl

theorem readVertexUvs_vertices {α : Type} (u : Machine α) (uvs : List (List α))
    (m : Nat) (l : FaceLocals) (st : FaceLoop α) :
    (readVertexUvs u uvs m l st).geometry.vertices = st.geometry.vertices := by
  simp only [readVertexUvs]
  split
  · exact readLayers_vertices u l 0 uvs st
  · rfl

theorem decodeRecord_rest {α : Type} (u : Machine α) (uvs : List (List α)) (m : Nat)
    (st : FaceLoop α) :
    (decodeRecord u uvs m st).iter.rest = st.iter.rest.drop (fieldCount uvs.length m) := by
  simp only [decodeRecord]
  rw [emitFaces_locals]
  rw [((consumes_skipReserved u m) _).1]
  rw [readVertexUvs_rest u uvs m _ rfl, readMaterial_rest, emitFaces_rest]
  simp only [List.drop_drop, fieldCount, coreCount]

theorem decodeRecord_face_index {α : Type} (u : Machine α) (uvs : List (List α))
    (m : Nat) (st : FaceLoop α) :
    (decodeRecord u uvs m st).face_index = nextFaceIndex m st.face_index := by
  simp only [decodeRecord, readVertexUvs_face_index, readMaterial_face_index,
    emitFaces_face_index]

theorem emitFaces_faces_length {α : Type} (u : Machine α) (m : Nat) (st : FaceLoop α) :
    (emitFaces u m st).1.geometry.faces.length = st.geometry.faces.length + faceCount m := by
  simp only [emitFaces, quad_mask, faceCount]
  cases m.testBit 0 <;> simp [gthree_geometry_add_face]

theorem decodeRecord_faces_length {α : Type} (u : Machine α) (uvs : List (List α))
    (m : Nat) (st : FaceLoop α) :
    (decodeRecord u uvs m st).geometry.faces.length =
      st.geometry.faces.length + faceCount m := by
  simp only [decodeRecord, gthree_geometry_add_vertex, readVertexUvs_faces,
    readMaterial_faces_length, emitFaces_faces_length]

theorem emitFaces_vertices {α : Type} (u : Machine α) (m : Nat) (st : FaceLoop α) :
    (emitFaces u m st).1.geometry.vertices = st.geometry.vertices := by
  simp only [emitFaces, quad_mask]
  cases m.testBit 0 <;> simp [gthree_geometry_add_face]

theorem decodeRecord_vertices {α : Type} (u : Machine α) (uvs : List (List α))
    (m : Nat) (st : FaceLoop α) :
    (decodeRecord u uvs m st).geometry.vertices = st.geometry.vertices ++ [u.v] := by
  simp only [decodeRecord, gthree_geometry_add_vertex, readVertexUvs_vertices,
    readMaterial_vertices, emitFaces_vertices]

/-- The state after a record whose declared fields are all in the stream. -/
theorem decodeRecord_eq {α : Type} (u : Machine α) (uvs : List (List α)) (m : Nat)
    (g : GthreeGeometry α) (fi : Int) (fields : List Nat) (k : Nat)
    (h : fieldCount uvs.length m ≤ fields.length) :
    decodeRecord u uvs m
        { geometry := g, face_index := fi, iter := { rest := fields, missed := k } } =
      { geometry := recordGeometry u uvs m fi fields g,
        face_index := nextFaceIndex m fi,
        iter := { rest := fields.drop (fieldCount uvs.length m), missed := k } } := by
  have hcore : vertexCount m + flagBit m 1 ≤ fields.length := by
    simp only [fieldCount, coreCount] at h; omega
  simp only [decodeRecord]
  rw [emit_material_eq u m g fi fields k hcore, emitFaces_locals]
  simp only [readVertexUvs, vertex_uv_mask, recordGeometry, recordUvs, recordUvsWith]
  cases h3 : m.testBit 3
  · simp only [Bool.false_eq_true, if_false, gthree_geometry_add_vertex, List.append_nil]
    rw [(consumes_skipReserved u m).eq _ (by
      simp only [List.length_drop, fieldCount, coreCount, flagBit, h3] at h ⊢
      simp only [Bool.false_eq_true, if_false] at h ⊢
      omega)]
    simp [List.drop_drop, fieldCount, coreCount, flagBit, h3]
  · simp only [if_true]
    have hq : (if m.testBit 0 then 4 else 3) = vertexCount m := rfl
    rw [readLayers_eq u _ 0 uvs _ _ _ _ (by
      simp only [List.length_drop, fieldCount, coreCount, flagBit, h3, hq] at h ⊢
      simp only [if_true, Nat.one_mul] at h
      omega)]
    simp only [hq]
    rw [(consumes_skipReserved u m).eq _ (by
      simp only [List.length_drop, fieldCount, coreCount, flagBit, h3] at h ⊢
      simp only [if_true, Nat.one_mul] at h
      omega)]
    simp [List.drop_drop, fieldCount, coreCount, flagBit, h3, gthree_geometry_add_vertex,
      Nat.add_assoc]

theorem getD_take_of_lt {β : Type} (xs : List β) (c i : Nat) (d : β) (h : i < c) :
    (xs.take c).getD i d = xs.getD i d := by
  simp only [List.getD_eq_getElem?_getD, List.getElem?_take_of_lt h]

theorem vertexCount_le (m : Nat) : 3 ≤ vertexCount m ∧ vertexCount m ≤ 4 := by
  simp only [vertexCount]; split <;> omega

theorem vertexCount_quad {m : Nat} (h : m.testBit 0 = true) : vertexCount m = 4 := by
  simp [vertexCount, h]

theorem recordFaces_take (m : Nat) (fields : List Nat) (c : Nat)
    (h : vertexCount m + flagBit m 1 ≤ c) :
    recordFaces m (fields.take c) = recordFaces m fields := by
  have hv := vertexCount_le m
  have hm : recordMaterial m (fields.take c) = recordMaterial m fields := by
    simp only [recordMaterial]
    split
    · rename_i h1
      rw [getD_take_of_lt _ _ _ _ (by simp only [flagBit, h1, if_true] at h; omega)]
    · rfl
  simp only [recordFaces, hm]
  split
  · rename_i h0
    have := vertexCount_quad h0
    rw [getD_take_of_lt _ _ 0 _ (by omega), getD_take_of_lt _ _ 1 _ (by omega),
      getD_take_of_lt _ _ 2 _ (by omega), getD_take_of_lt _ _ 3 _ (by omega)]
  · rw [getD_take_of_lt _ _ 0 _ (by omega), getD_take_of_lt _ _ 1 _ (by omega),
      getD_take_of_lt _ _ 2 _ (by omega)]

theorem layersUvs_take {α : Type} (adr : Int → Int) (deref : Nat → List α → Nat → α × α)
    (d : α × α) (quad : Bool) (f1 f2 : Int) (layer : Nat) (uvs : List (List α)) (idx : List Nat)
    (c : Nat) (h : uvs.length * (if quad then 4 else 3) ≤ c) :
    layersUvs adr deref d quad f1 f2 layer uvs (idx.take c) =
      layersUvs adr deref d quad f1 f2 layer uvs idx := by
  induction uvs generalizing layer idx c with
  | nil => simp [layersUvs]
  | cons buf more ih =>
    simp only [List.length_cons, Nat.add_mul, Nat.one_mul] at h
    simp only [layersUvs, List.take_take, List.drop_take]
    rw [Nat.min_eq_left (by omega), ih _ _ _ (by omega)]

theorem recordUvs_take {α : Type} (u : Machine α) (uvs : List (List α)) (m : Nat)
    (fi : Int) (fields : List Nat) (c : Nat) (h : coreCount uvs.length m ≤ c) :
    recordUvs u uvs m fi (fields.take c) = recordUvs u uvs m fi fields := by
  simp only [recordUvs, recordUvsWith]
  split
  · rename_i h3
    rw [List.drop_take]
    apply layersUvs_take
    simp only [coreCount, flagBit, h3, if_true, Nat.one_mul] at h
    have : (if m.testBit 0 then 4 else 3) = vertexCount m := rfl
    rw [this]
    simp only [flagBit] at h ⊢
    omega
  · rfl

theorem recordGeometry_take {α : Type} (u : Machine α) (uvs : List (List α)) (m : Nat)
    (fi : Int) (fields : List Nat) (g : GthreeGeometry α) (c : Nat)
    (h : coreCount uvs.length m ≤ c) :
    recordGeometry u uvs m fi (fields.take c) g = recordGeometry u uvs m fi fields g := by
  simp only [recordGeometry, recordUvs_take u uvs m fi fields c h,
    recordFaces_take m fields c (by simp only [coreCount] at h; omega)]

theorem recordGeometry_append {α : Type} (u : Machine α) (uvs : List (List α)) (m : Nat)
    (fi : Int) (fields rest : List Nat) (g : GthreeGeometry α)
    (h : coreCount uvs.length m ≤ fields.length) :
    recordGeometry u uvs m fi (fields ++ rest) g = recordGeometry u uvs m fi fields g := by
  rw [← recordGeometry_take u uvs m fi (fields ++ rest) g fields.length h,
    List.take_left]

/-- A complete record followed by `rest`: the geometry of the record, and the cursor on
`rest`. -/
theorem decodeRecord_complete {α : Type} (u : Machine α) (uvs : List (List α)) (m : Nat)
    (g : GthreeGeometry α) (fi : Int) (fields rest : List Nat) (k : Nat)
    (h : fields.length = fieldCount uvs.length m) :
    decodeRecord u uvs m
        { geometry := g, face_index := fi, iter := { rest := fields ++ rest, missed := k } } =
      { geometry := recordGeometry u uvs m fi fields g,
        face_index := nextFaceIndex m fi,
        iter := { rest := rest, missed := k } } := by
  rw [decodeRecord_eq u uvs m g fi (fields ++ rest) k (by simp; omega),
    recordGeometry_append u uvs m fi fields rest g (by simp only [fieldCount] at h; omega),
    ← h, List.drop_left]

theorem faceLoop_fuel {α : Type} (u : Machine α) (uvs : List (List α)) (fuel1 fuel2 : Nat)
    (st : FaceLoop α) (h1 : st.iter.rest.length < fuel1) (h2 : st.iter.rest.length < fuel2) :
    faceLoop u uvs fuel1 st = faceLoop u uvs fuel2 st := by
  induction fuel1 generalizing fuel2 st with
  | zero => omega
  | succ n ih =>
    obtain _ | fuel2 := fuel2
    · omega
    · obtain ⟨g, fi, ⟨rest, k⟩⟩ := st
      cases rest with
      | nil => rfl
      | cons m s =>
        simp only [faceLoop, g_variant_iter_loop]
        simp only [List.length_cons] at h1 h2
        apply ih
        · rw [decodeRecord_rest, List.length_drop]; simp; omega
        · rw [decodeRecord_rest, List.length_drop]; simp; omega

theorem faceLoop_nil {α : Type} (u : Machine α) (uvs : List (List α)) (fuel : Nat)
    (g : GthreeGeometry α) (fi : Int) (k : Nat) :
    faceLoop u uvs (fuel + 1)
        { geometry := g, face_index := fi, iter := { rest := [], missed := k } } =
      { geometry := g, face_index := fi, iter := { rest := [], missed := k + 1 } } := rfl

theorem faceLoop_cons {α : Type} (u : Machine α) (uvs : List (List α)) (fuel : Nat)
    (g : GthreeGeometry α) (fi : Int) (m : Nat) (s : List Nat) (k : Nat) :
    faceLoop u uvs (fuel + 1)
        { geometry := g, face_index := fi, iter := { rest := m :: s, missed := k } } =
      faceLoop u uvs fuel (decodeRecord u uvs m
        { geometry := g, face_index := fi, iter := { rest := s, missed := k } }) := rfl

theorem faceLoop_records {α : Type} (u : Machine α) (uvs : List (List α))
    (rs : List (List Nat)) (hrs : ∀ r ∈ rs, CompleteRecord uvs.length r) (g : GthreeGeometry α)
    (fi : Int) (rest : List Nat) (k : Nat) (fuel : Nat)
    (hfuel : (rs.flatten ++ rest).length < fuel) :
    faceLoop u uvs fuel
        { geometry := g, face_index := fi, iter := { rest := rs.flatten ++ rest, missed := k } } =
      faceLoop u uvs (rest.length + 1)
        { geometry := (applyRecords u uvs g fi rs).1, face_index := (applyRecords u uvs g fi rs).2,
          iter := { rest := rest, missed := k } } := by
  induction rs generalizing g fi fuel with
  | nil =>
    simp only [List.flatten_nil, List.nil_append, applyRecords] at hfuel ⊢
    exact faceLoop_fuel u uvs _ _ _ hfuel (Nat.lt_succ_self _)
  | cons r rs ih =>
    have hr := hrs r (List.mem_cons_self _ _)
    have hrs' : ∀ r ∈ rs, CompleteRecord uvs.length r :=
      fun x hx => hrs x (List.mem_cons_of_mem _ hx)
    cases r with
    | nil => exact absurd hr (fun h => h)
    | cons m fields =>
      simp only [CompleteRecord] at hr
      obtain _ | fuel := fuel
      · omega
      · simp only [List.flatten_cons, List.cons_append, List.append_assoc, applyRecords]
        rw [faceLoop_cons, decodeRecord_complete u uvs m g fi fields _ k hr]
        apply ih hrs'
        simp only [List.flatten_cons, List.cons_append, List.append_assoc, List.length_cons,
          List.length_append] at hfuel ⊢
        omega

theorem recordFaces_length (m : Nat) (fields : List Nat) :
    (recordFaces m fields).length = faceCount m := by
  simp only [recordFaces, faceCount]; split <;> rfl

theorem addVertices_faces {α : Type} (u : Machine α) :
    ∀ (data : List α) (g : GthreeGeometry α), (addVertices u g data).faces = g.faces
  | [], g => by simp [addVertices]
  | [_], g => by simp [addVertices]
  | [_, _], g => by simp [addVertices]
  | x :: y :: z :: more, g => by
    rw [addVertices, addVertices_faces u more]
    rfl

theorem addVertices_uvs {α : Type} (u : Machine α) :
    ∀ (data : List α) (g : GthreeGeometry α), (addVertices u g data).uvs = g.uvs
  | [], g => by simp [addVertices]
  | [_], g => by simp [addVertices]
  | [_, _], g => by simp [addVertices]
  | x :: y :: z :: more, g => by
    rw [addVertices, addVertices_uvs u more]
    rfl

theorem applyRecords_faces_length {α : Type} (u : Machine α) (uvs : List (List α))
    (rs : List (List Nat)) (hrs : ∀ r ∈ rs, CompleteRecord uvs.length r) (g : GthreeGeometry α)
    (fi : Int) :
    (applyRecords u uvs g fi rs).1.faces.length =
      g.faces.length + (rs.countP (fun r => !isQuadRecord r) + 2 * rs.countP isQuadRecord) := by
  induction rs generalizing g fi with
  | nil => simp [applyRecords]
  | cons r rs ih =>
    have hr := hrs r (List.mem_cons_self _ _)
    have hrs' : ∀ r ∈ rs, CompleteRecord uvs.length r :=
      fun x hx => hrs x (List.mem_cons_of_mem _ hx)
    cases r with
    | nil => exact absurd hr (fun h => h)
    | cons m fields =>
      simp only [applyRecords]
      have hq : isQuadRecord (m :: fields) = m.testBit 0 := rfl
      rw [ih hrs', List.countP_cons, List.countP_cons]
      simp only [hq, recordGeometry, List.length_append, recordFaces_length, faceCount]
      by_cases h : m.testBit 0 = true
      · simp only [h, if_true, Bool.not_true, Bool.false_eq_true, if_false]; omega
      · simp only [h, if_false, Bool.not_eq_true] at h ⊢
        simp only [h, Bool.not_false, if_true, Bool.false_eq_true, if_false]; omega

theorem decodeFaces_records {α : Type} (u : Machine α) (uvs : List (List α))
    (rs : List (List Nat)) (hrs : ∀ r ∈ rs, CompleteRecord uvs.length r) (g : GthreeGeometry α)
    (rest : List Nat) :
    decodeFaces u uvs g (rs.flatten ++ rest) =
      faceLoop u uvs (rest.length + 1)
        { geometry := (applyRecords u uvs g 0 rs).1, face_index := (applyRecords u uvs g 0 rs).2,
          iter := { rest := rest, missed := 0 } } :=
  faceLoop_records u uvs rs hrs g 0 rest 0 _ (Nat.lt_succ_self _)

theorem all_take_iff (p : Nat → Bool) (xs : List Nat) (n : Nat) (h : n ≤ xs.length) :
    (xs.take n).all p = true ↔ ∀ j, j < n → p (xs.getD j 0) = true := by
  induction n generalizing xs with
  | zero => simp
  | succ n ih =>
    cases xs with
    | nil => simp at h
    | cons x r =>
      simp only [List.length_cons, Nat.add_le_add_iff_right] at h
      simp only [List.take_succ_cons, List.all_cons, Bool.and_eq_true, ih r h]
      constructor
      · rintro ⟨h0, h1⟩ j hj
        cases j with
        | zero => simpa using h0
        | succ j => simpa using h1 j (by omega)
      · intro hall
        exact ⟨by simpa using hall 0 (by omega), fun j hj => by simpa using hall (j + 1) (by omega)⟩

theorem layersInRange_iff {α : Type} (q : Bool) (uvs : List (List α)) (idx : List Nat)
    (h : uvs.length * (if q then 4 else 3) ≤ idx.length) :
    layersInRange q uvs idx = true ↔
      ∀ l buf, uvs.get? l = some buf → ∀ j, j < (if q then 4 else 3) →
        uvInRange buf (idx.getD (l * (if q then 4 else 3) + j) 0) = true := by
  induction uvs generalizing idx with
  | nil => simp [layersInRange]
  | cons b more ih =>
    simp only [List.length_cons, Nat.add_mul, Nat.one_mul] at h
    have h1 : (if q then 4 else 3) ≤ idx.length := by omega
    have h2 : more.length * (if q then 4 else 3) ≤ (idx.drop (if q then 4 else 3)).length := by
      rw [List.length_drop]; omega
    simp only [layersInRange, Bool.and_eq_true, all_take_iff _ idx _ h1, ih _ h2]
    constructor
    · rintro ⟨h0, hr⟩ l buf hl j hj
      cases l with
      | zero =>
        simp only [List.get?_cons_zero, Option.some.injEq] at hl
        subst hl
        simpa using h0 j hj
      | succ l =>
        simp only [List.get?_cons_succ] at hl
        have := hr l buf hl j hj
        simp only [List.getD_eq_getElem?_getD, List.getElem?_drop] at this ⊢
        rw [show (l + 1) * (if q then 4 else 3) + j =
          (if q then 4 else 3) + (l * (if q then 4 else 3) + j) from by
            rw [Nat.add_mul, Nat.one_mul]; omega]
        exact this
    · intro hall
      refine ⟨fun j hj => by simpa using hall 0 b rfl j hj, fun l buf hl j hj => ?_⟩
      have := hall (l + 1) buf (by simpa using hl) j hj
      simp only [List.getD_eq_getElem?_getD, List.getElem?_drop] at this ⊢
      rw [show (l + 1) * (if q then 4 else 3) + j =
        (if q then 4 else 3) + (l * (if q then 4 else 3) + j) from by
          rw [Nat.add_mul, Nat.one_mul]; omega] at this
      exact this

theorem recordInRange_iff {α : Type} (uvs : List (List α)) (m : Nat) (fields : List Nat)
    (hc : coreCount uvs.length m ≤ fields.length) :
    recordInRange uvs (m :: fields) = true ↔ UvIndicesInRange uvs (m :: fields) := by
  simp only [recordInRange, UvIndicesInRange, Bool.or_eq_true, Bool.not_eq_true']
  by_cases h3 : m.testBit 3 = true
  · have hq : (if m.testBit 0 then 4 else 3) = vertexCount m := rfl
    have hlen : uvs.length * (if m.testBit 0 then 4 else 3) ≤
        (fields.drop (vertexCount m + flagBit m 1)).length := by
      rw [List.length_drop, hq]
      simp only [coreCount, flagBit, h3, if_true, Nat.one_mul] at hc
      simp only [flagBit]
      omega
    simp only [h3, Bool.true_eq_false, false_or, forall_true_left,
      layersInRange_iff _ _ _ hlen, hq, uvIndex, List.getD_eq_getElem?_getD, List.getElem?_drop,
      Nat.add_assoc]
  · simp only [Bool.not_eq_true] at h3
    simp [h3]

theorem get?_some_lt {β : Type} (xs : List β) (i : Nat) (x : β) (h : xs.get? i = some x) :
    i < xs.length := by
  by_contra hn
  rw [List.get?_eq_none.mpr (by omega)] at h
  exact Option.noConfusion h

theorem uvIndex_append (L : Nat) (m : Nat) (fields rest : List Nat) (l j : Nat)
    (hc : coreCount L m ≤ fields.length) (h3 : m.testBit 3 = true) (hl : l < L)
    (hj : j < vertexCount m) :
    uvIndex m (fields ++ rest) l j = uvIndex m fields l j := by
  have hmul : (l + 1) * vertexCount m ≤ L * vertexCount m := Nat.mul_le_mul_right _ hl
  rw [Nat.add_mul, Nat.one_mul] at hmul
  simp only [coreCount, flagBit, h3, if_true, Nat.one_mul] at hc
  simp only [uvIndex, flagBit]
  rw [List.getD_append]
  omega

theorem UvIndicesInRange_append {α : Type} (uvs : List (List α)) (m : Nat)
    (fields rest : List Nat) (hc : coreCount uvs.length m ≤ fields.length) :
    UvIndicesInRange uvs (m :: (fields ++ rest)) ↔ UvIndicesInRange uvs (m :: fields) := by
  simp only [UvIndicesInRange]
  constructor
  · intro hh h3 l buf hl j hj
    have := hh h3 l buf hl j hj
    rwa [uvIndex_append uvs.length m fields rest l j hc h3 (get?_some_lt uvs l buf hl) hj] at this
  · intro hh h3 l buf hl j hj
    rw [uvIndex_append uvs.length m fields rest l j hc h3 (get?_some_lt uvs l buf hl) hj]
    exact hh h3 l buf hl j hj

theorem readVecInRange_eq {α : Type} (u : Machine α) (buf : List α) (n : Nat)
    (it : GVariantIter) (h : n ≤ it.rest.length) :
    readVecInRange u buf n it = (it.rest.take n).all (uvInRange buf) := by
  induction n generalizing it with
  | zero => simp [readVecInRange]
  | succ n ih =>
    obtain ⟨rest, k⟩ := it
    cases rest with
    | nil => simp at h
    | cons x r =>
      simp only [List.length_cons, Nat.add_le_add_iff_right] at h
      simp [readVecInRange, ih { rest := r, missed := k } h]

theorem readLayersInRange_eq {α : Type} (u : Machine α) (l : FaceLocals) (layer : Nat)
    (uvs : List (List α)) (g : GthreeGeometry α) (fi : Int) (idx : List Nat) (k : Nat)
    (h : uvs.length * (if l.is_quad then 4 else 3) ≤ idx.length) :
    readLayersInRange u l layer uvs
        { geometry := g, face_index := fi, iter := { rest := idx, missed := k } } =
      layersInRange l.is_quad uvs idx := by
  induction uvs generalizing layer g idx with
  | nil => simp [readLayersInRange, layersInRange]
  | cons buf more ih =>
    simp only [List.length_cons, Nat.add_mul, Nat.one_mul] at h
    have h1 : (if l.is_quad then 4 else 3) ≤ idx.length := by omega
    have h2 : more.length * (if l.is_quad then 4 else 3) ≤
        (idx.drop (if l.is_quad then 4 else 3)).length := by
      rw [List.length_drop]; omega
    simp only [readLayersInRange, layersInRange]
    rw [readVec_eq u layer buf _ _ h1, readVecInRange_eq u buf _ _ h1]
    simp only
    rw [ih (layer + 1) _ _ h2]

theorem decodeRecordInRange_eq {α : Type} (u : Machine α) (uvs : List (List α)) (m : Nat)
    (g : GthreeGeometry α) (fi : Int) (fields : List Nat) (k : Nat)
    (h : coreCount uvs.length m ≤ fields.length) :
    decodeRecordInRange u uvs m
        { geometry := g, face_index := fi, iter := { rest := fields, missed := k } } =
      recordInRange uvs (m :: fields) := by
  have hcore : vertexCount m + flagBit m 1 ≤ fields.length := by
    simp only [coreCount] at h; omega
  simp only [decodeRecordInRange]
  rw [emit_material_eq u m g fi fields k hcore, emitFaces_locals]
  simp only [readVertexUvsInRange, vertex_uv_mask, recordInRange]
  cases h3 : m.testBit 3
  · simp
  · simp only [if_true, Bool.not_true, Bool.false_or]
    have hq : (if m.testBit 0 then 4 else 3) = vertexCount m := rfl
    rw [readLayersInRange_eq u _ 0 uvs _ _ _ _ (by
      simp only [List.length_drop, coreCount, flagBit, h3, hq] at h ⊢
      simp only [if_true, Nat.one_mul] at h
      omega)]

/-- Whether the UV reads of a complete record followed by `rest` are in range. -/
theorem decodeRecordInRange_complete {α : Type} (u : Machine α) (uvs : List (List α)) (m : Nat)
    (g : GthreeGeometry α) (fi : Int) (fields rest : List Nat) (k : Nat)
    (h : fields.length = fieldCount uvs.length m) :
    decodeRecordInRange u uvs m
        { geometry := g, face_index := fi, iter := { rest := fields ++ rest, missed := k } } =
      true ↔ UvIndicesInRange uvs (m :: fields) := by
  have hc : coreCount uvs.length m ≤ fields.length := by simp only [fieldCount] at h; omega
  rw [decodeRecordInRange_eq u uvs m g fi (fields ++ rest) k (by simp; omega),
    recordInRange_iff uvs m (fields ++ rest) (by simp; omega),
    UvIndicesInRange_append uvs m fields rest hc]

theorem faceLoopInRange_fuel {α : Type} (u : Machine α) (uvs : List (List α))
    (fuel1 fuel2 : Nat) (st : FaceLoop α) (h1 : st.iter.rest.length < fuel1)
    (h2 : st.iter.rest.length < fuel2) :
    faceLoopInRange u uvs fuel1 st = faceLoopInRange u uvs fuel2 st := by
  induction fuel1 generalizing fuel2 st with
  | zero => omega
  | succ n ih =>
    obtain _ | fuel2 := fuel2
    · omega
    · obtain ⟨g, fi, ⟨rest, k⟩⟩ := st
      cases rest with
      | nil => rfl
      | cons m s =>
        simp only [faceLoopInRange, g_variant_iter_loop]
        simp only [List.length_cons] at h1 h2
        rw [ih fuel2]
        · rw [decodeRecord_rest, List.length_drop]; simp; omega
        · rw [decodeRecord_rest, List.length_drop]; simp; omega

theorem faceLoopInRange_cons {α : Type} (u : Machine α) (uvs : List (List α)) (fuel : Nat)
    (g : GthreeGeometry α) (fi : Int) (m : Nat) (s : List Nat) (k : Nat) :
    faceLoopInRange u uvs (fuel + 1)
        { geometry := g, face_index := fi, iter := { rest := m :: s, missed := k } } =
      (decodeRecordInRange u uvs m
          { geometry := g, face_index := fi, iter := { rest := s, missed := k } } &&
        faceLoopInRange u uvs fuel (decodeRecord u uvs m
          { geometry := g, face_index := fi, iter := { rest := s, missed := k } })) := rfl

theorem faceLoopInRange_nil {α : Type} (u : Machine α) (uvs : List (List α)) (fuel : Nat)
    (g : GthreeGeometry α) (fi : Int) (k : Nat) :
    faceLoopInRange u uvs fuel
        { geometry := g, face_index := fi, iter := { rest := [], missed := k } } = true := by
  cases fuel <;> rfl

theorem faceLoopInRange_records {α : Type} (u : Machine α) (uvs : List (List α))
    (rs : List (List Nat)) (hrs : ∀ r ∈ rs, CompleteRecord uvs.length r) (g : GthreeGeometry α)
    (fi : Int) (rest : List Nat) (k : Nat) (fuel : Nat)
    (hfuel : (rs.flatten ++ rest).length < fuel) :
    faceLoopInRange u uvs fuel
        { geometry := g, face_index := fi, iter := { rest := rs.flatten ++ rest, missed := k } } =
      true ↔
    (∀ r ∈ rs, UvIndicesInRange uvs r) ∧
      faceLoopInRange u uvs (rest.length + 1)
        { geometry := (applyRecords u uvs g fi rs).1, face_index := (applyRecords u uvs g fi rs).2,
          iter := { rest := rest, missed := k } } = true := by
  induction rs generalizing g fi fuel with
  | nil =>
    simp only [List.flatten_nil, List.nil_append, applyRecords, List.not_mem_nil,
      false_implies, implies_true, true_and] at hfuel ⊢
    rw [faceLoopInRange_fuel u uvs _ _ _ hfuel (Nat.lt_succ_self _)]
  | cons r rs ih =>
    have hr := hrs r (List.mem_cons_self _ _)
    have hrs' : ∀ r ∈ rs, CompleteRecord uvs.length r :=
      fun x hx => hrs x (List.mem_cons_of_mem _ hx)
    cases r with
    | nil => exact absurd hr (fun h => h)
    | cons m fields =>
      simp only [CompleteRecord] at hr
      obtain _ | fuel := fuel
      · omega
      · simp only [List.flatten_cons, List.cons_append, List.append_assoc, applyRecords,
          List.forall_mem_cons]
        rw [faceLoopInRange_cons, Bool.and_eq_true,
          decodeRecordInRange_complete u uvs m g fi fields _ k hr,
          decodeRecord_complete u uvs m g fi fields _ k hr, ih hrs', and_assoc]
        simp only [List.flatten_cons, List.cons_append, List.append_assoc, List.length_cons,
          List.length_append] at hfuel ⊢
        omega

theorem decodeFacesInRange_complete {α : Type} (u : Machine α) (uvs : List (List α))
    (rs : List (List Nat)) (hrs : ∀ r ∈ rs, CompleteRecord uvs.length r)
    (g : GthreeGeometry α) :
    decodeFacesInRange u uvs g rs.flatten = true ↔ ∀ r ∈ rs, UvIndicesInRange uvs r := by
  have h := faceLoopInRange_records u uvs rs hrs g 0 [] 0 (rs.flatten.length + 1)
    (by simp)
  simp only [List.append_nil, faceLoopInRange_nil, and_true] at h
  exact h

theorem uvIndicesInRange_of_all {α : Type} (uvs : List (List α)) (rs : List (List Nat))
    (hrs : ∀ r ∈ rs, CompleteRecord uvs.length r) (h : rs.all (recordInRange uvs) = true) :
    ∀ r ∈ rs, UvIndicesInRange uvs r := by
  intro r hr
  have hc := hrs r hr
  have hin := List.all_eq_true.mp h r hr
  cases r with
  | nil => exact trivial
  | cons m fields =>
    simp only [CompleteRecord, fieldCount] at hc
    exact (recordInRange_iff uvs m fields (by omega)).mp hin

theorem decodeFaces_complete {α : Type} (u : Machine α) (uvs : List (List α))
    (rs : List (List Nat)) (hrs : ∀ r ∈ rs, CompleteRecord uvs.length r)
    (g : GthreeGeometry α) :
    decodeFaces u uvs g rs.flatten =
      { geometry := (applyRecords u uvs g 0 rs).1, face_index := (applyRecords u uvs g 0 rs).2,
        iter := { rest := [], missed := 1 } } := by
  have h := decodeFaces_records u uvs rs hrs g []
  simp only [List.append_nil, List.length_nil, Nat.zero_add, faceLoop_nil] at h
  exact h

/-- The geometry handed to the face loop: the vertices of the document. -/
theorem buildGeometry_faces {α : Type} (u : Machine α) (value : GVariant α) (s : List Nat)
    (hf : value.faces = some s) :
    buildGeometry u value =
        (decodeFaces u (retainedUvs value)
          (addVertices u gthree_geometry_new (value.vertices.getD [])) s).geometry ∧
      decodeInRange u value =
        decodeFacesInRange u (retainedUvs value)
          (addVertices u gthree_geometry_new (value.vertices.getD [])) s := by
  simp only [buildGeometry, decodeInRange, hf]
  cases value.vertices <;> exact ⟨rfl, rfl⟩

theorem new_from_variant_of_inRange {α : Type} (u : Machine α) (value : GVariant α)
    (h : decodeInRange u value = true) :
    gthree_loader_new_from_variant u value =
      some (some { geometry := buildGeometry u value, materials := [] }, none) := by
  simp only [gthree_loader_new_from_variant, h, if_true]

theorem new_from_variant_of_not_inRange {α : Type} (u : Machine α) (value : GVariant α)
    (h : decodeInRange u value = false) : gthree_loader_new_from_variant u value = none := by
  simp only [gthree_loader_new_from_variant, h, Bool.false_eq_true, if_false]

/-- C1: for a face stream that is a concatenation of complete records, whenever
`gthree_loader_new_from_variant` returns, it returns a loader, and the number of faces it has
appended to the geometry is the number of records with bit 0 clear plus twice the number of
records with bit 0 set.  It returns when the UV indices of the records are in range (every read
of a UV buffer is inside the buffer); when a UV index is out of range, the read of lines
296-297 is outside the buffer and the call has no defined result, so there is no geometry. -/
theorem face_count_of_complete_records {α : Type} (u : Machine α) (value : GVariant α)
    (rs : List (List Nat)) (hfaces : value.faces = some rs.flatten)
    (hrs : ∀ r ∈ rs, CompleteRecord (retainedUvs value).length r) :
    (∀ result, gthree_loader_new_from_variant u value = some result →
      ∃ loader, result = (some loader, none) ∧
        loader.geometry.faces.length =
          rs.countP (fun r => !isQuadRecord r) + 2 * rs.countP isQuadRecord) ∧
    ((∀ r ∈ rs, UvIndicesInRange (retainedUvs value) r) →
      ∃ loader, gthree_loader_new_from_variant u value = some (some loader, none) ∧
        loader.geometry.faces.length =
          rs.countP (fun r => !isQuadRecord r) + 2 * rs.countP isQuadRecord) ∧
    (¬ (∀ r ∈ rs, UvIndicesInRange (retainedUvs value) r) →
      gthree_loader_new_from_variant u value = none) := by
  obtain ⟨hg, hin⟩ := buildGeometry_faces u value rs.flatten hfaces
  have hiff := decodeFacesInRange_complete u (retainedUvs value) rs hrs
    (addVertices u gthree_geometry_new (value.vertices.getD []))
  rw [← hin] at hiff
  have hcount : (buildGeometry u value).faces.length =
      rs.countP (fun r => !isQuadRecord r) + 2 * rs.countP isQuadRecord := by
    rw [hg, decodeFaces_complete u _ rs hrs, applyRecords_faces_length u _ rs hrs,
      addVertices_faces]
    simp [gthree_geometry_new]
  refine ⟨?_, ?_, ?_⟩
  · intro result hres
    cases hd : decodeInRange u value with
    | false =>
      rw [new_from_variant_of_not_inRange u value hd] at hres
      exact Option.noConfusion hres
    | true =>
      rw [new_from_variant_of_inRange u value hd] at hres
      exact ⟨_, (Option.some.inj hres).symm, hcount⟩
  · intro h
    exact ⟨_, new_from_variant_of_inRange u value (hiff.mpr h), hcount⟩
  · intro h
    apply new_from_variant_of_not_inRange
    cases hd : decodeInRange u value with
    | false => rfl
    | true => exact absurd (hiff.mp hd) h

/-- C1, at the round-trip quad (material, vertex UVs) followed by a triangle and a triangle with
a normal: `1 * 2 + 2` faces. -/
theorem face_count_of_complete_records_witness :
    ∃ loader, gthree_loader_new_from_variant zeros
        { uvs := some [[0, 0, 1, 0, 1, 1, 0, 1]], vertices := none,
          faces := some [11, 0, 1, 2, 3, 5, 0, 1, 2, 3, 0, 0, 1, 2, 16, 1, 2, 3, 9] } =
          some (some loader, none) ∧
      loader.geometry.faces.length = 2 + 2 * 1 :=
  (face_count_of_complete_records zeros
    { uvs := some [[0, 0, 1, 0, 1, 1, 0, 1]], vertices := none,
      faces := some [11, 0, 1, 2, 3, 5, 0, 1, 2, 3, 0, 0, 1, 2, 16, 1, 2, 3, 9] }
    [[11, 0, 1, 2, 3, 5, 0, 1, 2, 3], [0, 0, 1, 2], [16, 1, 2, 3, 9]] rfl (by decide)).2.1
    (uvIndicesInRange_of_all _ _ (by decide) (by decide))

/-- C2: a complete record with position indices `a, b, c` (and `d` for a quad) appends exactly
one face `(a, b, c)` when bit 0 is clear, and exactly two faces, `(a, b, d)` and right after it
`(b, c, d)`, when bit 0 is set: the diagonal of a split quad is `b`-`d`. -/
theorem quad_split {α : Type} (u : Machine α) (uvs : List (List α)) (g : GthreeGeometry α)
    (fi : Int) (k : Nat) (m a b c : Nat) (tail rest : List Nat)
    (hc : CompleteRecord uvs.length (m :: a :: b :: c :: tail)) :
    (m.testBit 0 = false →
      ∃ f1, (decodeRecord u uvs m ⟨g, fi, ⟨a :: b :: c :: tail ++ rest, k⟩⟩).geometry.faces =
            g.faces ++ [f1] ∧
        (f1.a, f1.b, f1.c) = (a, b, c)) ∧
    (m.testBit 0 = true →
      ∃ d tail1 f1 f2, tail = d :: tail1 ∧
        (decodeRecord u uvs m ⟨g, fi, ⟨a :: b :: c :: tail ++ rest, k⟩⟩).geometry.faces =
            g.faces ++ [f1, f2] ∧
        (f1.a, f1.b, f1.c) = (a, b, d) ∧ (f2.a, f2.b, f2.c) = (b, c, d)) := by
  rw [decodeRecord_complete u uvs m g fi (a :: b :: c :: tail) rest k hc]
  simp only [recordGeometry, recordFaces]
  constructor
  · intro h0
    exact ⟨⟨a, b, c, recordMaterial m (a :: b :: c :: tail)⟩,
      by simp only [h0, Bool.false_eq_true, if_false]; rfl, rfl⟩
  · intro h0
    cases tail with
    | nil =>
      simp only [CompleteRecord, fieldCount, coreCount, vertexCount, h0, if_true,
        List.length_cons, List.length_nil] at hc
      omega
    | cons d tail1 =>
      exact ⟨d, tail1, ⟨a, b, d, recordMaterial m (a :: b :: c :: d :: tail1)⟩,
        ⟨b, c, d, recordMaterial m (a :: b :: c :: d :: tail1)⟩, rfl,
        by simp only [h0, if_true]; rfl, rfl, rfl⟩

/-- C2, at the quad record `1, 0, 1, 2, 3`: the faces are `(0, 1, 3)` then `(1, 2, 3)`. -/
theorem quad_split_witness :
    ∃ d tail1 f1 f2, [3] = d :: tail1 ∧
      (decodeRecord zeros [] 1 ⟨gthree_geometry_new, 0, ⟨0 :: 1 :: 2 :: [3] ++ [], 0⟩⟩).geometry.faces =
          (gthree_geometry_new : GthreeGeometry Int).faces ++ [f1, f2] ∧
      (f1.a, f1.b, f1.c) = (0, 1, d) ∧ (f2.a, f2.b, f2.c) = (1, 2, d) :=
  (quad_split zeros [] gthree_geometry_new 0 0 1 0 1 2 [3] [] (by decide)).2 (by decide)

theorem recordFaces_material (m : Nat) (fields : List Nat) :
    ∀ f ∈ recordFaces m fields, f.material_index = recordMaterial m fields := by
  intro f hf
  simp only [recordFaces] at hf
  by_cases h0 : m.testBit 0 = true
  · simp only [h0, if_true, List.mem_cons, List.mem_singleton, List.not_mem_nil, or_false] at hf
    rcases hf with rfl | rfl <;> rfl
  · simp only [h0, if_false, List.mem_singleton, Bool.false_eq_true] at hf
    subst hf; rfl

/-- C4: in a complete record with bit 1 set, the integer right after the position indices is
the material index of every face the record appends (both triangles of a quad); with bit 1
clear the material step leaves the cursor where it is and the faces have no material index. -/
theorem material_index_assignment {α : Type} (u : Machine α) (uvs : List (List α))
    (g : GthreeGeometry α) (fi : Int) (k : Nat) (m : Nat) (fields rest : List Nat)
    (hc : CompleteRecord uvs.length (m :: fields)) :
    ∃ news, (decodeRecord u uvs m ⟨g, fi, ⟨fields ++ rest, k⟩⟩).geometry.faces = g.faces ++ news ∧
      news.length = faceCount m ∧
      (m.testBit 1 = true →
        (∃ x more, fields.drop (vertexCount m) = x :: more ∧
          ∀ f ∈ news, f.material_index = some x) ∧
        ∀ l (st : FaceLoop α), (readMaterial u m l st).iter.rest = st.iter.rest.drop 1) ∧
      (m.testBit 1 = false →
        (∀ f ∈ news, f.material_index = none) ∧
        ∀ l (st : FaceLoop α), readMaterial u m l st = st) := by
  rw [decodeRecord_complete u uvs m g fi fields rest k hc]
  refine ⟨recordFaces m fields, rfl, recordFaces_length m fields, ?_, ?_⟩
  · intro h1
    constructor
    · have hlen : vertexCount m < fields.length := by
        simp only [CompleteRecord, fieldCount, coreCount, flagBit, h1, if_true] at hc
        omega
      cases hd : fields.drop (vertexCount m) with
      | nil =>
        have := congrArg List.length hd
        simp only [List.length_drop, List.length_nil] at this
        omega
      | cons x more =>
        refine ⟨x, more, rfl, ?_⟩
        have hx : fields.getD (vertexCount m) 0 = x := by
          have := congrArg (fun l => l.getD 0 0) hd
          simpa using this
        intro f hf
        rw [recordFaces_material m fields f hf]
        simp only [recordMaterial, h1, if_true, hx]
    · intro l st
      have := readMaterial_rest u m l st
      simpa [flagBit, h1] using this
  · intro h1
    constructor
    · intro f hf
      rw [recordFaces_material m fields f hf]
      simp only [recordMaterial, h1, Bool.false_eq_true, if_false]
    · intro l st
      simp [readMaterial, h1]

/-- C4, at the quad record `3, 0, 1, 2, 3, 7`: both faces get material index `7`. -/
theorem material_index_assignment_witness :
    ∃ news, (decodeRecord zeros [] 3 ⟨gthree_geometry_new, 0, ⟨[0, 1, 2, 3, 7] ++ [], 0⟩⟩).geometry.faces =
          (gthree_geometry_new : GthreeGeometry Int).faces ++ news ∧
      news.length = faceCount 3 ∧
      (Nat.testBit 3 1 = true →
        (∃ x more, [0, 1, 2, 3, 7].drop (vertexCount 3) = x :: more ∧
          ∀ f ∈ news, f.material_index = some x) ∧
        ∀ l (st : FaceLoop Int), (readMaterial zeros 3 l st).iter.rest = st.iter.rest.drop 1) ∧
      (Nat.testBit 3 1 = false →
        (∀ f ∈ news, f.material_index = none) ∧
        ∀ l (st : FaceLoop Int), readMaterial zeros 3 l st = st) :=
  material_index_assignment zeros [] gthree_geometry_new 0 0 3 [0, 1, 2, 3, 7] [] (by decide)

/-- C5: a complete record with bitmask `m`, decoded with `L` retained layers, takes exactly the
`1 + n + [bit1] + [bit3]*L*n + [bit4] + [bit5]*n + [bit6] + [bit7]*n` integers it declares: the
bitmask, then the positions, the material, the vertex-UV indices and the reserved fields, each
step starting where the previous one stopped; the loop goes on with the integer that follows,
which it reads as the next bitmask. -/
theorem record_consumption {α : Type} (u : Machine α) (uvs : List (List α))
    (g : GthreeGeometry α) (fi : Int) (k : Nat) (m : Nat) (fields rest : List Nat)
    (hlen : 1 + fields.length = 1 + vertexCount m + flagBit m 1 +
      flagBit m 3 * uvs.length * vertexCount m + flagBit m 4 + flagBit m 5 * vertexCount m +
      flagBit m 6 + flagBit m 7 * vertexCount m) :
    (emitFaces u m ⟨g, fi, ⟨fields ++ rest, k⟩⟩).1.iter.rest =
        (fields ++ rest).drop (vertexCount m) ∧
      (readMaterial u m (emitFaces u m ⟨g, fi, ⟨fields ++ rest, k⟩⟩).2
          (emitFaces u m ⟨g, fi, ⟨fields ++ rest, k⟩⟩).1).iter.rest =
        (fields ++ rest).drop (vertexCount m + flagBit m 1) ∧
      (readVertexUvs u uvs m (emitFaces u m ⟨g, fi, ⟨fields ++ rest, k⟩⟩).2
          (readMaterial u m (emitFaces u m ⟨g, fi, ⟨fields ++ rest, k⟩⟩).2
            (emitFaces u m ⟨g, fi, ⟨fields ++ rest, k⟩⟩).1)).iter.rest =
        (fields ++ rest).drop
          (vertexCount m + flagBit m 1 + flagBit m 3 * uvs.length * vertexCount m) ∧
      (decodeRecord u uvs m ⟨g, fi, ⟨fields ++ rest, k⟩⟩).iter = ⟨rest, k⟩ ∧
      ∀ fuel, faceLoop u uvs (fuel + 1) ⟨g, fi, ⟨m :: fields ++ rest, k⟩⟩ =
        faceLoop u uvs fuel ⟨(decodeRecord u uvs m ⟨g, fi, ⟨fields ++ rest, k⟩⟩).geometry,
          (decodeRecord u uvs m ⟨g, fi, ⟨fields ++ rest, k⟩⟩).face_index, ⟨rest, k⟩⟩ := by
  have hc : fields.length = fieldCount uvs.length m := by
    simp only [fieldCount, coreCount, reservedCount]; omega
  have hd := decodeRecord_complete u uvs m g fi fields rest k hc
  refine ⟨emitFaces_rest u m _, ?_, ?_, ?_, ?_⟩
  · rw [readMaterial_rest, emitFaces_rest, List.drop_drop]
  · rw [emitFaces_locals, readVertexUvs_rest u uvs m _ rfl, readMaterial_rest, emitFaces_rest,
      List.drop_drop, List.drop_drop, Nat.add_assoc]
  · rw [hd]
  · intro fuel
    rw [List.cons_append, faceLoop_cons, hd]

/-- C5, at the record `11, 0, 1, 2, 3, 5, 0, 1, 2, 3` (quad, material, vertex UVs) with one
layer, followed by `0, 0, 1, 2`: ten integers are taken. -/
theorem record_consumption_witness :
    (decodeRecord zeros [[0, 0, 1, 0, 1, 1, 0, 1]] 11
        ⟨gthree_geometry_new, 0, ⟨[0, 1, 2, 3, 5, 0, 1, 2, 3] ++ [0, 0, 1, 2], 0⟩⟩).iter =
      ⟨[0, 0, 1, 2], 0⟩ :=
  (record_consumption zeros [[0, 0, 1, 0, 1, 1, 0, 1]] gthree_geometry_new 0 0 11
    [0, 1, 2, 3, 5, 0, 1, 2, 3] [0, 0, 1, 2] (by decide)).2.2.2.1

theorem clearReserved_testBit (m i : Nat) :
    (clearReserved m).testBit i = (m.testBit i && !(Nat.testBit 0xF0 i)) := by
  simp only [clearReserved, Nat.testBit_xor, Nat.testBit_and]
  cases m.testBit i <;> cases Nat.testBit 0xF0 i <;> rfl

theorem clearReserved_bit0 (m : Nat) : (clearReserved m).testBit 0 = m.testBit 0 := by
  rw [clearReserved_testBit]; simp [show Nat.testBit 0xF0 0 = false from by decide]

theorem clearReserved_bit1 (m : Nat) : (clearReserved m).testBit 1 = m.testBit 1 := by
  rw [clearReserved_testBit]; simp [show Nat.testBit 0xF0 1 = false from by decide]

theorem clearReserved_bit3 (m : Nat) : (clearReserved m).testBit 3 = m.testBit 3 := by
  rw [clearReserved_testBit]; simp [show Nat.testBit 0xF0 3 = false from by decide]

theorem clearReserved_reservedCount (m : Nat) : reservedCount (clearReserved m) = 0 := by
  simp [reservedCount, flagBit, clearReserved_testBit,
    show Nat.testBit 0xF0 4 = true from by decide, show Nat.testBit 0xF0 5 = true from by decide,
    show Nat.testBit 0xF0 6 = true from by decide, show Nat.testBit 0xF0 7 = true from by decide]

theorem clearReserved_coreCount (L m : Nat) : coreCount L (clearReserved m) = coreCount L m := by
  simp only [coreCount, vertexCount, flagBit, clearReserved_bit0, clearReserved_bit1,
    clearReserved_bit3]

theorem clearReserved_faceCount (m : Nat) : faceCount (clearReserved m) = faceCount m := by
  simp only [faceCount, clearReserved_bit0]

theorem clearReserved_recordGeometry {α : Type} (u : Machine α) (uvs : List (List α))
    (m : Nat) (fi : Int) (fields : List Nat) (g : GthreeGeometry α) :
    recordGeometry u uvs (clearReserved m) fi fields g = recordGeometry u uvs m fi fields g := by
  simp only [recordGeometry, recordFaces, recordMaterial, recordUvs, recordUvsWith, face2Index,
    vertexCount, flagBit, clearReserved_bit0, clearReserved_bit1, clearReserved_bit3]

theorem clearReserved_nextFaceIndex (m : Nat) (fi : Int) :
    nextFaceIndex (clearReserved m) fi = nextFaceIndex m fi := by
  simp only [nextFaceIndex, clearReserved_bit0]

theorem applyRecords_append {α : Type} (u : Machine α) (uvs : List (List α))
    (rs1 rs2 : List (List Nat)) (g : GthreeGeometry α) (fi : Int) :
    applyRecords u uvs g fi (rs1 ++ rs2) =
      applyRecords u uvs (applyRecords u uvs g fi rs1).1 (applyRecords u uvs g fi rs1).2 rs2 := by
  induction rs1 generalizing g fi with
  | nil => rfl
  | cons r rs ih =>
    cases r with
    | nil =>
      rw [List.cons_append]
      simp only [applyRecords]
      exact ih g fi
    | cons m fields =>
      rw [List.cons_append]
      simp only [applyRecords]
      exact ih _ _

/-- C6: replacing a complete record by the record with bits 4 to 7 cleared and the reserved
integers deleted changes nothing in what the decoder builds, whatever the deleted integers
are. -/
theorem reserved_fields_have_no_effect {α : Type} (u : Machine α) (uvs : List (List α))
    (g0 : GthreeGeometry α) (pre : List (List Nat))
    (hpre : ∀ r ∈ pre, CompleteRecord uvs.length r) (m : Nat) (core reserved post : List Nat)
    (hcore : core.length = coreCount uvs.length m)
    (hres : reserved.length = reservedCount m) :
    CompleteRecord uvs.length (m :: (core ++ reserved)) ∧
      CompleteRecord uvs.length (clearReserved m :: core) ∧
      decodeFaces u uvs g0 (pre.flatten ++ (m :: (core ++ reserved)) ++ post) =
        decodeFaces u uvs g0 (pre.flatten ++ (clearReserved m :: core) ++ post) := by
  have h1 : CompleteRecord uvs.length (m :: (core ++ reserved)) := by
    simp only [CompleteRecord, fieldCount, List.length_append, hcore, hres]
  have h2 : CompleteRecord uvs.length (clearReserved m :: core) := by
    simp only [CompleteRecord, fieldCount, clearReserved_reservedCount, clearReserved_coreCount,
      hcore, Nat.add_zero]
  refine ⟨h1, h2, ?_⟩
  have e1 : pre.flatten ++ (m :: (core ++ reserved)) ++ post =
      (pre ++ [m :: (core ++ reserved)]).flatten ++ post := by simp
  have e2 : pre.flatten ++ (clearReserved m :: core) ++ post =
      (pre ++ [clearReserved m :: core]).flatten ++ post := by simp
  rw [e1, e2, decodeFaces_records u uvs _ (by
      intro r hr
      rcases List.mem_append.mp hr with hr | hr
      · exact hpre r hr
      · rw [List.mem_singleton.mp hr]; exact h1),
    decodeFaces_records u uvs _ (by
      intro r hr
      rcases List.mem_append.mp hr with hr | hr
      · exact hpre r hr
      · rw [List.mem_singleton.mp hr]; exact h2)]
  simp only [applyRecords_append, applyRecords, clearReserved_recordGeometry,
    clearReserved_nextFaceIndex]
  rw [recordGeometry_append u uvs m _ core reserved _ (by omega)]

/-- C6, at a triangle followed by a quad with every reserved flag set (and a trailing triangle):
the quad `241, 4, 5, 6, 7, 9, 9, 9, 9, 9, 9, 9, 9, 9, 9` decodes like `1, 4, 5, 6, 7`. -/
theorem reserved_fields_have_no_effect_witness :
    decodeFaces zeros [] gthree_geometry_new
        ([[0, 1, 2, 3]].flatten ++ (241 :: ([4, 5, 6, 7] ++ [9, 9, 9, 9, 9, 9, 9, 9, 9, 9])) ++
          [0, 3, 2, 1]) =
      decodeFaces zeros [] gthree_geometry_new
        ([[0, 1, 2, 3]].flatten ++ (clearReserved 241 :: [4, 5, 6, 7]) ++ [0, 3, 2, 1]) :=
  (reserved_fields_have_no_effect zeros [] gthree_geometry_new [[0, 1, 2, 3]] (by decide) 241
    [4, 5, 6, 7] [9, 9, 9, 9, 9, 9, 9, 9, 9, 9] [0, 3, 2, 1] (by decide) (by decide)).2.2

theorem find?_reverse_of_split {β : Type} (p : β → Bool) (pre post : List β) (e : β)
    (he : p e = true) (hpost : ∀ x ∈ post, p x = false) :
    (pre ++ e :: post).reverse.find? p = some e := by
  rw [List.reverse_append, List.reverse_cons, List.append_assoc, List.find?_append]
  have : post.reverse.find? p = none := by
    rw [List.find?_eq_none]
    intro x hx
    rw [hpost x (List.mem_reverse.mp hx)]
    simp
  rw [this]
  simp [List.find?_cons, he]

theorem slotUvs_wrapInt {α : Type} (q : Bool) (layer : Nat) (f1 : Int) (vec : List (α × α))
    (d : α × α) (h1 : 0 ≤ f1) (h2 : 3 * (f1 + (if q then 2 else 1)) ≤ 2 ^ 31) :
    slotUvs wrapInt q layer f1 (if q then wrapInt (f1 + 1) else -1) vec d =
      slotUvs id q layer f1 (if q then f1 + 1 else -1) vec d := by
  cases q
  · simp only [Bool.false_eq_true, if_false] at h2
    simp only [slotUvs, Bool.false_eq_true, if_false, id_eq]
    rw [wrapInt_of_range (f1 * 3) (by omega) (by omega),
      wrapInt_of_range (f1 * 3 + 1) (by omega) (by omega),
      wrapInt_of_range (f1 * 3 + 2) (by omega) (by omega)]
  · simp only [if_true] at h2
    simp only [slotUvs, if_true, id_eq]
    rw [wrapInt_of_range (f1 + 1) (by omega) (by omega),
      wrapInt_of_range (f1 * 3) (by omega) (by omega),
      wrapInt_of_range (f1 * 3 + 1) (by omega) (by omega),
      wrapInt_of_range (f1 * 3 + 2) (by omega) (by omega),
      wrapInt_of_range ((f1 + 1) * 3) (by omega) (by omega),
      wrapInt_of_range ((f1 + 1) * 3 + 1) (by omega) (by omega),
      wrapInt_of_range ((f1 + 1) * 3 + 2) (by omega) (by omega)]

theorem layersUvs_wrapInt {α : Type} (deref : Nat → List α → Nat → α × α) (d : α × α)
    (q : Bool) (f1 : Int) (h1 : 0 ≤ f1) (h2 : 3 * (f1 + (if q then 2 else 1)) ≤ 2 ^ 31)
    (layer : Nat) (uvs : List (List α)) (idx : List Nat) :
    layersUvs wrapInt deref d q f1 (if q then wrapInt (f1 + 1) else -1) layer uvs idx =
      layersUvs id deref d q f1 (if q then f1 + 1 else -1) layer uvs idx := by
  induction uvs generalizing layer idx with
  | nil => simp [layersUvs]
  | cons buf more ih =>
    simp only [layersUvs, ih, slotUvs_wrapInt q layer f1 _ d h1 h2]

/-- As long as the addresses of a record fit in `int`, they are those computed in the
integers. -/
theorem recordUvs_wrapInt {α : Type} (u : Machine α) (uvs : List (List α)) (m : Nat) (fi : Int)
    (fields : List Nat) (h1 : 0 ≤ fi) (h2 : 3 * (fi + faceCount m) ≤ 2 ^ 31) :
    recordUvs u uvs m fi fields = recordUvsWith id u uvs m fi fields := by
  have hfc : ((if m.testBit 0 then 2 else 1 : Int)) = (faceCount m : Int) := by
    simp only [faceCount]; split <;> rfl
  simp only [recordUvs, recordUvsWith, face2Index, id_eq]
  split
  · exact layersUvs_wrapInt (uvVec u) u.vec (m.testBit 0) fi h1 (by rw [hfc]; exact h2) 0 uvs _
  · rfl

theorem decodeRecord_faces_prefix {α : Type} (u : Machine α) (uvs : List (List α))
    (m : Nat) (st : FaceLoop α) :
    ∃ news, (decodeRecord u uvs m st).geometry.faces = st.geometry.faces ++ news ∧
      news.length = faceCount m := by
  simp only [decodeRecord, gthree_geometry_add_vertex, readVertexUvs_faces]
  rw [emitFaces_locals]
  simp only [emitFaces, readMaterial, quad_mask, material_mask, faceCount]
  cases m.testBit 0 <;> cases m.testBit 1 <;>
    simp [gthree_geometry_add_face, gthree_face_set_material_index, modifyAt_append_zero,
      modifyAt_append_one]

/-- C9: on the root `{"uvs": 5}` the converter fails, and the error it reports is
`"vertices not array"`: it names `vertices`, not the offending member `uvs` (line 64), whereas
`{"vertices": 5}` and `{"faces": 5}` are reported under their own names (lines 99 and 125). -/
theorem uvs_not_array_is_reported_as_vertices :
    gthree_loader_convert_json_to_variant (0 : Int)
        (some (JsonNode.object [("uvs", JsonNode.value 5 5)])) =
      (none, some { code := GErrorCode.GTHREE_LOADER_ERROR_FAIL,
                    message := "vertices not array" }) ∧
    gthree_loader_convert_json_to_variant (0 : Int)
        (some (JsonNode.object [("vertices", JsonNode.value 5 5)])) =
      (none, some { code := GErrorCode.GTHREE_LOADER_ERROR_FAIL,
                    message := "vertices not array" }) ∧
    gthree_loader_convert_json_to_variant (0 : Int)
        (some (JsonNode.object [("faces", JsonNode.value 5 5)])) =
      (none, some { code := GErrorCode.GTHREE_LOADER_ERROR_FAIL,
                    message := "faces not array" }) := by
  decide

theorem convert_error_null {α : Type} (zero : α) (root : Option (JsonNode α))
    (h : (gthree_loader_convert_json_to_variant zero root).2 ≠ none) :
    (gthree_loader_convert_json_to_variant zero root).1 = none := by
  revert h
  simp only [gthree_loader_convert_json_to_variant]
  split
  · intro _; rfl
  · split
    · intro _; rfl
    · split
      · intro _; rfl
      · split
        · intro _; rfl
        · intro h; exact absurd rfl h

/-- C10: for a root that is not an object, `gthree_loader_convert_json_to_variant` fails with
the error "no root object" and returns `NULL`; and whenever it reports an error it returns
`NULL`, and then `gthree_loader_new_from_json` returns, with `NULL` and that error: no bundle
and no loader comes with an error. -/
theorem malformed_document_returns_nothing {α : Type} (zero : α) :
    (∀ root : Option (JsonNode α), JSON_NODE_HOLDS_OBJECT root = false →
      gthree_loader_convert_json_to_variant zero root =
        (none, some { code := GErrorCode.GTHREE_LOADER_ERROR_FAIL,
                      message := "no root object" })) ∧
    (∀ root : Option (JsonNode α), (gthree_loader_convert_json_to_variant zero root).2 ≠ none →
      (gthree_loader_convert_json_to_variant zero root).1 = none ∧
      ∀ (u : Machine α) (parse : String → Except GError (Option (JsonNode α)))
        (data : String), parse data = Except.ok root →
          gthree_loader_new_from_json zero u parse data =
            some (none, (gthree_loader_convert_json_to_variant zero root).2)) := by
  constructor
  · intro root h
    simp [gthree_loader_convert_json_to_variant, h]
  · intro root h
    have h1 := convert_error_null zero root h
    refine ⟨h1, ?_⟩
    intro u parse data hp
    simp only [gthree_loader_new_from_json, hp]
    cases hc : gthree_loader_convert_json_to_variant zero root with
    | mk variant error =>
      rw [hc] at h1
      simp only at h1
      subst h1
      rfl

/-- C10, at the document `5`: the converter returns `NULL` and "no root object", and
`gthree_loader_new_from_json` returns `NULL` with the same error. -/
theorem malformed_document_returns_nothing_witness :
    gthree_loader_convert_json_to_variant (0 : Int) (some (JsonNode.value 5 5)) =
        (none, some { code := GErrorCode.GTHREE_LOADER_ERROR_FAIL,
                      message := "no root object" }) ∧
      gthree_loader_new_from_json (0 : Int) zeros
          (fun _ => Except.ok (some (JsonNode.value 5 5))) "5" =
        some (none, (gthree_loader_convert_json_to_variant (0 : Int)
          (some (JsonNode.value 5 5))).2) :=
  ⟨(malformed_document_returns_nothing (0 : Int)).1 (some (JsonNode.value 5 5)) rfl,
    ((malformed_document_returns_nothing (0 : Int)).2 (some (JsonNode.value 5 5))
      (by decide)).2 zeros (fun _ => Except.ok (some (JsonNode.value 5 5))) "5" rfl⟩

theorem retainUvs_eq {α : Type} (uvs layers : List (List α)) (h : uvs.length ≤ MAX_UVS) :
    retainUvs uvs layers =
      uvs ++ (layers.filter nonEmptyLayer).take (MAX_UVS - uvs.length) := by
  induction layers generalizing uvs with
  | nil => simp [retainUvs]
  | cons uvN more ih =>
    simp only [retainUvs]
    by_cases hlt : uvs.length < MAX_UVS
    · simp only [hlt, if_true]
      by_cases hne : uvN.length > 0
      · simp only [hne, if_true]
        rw [ih (uvs ++ [uvN]) (by simp; omega), List.filter_cons]
        simp only [nonEmptyLayer, hne, decide_True, if_true, List.length_append,
          List.length_singleton, List.append_assoc, List.singleton_append]
        obtain ⟨d, hd⟩ : ∃ d, MAX_UVS - uvs.length = d + 1 := ⟨MAX_UVS - uvs.length - 1, by omega⟩
        rw [hd, List.take_succ_cons]
        have : MAX_UVS - (uvs.length + 1) = d := by omega
        rw [this]
      · simp only [hne, if_false]
        rw [ih uvs h, List.filter_cons]
        simp only [nonEmptyLayer, hne, decide_False, Bool.false_eq_true, if_false]
    · simp only [hlt, if_false]
      rw [ih uvs h, List.filter_cons]
      have h0 : MAX_UVS - uvs.length = 0 := by omega
      simp only [h0, List.take_zero]

/-- C11: the layers retained for face decoding are the first `min(2, k)` non-empty layers of the
`"uvs"` entry in document order (`k` the number of non-empty layers): empty layers take no
slot, non-empty layers after the second are ignored, and at most `MAX_UVS = 2` are retained. -/
theorem retained_layers {α : Type} (value : GVariant α) (layers : List (List α))
    (huvs : value.uvs = some layers) :
    retainedUvs value = (layers.filter nonEmptyLayer).take 2 ∧
      (retainedUvs value).length = min 2 (layers.filter nonEmptyLayer).length ∧
      (retainedUvs value).length ≤ MAX_UVS := by
  have h := retainUvs_eq ([] : List (List α)) layers (Nat.zero_le _)
  simp only [List.nil_append, List.length_nil, Nat.sub_zero] at h
  have e : retainedUvs value = (layers.filter nonEmptyLayer).take 2 := by
    simp only [retainedUvs, huvs, h]; rfl
  refine ⟨e, ?_, ?_⟩
  · rw [e, List.length_take]
  · rw [e, List.length_take]; exact Nat.min_le_left _ _

/-- C11, at `uvs = [[], A, B, C]` with `A = [1, 2]`, `B = [3, 4]`, `C = [5, 6]`: layer 0 is `A`
and layer 1 is `B`. -/
theorem retained_layers_witness :
    retainedUvs ({ uvs := some [[], [1, 2], [3, 4], [5, 6]], vertices := none, faces := none } :
        GVariant Int) = [[1, 2], [3, 4]] :=
  (@retained_layers Int { uvs := some [[], [1, 2], [3, 4], [5, 6]], vertices := none, faces := none }
    [[], [1, 2], [3, 4], [5, 6]] rfl).1.trans (by decide)

theorem decodeRecord_sameFlags {α : Type} (u : Machine α) (uvs : List (List α))
    (m1 m2 : Nat) (h : sameFlags m1 m2) (st : FaceLoop α) :
    decodeRecord u uvs m1 st = decodeRecord u uvs m2 st := by
  obtain ⟨h0, h1, h3, h4, h5, h6, h7⟩ := h
  simp only [decodeRecord, emitFaces, readMaterial, readVertexUvs, skipReserved, quad_mask,
    material_mask, vertex_uv_mask, normal_mask, vertex_normal_mask, color_mask,
    vertex_color_mask, h0, h1, h3, h4, h5, h6, h7]

theorem fieldCount_sameFlags (L m1 m2 : Nat) (h : sameFlags m1 m2) :
    fieldCount L m1 = fieldCount L m2 := by
  obtain ⟨h0, h1, h3, h4, h5, h6, h7⟩ := h
  simp only [fieldCount, coreCount, reservedCount, vertexCount, flagBit, h0, h1, h3, h4, h5, h6,
    h7]

theorem sameFlags_toggle_bit2 (m : Nat) : sameFlags m (m ^^^ 4) := by
  simp only [sameFlags, Nat.testBit_xor]
  simp [show Nat.testBit 4 0 = false from by decide, show Nat.testBit 4 1 = false from by decide,
    show Nat.testBit 4 3 = false from by decide, show Nat.testBit 4 4 = false from by decide,
    show Nat.testBit 4 5 = false from by decide, show Nat.testBit 4 6 = false from by decide,
    show Nat.testBit 4 7 = false from by decide]

theorem sameFlags_low_byte (m1 m2 : Nat) (h : m1 % 256 = m2 % 256) : sameFlags m1 m2 := by
  have key : ∀ i, i < 8 → m1.testBit i = m2.testBit i := by
    intro i hi
    have e1 := Nat.testBit_mod_two_pow m1 8 i
    have e2 := Nat.testBit_mod_two_pow m2 8 i
    simp only [hi, decide_True, Bool.true_and] at e1 e2
    rw [← e1, ← e2]
    show (m1 % 256).testBit i = (m2 % 256).testBit i
    rw [h]
  exact ⟨key 0 (by omega), key 1 (by omega), key 3 (by omega), key 4 (by omega),
    key 5 (by omega), key 6 (by omega), key 7 (by omega)⟩

/-- C12: the decoder looks at a bitmask through bits 0, 1, 3, 4, 5, 6 and 7 only.  For two
bitmasks that agree on these bits (they differ in bit 2 or in bits above bit 7 at most), one
loop iteration gives the same state from every state, the number of integers the record
declares is the same, and a stream decodes the same with either bitmask at a record start;
toggling bit 2 and changing bits above bit 7 give such bitmasks. -/
theorem unused_bits_have_no_effect {α : Type} (u : Machine α) (uvs : List (List α))
    (m1 m2 : Nat) (h : sameFlags m1 m2) :
    (∀ st : FaceLoop α, decodeRecord u uvs m1 st = decodeRecord u uvs m2 st) ∧
      fieldCount uvs.length m1 = fieldCount uvs.length m2 ∧
      (∀ (g : GthreeGeometry α) (pre : List (List Nat)) (post : List Nat),
        (∀ r ∈ pre, CompleteRecord uvs.length r) →
          decodeFaces u uvs g (pre.flatten ++ m1 :: post) =
            decodeFaces u uvs g (pre.flatten ++ m2 :: post)) ∧
      (∀ m : Nat, sameFlags m (m ^^^ 4)) ∧
      (∀ a b : Nat, a % 256 = b % 256 → sameFlags a b) := by
  refine ⟨decodeRecord_sameFlags u uvs m1 m2 h, fieldCount_sameFlags _ m1 m2 h, ?_,
    sameFlags_toggle_bit2, sameFlags_low_byte⟩
  intro g pre post hpre
  rw [decodeFaces_records u uvs pre hpre g (m1 :: post),
    decodeFaces_records u uvs pre hpre g (m2 :: post)]
  simp only [List.length_cons, faceLoop_cons, decodeRecord_sameFlags u uvs m1 m2 h]

/-- C12, at the round-trip record with bit 2 and bit 8 set in the bitmask (`11 + 4 + 256`): it
decodes like the record with bitmask `11`. -/
theorem unused_bits_have_no_effect_witness :
    decodeFaces zeros [[0, 0, 1, 0, 1, 1, 0, 1]] gthree_geometry_new
        ([[0, 0, 1, 2]].flatten ++ 11 :: [0, 1, 2, 3, 5, 0, 1, 2, 3]) =
      decodeFaces zeros [[0, 0, 1, 0, 1, 1, 0, 1]] gthree_geometry_new
        ([[0, 0, 1, 2]].flatten ++ 271 :: [0, 1, 2, 3, 5, 0, 1, 2, 3]) :=
  (unused_bits_have_no_effect zeros [[0, 0, 1, 0, 1, 1, 0, 1]] 11 271 (by decide)).2.2.1
    gthree_geometry_new [[0, 0, 1, 2]] [0, 1, 2, 3, 5, 0, 1, 2, 3] (by decide)

theorem addVertices_vertices_length {α : Type} (u : Machine α) :
    ∀ (data : List α) (g : GthreeGeometry α),
      (addVertices u g data).vertices.length = g.vertices.length + data.length / 3
  | [], g => by simp [addVertices]
  | [_], g => by simp [addVertices]
  | [_, _], g => by simp [addVertices]
  | x :: y :: z :: more, g => by
    rw [addVertices, addVertices_vertices_length u more]
    simp only [gthree_geometry_add_vertex, List.length_append, List.length_singleton,
      List.length_cons, List.length_nil]
    omega

theorem addVertices_prefix {α : Type} (u : Machine α) :
    ∀ (data : List α) (g : GthreeGeometry α),
      ∃ news, (addVertices u g data).vertices = g.vertices ++ news
  | [], g => ⟨[], by simp [addVertices]⟩
  | [_], g => ⟨[], by simp [addVertices]⟩
  | [_, _], g => ⟨[], by simp [addVertices]⟩
  | x :: y :: z :: more, g => by
    obtain ⟨news, h⟩ :=
      addVertices_prefix u more (gthree_geometry_add_vertex g (graphene_vec3_init u x y z))
    exact ⟨graphene_vec3_init u x y z :: news, by
      rw [addVertices, h]; simp [gthree_geometry_add_vertex]⟩

theorem addVertices_get {α : Type} (u : Machine α) :
    ∀ (data : List α) (g : GthreeGeometry α) (i : Nat), i < data.length / 3 →
      ∃ x y z, data.get? (3 * i) = some x ∧ data.get? (3 * i + 1) = some y ∧
        data.get? (3 * i + 2) = some z ∧
        (addVertices u g data).vertices.get? (g.vertices.length + i) =
          some (graphene_vec3_init u x y z)
  | [], g, i, hi => by
    exfalso; simp only [List.length_nil] at hi; omega
  | [_], g, i, hi => by
    exfalso; simp only [List.length_cons, List.length_nil] at hi; omega
  | [_, _], g, i, hi => by
    exfalso; simp only [List.length_cons, List.length_nil] at hi; omega
  | x :: y :: z :: more, g, i, hi => by
    rw [addVertices]
    cases i with
    | zero =>
      refine ⟨x, y, z, rfl, rfl, rfl, ?_⟩
      obtain ⟨news, h⟩ :=
        addVertices_prefix u more (gthree_geometry_add_vertex g (graphene_vec3_init u x y z))
      rw [h]
      simp only [gthree_geometry_add_vertex, List.append_assoc, List.singleton_append,
        Nat.add_zero, List.get?_eq_getElem?]
      rw [List.getElem?_append_right (Nat.le_refl _)]
      simp
    | succ i =>
      have hi' : i < more.length / 3 := by
        simp only [List.length_cons] at hi; omega
      obtain ⟨a, b, c, ha, hb, hc, hv⟩ :=
        addVertices_get u more (gthree_geometry_add_vertex g (graphene_vec3_init u x y z)) i hi'
      refine ⟨a, b, c, ?_, ?_, ?_, ?_⟩
      · rw [show 3 * (i + 1) = 3 * i + 1 + 1 + 1 from by omega]; exact ha
      · rw [show 3 * (i + 1) + 1 = 3 * i + 1 + 1 + 1 + 1 from by omega]; exact hb
      · rw [show 3 * (i + 1) + 2 = 3 * i + 2 + 1 + 1 + 1 from by omega]; exact hc
      · rw [← hv]
        simp only [gthree_geometry_add_vertex, List.length_append, List.length_singleton]
        congr 1
        omega

theorem iterations_cons {α : Type} (u : Machine α) (uvs : List (List α)) (fuel : Nat)
    (g : GthreeGeometry α) (fi : Int) (m : Nat) (s : List Nat) (k : Nat) :
    iterations u uvs (fuel + 1) ⟨g, fi, ⟨m :: s, k⟩⟩ =
      1 + iterations u uvs fuel (decodeRecord u uvs m ⟨g, fi, ⟨s, k⟩⟩) := rfl

theorem iterations_nil {α : Type} (u : Machine α) (uvs : List (List α)) (fuel : Nat)
    (g : GthreeGeometry α) (fi : Int) (k : Nat) :
    iterations u uvs fuel ⟨g, fi, ⟨[], k⟩⟩ = 0 := by
  cases fuel <;> rfl

theorem decodeRecord_rest_length_le {α : Type} (u : Machine α) (uvs : List (List α))
    (m : Nat) (st : FaceLoop α) :
    (decodeRecord u uvs m st).iter.rest.length ≤ st.iter.rest.length := by
  rw [decodeRecord_rest, List.length_drop]
  exact Nat.sub_le _ _

theorem iterations_le {α : Type} (u : Machine α) (uvs : List (List α)) (fuel : Nat)
    (st : FaceLoop α) : iterations u uvs fuel st ≤ st.iter.rest.length := by
  induction fuel generalizing st with
  | zero => exact Nat.zero_le _
  | succ n ih =>
    obtain ⟨g, fi, ⟨rest, k⟩⟩ := st
    cases rest with
    | nil => exact Nat.zero_le _
    | cons m s =>
      rw [iterations_cons]
      have h1 := ih (decodeRecord u uvs m ⟨g, fi, ⟨s, k⟩⟩)
      have h2 := decodeRecord_rest_length_le u uvs m ⟨g, fi, ⟨s, k⟩⟩
      simp only [List.length_cons] at h2 ⊢
      omega

theorem iterations_fuel {α : Type} (u : Machine α) (uvs : List (List α))
    (fuel1 fuel2 : Nat) (st : FaceLoop α) (h1 : st.iter.rest.length < fuel1)
    (h2 : st.iter.rest.length < fuel2) :
    iterations u uvs fuel1 st = iterations u uvs fuel2 st := by
  induction fuel1 generalizing fuel2 st with
  | zero => omega
  | succ n ih =>
    obtain _ | fuel2 := fuel2
    · omega
    · obtain ⟨g, fi, ⟨rest, k⟩⟩ := st
      cases rest with
      | nil => rfl
      | cons m s =>
        rw [iterations_cons, iterations_cons]
        have hle := decodeRecord_rest_length_le u uvs m ⟨g, fi, ⟨s, k⟩⟩
        simp only [List.length_cons] at h1 h2 hle
        rw [ih fuel2 _ (by omega) (by omega)]

theorem iterations_records {α : Type} (u : Machine α) (uvs : List (List α))
    (rs : List (List Nat)) (hrs : ∀ r ∈ rs, CompleteRecord uvs.length r) (g : GthreeGeometry α)
    (fi : Int) (k : Nat) (fuel : Nat) (hfuel : rs.flatten.length < fuel) :
    iterations u uvs fuel ⟨g, fi, ⟨rs.flatten, k⟩⟩ = rs.length := by
  induction rs generalizing g fi fuel with
  | nil => simp only [List.flatten_nil, iterations_nil, List.length_nil]
  | cons r rs ih =>
    have hr := hrs r (List.mem_cons_self _ _)
    have hrs' : ∀ r ∈ rs, CompleteRecord uvs.length r :=
      fun x hx => hrs x (List.mem_cons_of_mem _ hx)
    cases r with
    | nil => exact absurd hr (fun h => h)
    | cons m fields =>
      obtain _ | fuel := fuel
      · omega
      · simp only [List.flatten_cons, List.cons_append, List.length_cons,
          List.length_append] at hfuel ⊢
        rw [iterations_cons, decodeRecord_complete u uvs m g fi fields _ k hr,
          ih hrs' _ _ _ (by omega)]
        omega

theorem faceLoop_vertices {α : Type} (u : Machine α) (uvs : List (List α)) (fuel : Nat)
    (st : FaceLoop α) :
    (faceLoop u uvs fuel st).geometry.vertices =
      st.geometry.vertices ++ List.replicate (iterations u uvs fuel st) u.v := by
  induction fuel generalizing st with
  | zero => simp [faceLoop, iterations]
  | succ n ih =>
    obtain ⟨g, fi, ⟨rest, k⟩⟩ := st
    cases rest with
    | nil => simp [faceLoop_nil, iterations_nil]
    | cons m s =>
      rw [faceLoop_cons, iterations_cons, ih, decodeRecord_vertices, Nat.add_comm 1,
        List.replicate_succ]
      simp

theorem faceLoop_faces_length_le {α : Type} (u : Machine α) (uvs : List (List α))
    (fuel : Nat) (st : FaceLoop α) :
    (faceLoop u uvs fuel st).geometry.faces.length ≤
      st.geometry.faces.length + 2 * iterations u uvs fuel st := by
  induction fuel generalizing st with
  | zero => simp [faceLoop, iterations]
  | succ n ih =>
    obtain ⟨g, fi, ⟨rest, k⟩⟩ := st
    cases rest with
    | nil => simp [faceLoop_nil, iterations_nil]
    | cons m s =>
      rw [faceLoop_cons, iterations_cons]
      have h := ih (decodeRecord u uvs m ⟨g, fi, ⟨s, k⟩⟩)
      rw [decodeRecord_faces_length] at h
      have hf : faceCount m ≤ 2 := by simp only [faceCount]; split <;> omega
      simp only at h ⊢
      omega

theorem faceLoop_rest_nil {α : Type} (u : Machine α) (uvs : List (List α)) (fuel : Nat)
    (st : FaceLoop α) (h : st.iter.rest.length < fuel) :
    (faceLoop u uvs fuel st).iter.rest = [] := by
  induction fuel generalizing st with
  | zero => omega
  | succ n ih =>
    obtain ⟨g, fi, ⟨rest, k⟩⟩ := st
    cases rest with
    | nil => rfl
    | cons m s =>
      rw [faceLoop_cons]
      apply ih
      have hle := decodeRecord_rest_length_le u uvs m ⟨g, fi, ⟨s, k⟩⟩
      simp only [List.length_cons] at h hle
      omega

/-- C13 fails as stated: on a machine whose `float` has 24 significant bits, the `"vertices"`
array `16777217, -16777217, 3` gives the vertex `(16777216, -16777216, 3)`, not
`(d[0], d[1], d[2])`: line 230 hands the doubles to `graphene_vec3_init`, whose parameters are
`float`. -/
theorem vertices_from_document_counterexample :
    gthree_loader_new_from_variant singles
        { uvs := none, vertices := some [16777217, -16777217, 3], faces := none } =
      some (some { geometry :=
                     { vertices := [(16777216, -16777216, 3)], faces := [], uvs := [] },
                   materials := [] }, none) := by
  decide

/-- C13 (amended): a `"vertices"` array of `n` values gives `floor(n/3)` vertices, appended
before the face loop starts; vertex `i` is `(d[3i], d[3i+1], d[3i+2])` with every coordinate
converted to `float`, and one or two trailing values give no vertex and no error.  A call that
makes no read outside a UV buffer (any call without a `"faces"` entry) returns a loader whose
vertices start with these. -/
theorem vertices_from_document {α : Type} (u : Machine α) (value : GVariant α)
    (data : List α) (hv : value.vertices = some data) :
    (addVertices u (gthree_geometry_new : GthreeGeometry α) data).vertices.length =
        data.length / 3 ∧
      (∀ i, i < data.length / 3 →
        ∃ x y z, data.get? (3 * i) = some x ∧ data.get? (3 * i + 1) = some y ∧
          data.get? (3 * i + 2) = some z ∧
          (addVertices u (gthree_geometry_new : GthreeGeometry α) data).vertices.get? i =
            some (u.toFloat x, u.toFloat y, u.toFloat z)) ∧
      (value.faces = none → decodeInRange u value = true) ∧
      (decodeInRange u value = true →
        ∃ loader extra, gthree_loader_new_from_variant u value = some (some loader, none) ∧
          loader.geometry.vertices =
            (addVertices u (gthree_geometry_new : GthreeGeometry α) data).vertices ++ extra ∧
          (value.faces = none → extra = []) ∧
          (∀ s, value.faces = some s → loader.geometry =
            (decodeFaces u (retainedUvs value) (addVertices u gthree_geometry_new data)
              s).geometry) ∧
          ∀ i, i < data.length / 3 →
            loader.geometry.vertices.get? i =
              (addVertices u (gthree_geometry_new : GthreeGeometry α) data).vertices.get? i) ∧
      (decodeInRange u value = false → gthree_loader_new_from_variant u value = none) := by
  have hlen : (addVertices u (gthree_geometry_new : GthreeGeometry α) data).vertices.length =
      data.length / 3 := by
    rw [addVertices_vertices_length]; simp [gthree_geometry_new]
  have hget : ∀ (extra : List (α × α × α)) i, i < data.length / 3 →
      ((addVertices u (gthree_geometry_new : GthreeGeometry α) data).vertices ++ extra).get? i =
        (addVertices u (gthree_geometry_new : GthreeGeometry α) data).vertices.get? i := by
    intro extra i hi
    rw [List.get?_eq_getElem?, List.getElem?_append_left (by rw [hlen]; exact hi),
      ← List.get?_eq_getElem?]
  refine ⟨hlen, ?_, ?_, ?_, new_from_variant_of_not_inRange u value⟩
  · intro i hi
    obtain ⟨x, y, z, hx, hy, hz, hvx⟩ := addVertices_get u data gthree_geometry_new i hi
    refine ⟨x, y, z, hx, hy, hz, ?_⟩
    simp only [gthree_geometry_new, List.length_nil, Nat.zero_add] at hvx
    exact hvx
  · intro hf
    simp only [decodeInRange, hf]
  · intro hin
    cases hf : value.faces with
    | none =>
      refine ⟨_, [], new_from_variant_of_inRange u value hin, ?_, fun _ => rfl,
        fun s hs => by simp at hs, ?_⟩
      · simp only [buildGeometry, hv, hf, List.append_nil]
      · intro i _
        simp only [buildGeometry, hv, hf]
    | some s =>
      have hvs := faceLoop_vertices u (retainedUvs value) (s.length + 1)
        ⟨addVertices u gthree_geometry_new data, 0, ⟨s, 0⟩⟩
      refine ⟨_, List.replicate (iterations u (retainedUvs value) (s.length + 1)
        ⟨addVertices u gthree_geometry_new data, 0, ⟨s, 0⟩⟩) u.v,
        new_from_variant_of_inRange u value hin, ?_, fun h => by simp at h, ?_, ?_⟩
      · simp only [buildGeometry, hv, hf, decodeFaces]
        exact hvs
      · intro s1 hs
        simp only [Option.some.injEq] at hs
        subst hs
        simp only [buildGeometry, hv, hf]
      · simp only [buildGeometry, hv, hf, decodeFaces]
        rw [hvs]
        exact hget _

/-- C13 (amended), at thirteen values: four vertices, the last of them `(0, 1, 0)`, and no
error. -/
theorem vertices_from_document_witness :
    ∃ loader extra, gthree_loader_new_from_variant zeros
        { uvs := none, vertices := some [0, 0, 0, 1, 0, 0, 1, 1, 0, 0, 1, 0, 9],
          faces := none } = some (some loader, none) ∧
      loader.geometry.vertices =
        (addVertices zeros (gthree_geometry_new : GthreeGeometry Int)
          [0, 0, 0, 1, 0, 0, 1, 1, 0, 0, 1, 0, 9]).vertices ++ extra ∧
      extra = [] ∧
      loader.geometry.vertices.get? 3 = some (0, 1, 0) := by
  obtain ⟨_, h2, h3, h4, _⟩ := vertices_from_document zeros
    { uvs := none, vertices := some [0, 0, 0, 1, 0, 0, 1, 1, 0, 0, 1, 0, 9], faces := none }
    [0, 0, 0, 1, 0, 0, 1, 1, 0, 0, 1, 0, 9] rfl
  obtain ⟨loader, extra, e1, e2, e3, _, e5⟩ := h4 (h3 rfl)
  obtain ⟨x, y, z, hx, hy, hz, hxyz⟩ := h2 3 (by decide)
  refine ⟨loader, extra, e1, e2, e3 rfl, ?_⟩
  rw [e5 3 (by decide), hxyz]
  simp only [List.get?_eq_getElem?] at hx hy hz
  simp only [show (3 * 3 : Nat) = 9 from rfl, List.getElem?_cons_succ, List.getElem?_cons_zero,
    Option.some.injEq] at hx hy hz
  subst hx hy hz
  rfl

/-- C14: whenever the call returns, it returns a loader whose vertices are those of the
document followed by one vertex, whose coordinates are not the document's, per face record
decoded: `floor(len(vertices)/3)` plus the number of records decoded.  The call returns when no
read is made outside a UV buffer, and has no defined result otherwise.  For a stream of
complete records there is one extra vertex per record, and the reads are inside the buffers
exactly when the UV indices are in range. -/
theorem extra_vertex_per_record {α : Type} (u : Machine α) (value : GVariant α) :
    (∀ result, gthree_loader_new_from_variant u value = some result →
      ∃ loader, result = (some loader, none) ∧
        loader.geometry.vertices.length =
          (value.vertices.getD []).length / 3 +
            recordsDecoded u (retainedUvs value)
              (addVertices u gthree_geometry_new (value.vertices.getD []))
              (value.faces.getD [])) ∧
    (decodeInRange u value = true →
      ∃ loader, gthree_loader_new_from_variant u value = some (some loader, none) ∧
        loader.geometry.vertices =
          (addVertices u gthree_geometry_new (value.vertices.getD [])).vertices ++
            List.replicate (recordsDecoded u (retainedUvs value)
              (addVertices u gthree_geometry_new (value.vertices.getD []))
              (value.faces.getD [])) u.v ∧
        loader.geometry.vertices.length =
          (value.vertices.getD []).length / 3 +
            recordsDecoded u (retainedUvs value)
              (addVertices u gthree_geometry_new (value.vertices.getD []))
              (value.faces.getD [])) ∧
      (decodeInRange u value = false → gthree_loader_new_from_variant u value = none) ∧
      ∀ rs : List (List Nat), (∀ r ∈ rs, CompleteRecord (retainedUvs value).length r) →
        value.faces = some rs.flatten →
          recordsDecoded u (retainedUvs value)
            (addVertices u gthree_geometry_new (value.vertices.getD []))
            (value.faces.getD []) = rs.length ∧
          (decodeInRange u value = true ↔ ∀ r ∈ rs, UvIndicesInRange (retainedUvs value) r) := by
  have hg : buildGeometry u value =
      (decodeFaces u (retainedUvs value)
        (addVertices u gthree_geometry_new (value.vertices.getD []))
        (value.faces.getD [])).geometry := by
    simp only [buildGeometry]
    cases value.vertices <;> cases value.faces <;> rfl
  have hvs := faceLoop_vertices u (retainedUvs value) ((value.faces.getD []).length + 1)
    ⟨addVertices u gthree_geometry_new (value.vertices.getD []), 0, ⟨value.faces.getD [], 0⟩⟩
  have hv : (buildGeometry u value).vertices =
      (addVertices u gthree_geometry_new (value.vertices.getD [])).vertices ++
        List.replicate (recordsDecoded u (retainedUvs value)
          (addVertices u gthree_geometry_new (value.vertices.getD []))
          (value.faces.getD [])) u.v := by
    rw [hg]; exact hvs
  have hlen : (buildGeometry u value).vertices.length =
      (value.vertices.getD []).length / 3 +
        recordsDecoded u (retainedUvs value)
          (addVertices u gthree_geometry_new (value.vertices.getD []))
          (value.faces.getD []) := by
    rw [hv, List.length_append, List.length_replicate, addVertices_vertices_length]
    simp [gthree_geometry_new]
  refine ⟨?_, ?_, new_from_variant_of_not_inRange u value, ?_⟩
  · intro result hres
    cases hd : decodeInRange u value with
    | false =>
      rw [new_from_variant_of_not_inRange u value hd] at hres
      exact Option.noConfusion hres
    | true =>
      rw [new_from_variant_of_inRange u value hd] at hres
      exact ⟨_, (Option.some.inj hres).symm, hlen⟩
  · intro hin
    exact ⟨_, new_from_variant_of_inRange u value hin, hv, hlen⟩
  · intro rs hrs hs
    obtain ⟨_, hin⟩ := buildGeometry_faces u value rs.flatten hs
    constructor
    · simp only [recordsDecoded, hs, Option.getD_some]
      exact iterations_records u _ rs hrs _ 0 0 _ (Nat.lt_succ_self _)
    · rw [hin]
      exact decodeFacesInRange_complete u (retainedUvs value) rs hrs _

/-- C14, at the round-trip scenario (four vertices, one record): five vertices. -/
theorem extra_vertex_per_record_witness :
    ∃ loader, gthree_loader_new_from_variant zeros
        { uvs := some [[0, 0, 1, 0, 1, 1, 0, 1]],
          vertices := some [0, 0, 0, 1, 0, 0, 1, 1, 0, 0, 1, 0],
          faces := some [11, 0, 1, 2, 3, 5, 0, 1, 2, 3] } = some (some loader, none) ∧
      loader.geometry.vertices.length = 12 / 3 + 1 := by
  obtain ⟨_, h1, _, h3⟩ := extra_vertex_per_record zeros
    { uvs := some [[0, 0, 1, 0, 1, 1, 0, 1]],
      vertices := some [0, 0, 0, 1, 0, 0, 1, 1, 0, 0, 1, 0],
      faces := some [11, 0, 1, 2, 3, 5, 0, 1, 2, 3] }
  obtain ⟨loader, e1, _, e3⟩ := h1 (by decide)
  refine ⟨loader, e1, ?_⟩
  rw [e3, (h3 [[11, 0, 1, 2, 3, 5, 0, 1, 2, 3]] (by decide) rfl).1]
  rfl

/-- C17: the face loop terminates on every stream: with fuel for `length + 1` iterations it
stops with the iterator exhausted, and more fuel does not change the result; reading a bitmask
takes one integer and the body of the loop never moves the cursor backwards, so at most
`length` records are decoded and at most `2 * length` faces are appended. -/
theorem face_loop_terminates {α : Type} (u : Machine α) (uvs : List (List α))
    (g : GthreeGeometry α) (s : List Nat) :
    (decodeFaces u uvs g s).iter.rest = [] ∧
      (∀ fuel, s.length + 1 ≤ fuel →
        faceLoop u uvs fuel ⟨g, 0, ⟨s, 0⟩⟩ = decodeFaces u uvs g s) ∧
      (∀ (it : GVariantIter) (x : Nat) (it1 : GVariantIter),
        g_variant_iter_loop it = (some x, it1) → it1.rest.length + 1 = it.rest.length) ∧
      (∀ (m : Nat) (st : FaceLoop α),
        (decodeRecord u uvs m st).iter.rest.length ≤ st.iter.rest.length) ∧
      recordsDecoded u uvs g s ≤ s.length ∧
      (decodeFaces u uvs g s).geometry.faces.length ≤ g.faces.length + 2 * s.length := by
  refine ⟨faceLoop_rest_nil u uvs _ _ (Nat.lt_succ_self _), ?_, ?_,
    decodeRecord_rest_length_le u uvs, iterations_le u uvs _ _, ?_⟩
  · intro fuel hfuel
    exact faceLoop_fuel u uvs _ _ _ (by simp only; omega) (Nat.lt_succ_self _)
  · intro it x it1 h
    obtain ⟨rest, k⟩ := it
    cases rest with
    | nil => simp [g_variant_iter_loop] at h
    | cons y r =>
      simp only [g_variant_iter_loop, Prod.mk.injEq, Option.some.injEq] at h
      rw [← h.2]
      rfl
  · have h1 := faceLoop_faces_length_le u uvs (s.length + 1) ⟨g, 0, ⟨s, 0⟩⟩
    have h2 := iterations_le u uvs (s.length + 1) ⟨g, 0, ⟨s, 0⟩⟩
    simp only [decodeFaces] at h1 h2 ⊢
    omega

/-- C17, at the truncated stream `1, 0, 1, 2`: the loop stops after one record with the
iterator exhausted. -/
theorem face_loop_terminates_witness :
    faceLoop zeros [] 9 ⟨gthree_geometry_new, 0, ⟨[1, 0, 1, 2], 0⟩⟩ =
      decodeFaces zeros [] gthree_geometry_new [1, 0, 1, 2] :=
  (face_loop_terminates zeros [] gthree_geometry_new [1, 0, 1, 2]).2.1 9 (by decide)

theorem emitFaces_uvs {α : Type} (u : Machine α) (m : Nat) (st : FaceLoop α) :
    (emitFaces u m st).1.geometry.uvs = st.geometry.uvs := by
  simp only [emitFaces, quad_mask]
  cases m.testBit 0 <;> simp [gthree_geometry_add_face]

theorem readLayers_nil {α : Type} (u : Machine α) (l : FaceLocals) (layer : Nat)
    (st : FaceLoop α) : readLayers u l layer [] st = st := rfl

theorem readVertexUvs_id {α : Type} (u : Machine α) (uvs : List (List α)) (m : Nat)
    (h : m.testBit 3 = false ∨ uvs = []) (l : FaceLocals) (st : FaceLoop α) :
    readVertexUvs u uvs m l st = st := by
  simp only [readVertexUvs, vertex_uv_mask]
  rcases h with h | h
  · simp [h]
  · subst h
    split <;> rfl

theorem decodeRecord_uvs_of_id {α : Type} (u : Machine α) (uvs : List (List α)) (m : Nat)
    (h : m.testBit 3 = false ∨ uvs = []) (st : FaceLoop α) :
    (decodeRecord u uvs m st).geometry.uvs = st.geometry.uvs := by
  simp only [decodeRecord, readVertexUvs_id u uvs m h, gthree_geometry_add_vertex,
    readMaterial_uvs, emitFaces_uvs]

/-- C15: for a record with bit 3 (VERTEX_UV) clear, and for any record when no UV layer is
retained, the vertex-UV step is the identity (no UV index is consumed, no `set_uv` call is
made) and the record leaves every per-layer UV assignment table as it was. -/
theorem no_vertex_uv_leaves_tables {α : Type} (u : Machine α) (uvs : List (List α))
    (m : Nat) (h : m.testBit 3 = false ∨ uvs = []) :
    (∀ (l : FaceLocals) (st : FaceLoop α), readVertexUvs u uvs m l st = st) ∧
      (∀ st : FaceLoop α, (decodeRecord u uvs m st).geometry.uvs = st.geometry.uvs) ∧
      (∀ (st : FaceLoop α) (layer : Nat) (address : Int),
        uvAt (decodeRecord u uvs m st).geometry layer address = uvAt st.geometry layer address) ∧
      fieldCount uvs.length m = vertexCount m + flagBit m 1 + reservedCount m := by
  refine ⟨readVertexUvs_id u uvs m h, decodeRecord_uvs_of_id u uvs m h, ?_, ?_⟩
  · intro st layer address
    simp only [uvAt, decodeRecord_uvs_of_id u uvs m h]
  · simp only [fieldCount, coreCount]
    rcases h with h | h
    · simp [flagBit, h]
    · subst h; simp

/-- C15, at the triangle record `2, 0, 1, 2, 7` decoded with one layer, on a geometry that
holds one UV assignment: the assignments stay as they were. -/
theorem no_vertex_uv_leaves_tables_witness :
    (decodeRecord zeros [[0, 0, 1, 0]] 2
        ⟨{ vertices := [], faces := [], uvs := [(0, 0, (1, 0))] }, 0,
          ⟨[0, 1, 2, 7], 0⟩⟩).geometry.uvs = [(0, 0, (1, 0))] :=
  (no_vertex_uv_leaves_tables zeros [[0, 0, 1, 0]] 2 (Or.inl (by decide))).2.1
    ⟨{ vertices := [], faces := [], uvs := [(0, 0, (1, 0))] }, 0, ⟨[0, 1, 2, 7], 0⟩⟩

theorem slotUvs_range {α : Type} (q : Bool) (layer : Nat) (fi : Int) (vec : List (α × α))
    (d : α × α) :
    ∀ e ∈ slotUvs id q layer fi (if q then fi + 1 else -1) vec d,
      3 * fi ≤ e.2.1 ∧ e.2.1 < 3 * (fi + (if q then 2 else 1)) := by
  intro e he
  cases q
  · simp only [slotUvs, id_eq, Bool.false_eq_true, if_false, List.mem_cons, List.mem_singleton,
      List.not_mem_nil, or_false] at he ⊢
    rcases he with h | h | h <;> rw [h] <;> simp only <;> omega
  · simp only [slotUvs, id_eq, if_true, List.mem_cons, List.mem_singleton, List.not_mem_nil,
      or_false] at he ⊢
    rcases he with h | h | h | h | h | h <;> rw [h] <;> simp only <;> omega

theorem readLayers_uvs_range {α : Type} (u : Machine α) (q : Bool) (f1 : Nat) (f2 : Option Nat)
    (fi : Int) (h1 : 0 ≤ fi) (h2 : 3 * (fi + (if q then 2 else 1)) ≤ 2 ^ 31) (layer : Nat)
    (uvs : List (List α)) (st : FaceLoop α) :
    ∃ news,
      (readLayers u ⟨q, f1, f2, fi, if q then wrapInt (fi + 1) else -1⟩ layer uvs st).geometry.uvs =
        st.geometry.uvs ++ news ∧
      ∀ e ∈ news, 3 * fi ≤ e.2.1 ∧ e.2.1 < 3 * (fi + (if q then 2 else 1)) := by
  induction uvs generalizing layer st with
  | nil => exact ⟨[], by simp [readLayers], by simp⟩
  | cons buf more ih =>
    simp only [readLayers, assignUvs_eq]
    obtain ⟨news, e1, e2⟩ := ih (layer + 1)
      { st with
        geometry := { st.geometry with
          uvs := st.geometry.uvs ++ slotUvs wrapInt q layer fi (if q then wrapInt (fi + 1) else -1)
            (readVec u layer buf (if q then 4 else 3) st.iter).1 u.vec },
        iter := (readVec u layer buf (if q then 4 else 3) st.iter).2 }
    refine ⟨slotUvs wrapInt q layer fi (if q then wrapInt (fi + 1) else -1)
      (readVec u layer buf (if q then 4 else 3) st.iter).1 u.vec ++ news, ?_, ?_⟩
    · rw [e1, List.append_assoc]
    · intro e he
      rcases List.mem_append.mp he with he | he
      · rw [slotUvs_wrapInt q layer fi _ u.vec h1 h2] at he
        exact slotUvs_range q layer fi _ u.vec e he
      · exact e2 e he

theorem decodeRecord_uvs_range {α : Type} (u : Machine α) (uvs : List (List α)) (m : Nat)
    (st : FaceLoop α) (h1 : 0 ≤ st.face_index)
    (h2 : 3 * (st.face_index + faceCount m) ≤ 2 ^ 31) :
    ∃ news, (decodeRecord u uvs m st).geometry.uvs = st.geometry.uvs ++ news ∧
      ∀ e ∈ news, 3 * st.face_index ≤ e.2.1 ∧ e.2.1 < 3 * (st.face_index + faceCount m) := by
  by_cases h3 : m.testBit 3 = true
  · have hfc : ((if m.testBit 0 then 2 else 1 : Int)) = (faceCount m : Int) := by
      simp only [faceCount]; split <;> rfl
    obtain ⟨news, e1, e2⟩ := readLayers_uvs_range u (m.testBit 0) st.geometry.faces.length
      (if m.testBit 0 then some (st.geometry.faces.length + 1) else none) st.face_index h1
      (by rw [hfc]; exact h2) 0 uvs
      (readMaterial u m (emitFaces u m st).2 (emitFaces u m st).1)
    refine ⟨news, ?_, ?_⟩
    · simp only [decodeRecord, gthree_geometry_add_vertex, readVertexUvs, vertex_uv_mask, h3,
        if_true]
      rw [emitFaces_locals] at e1 ⊢
      simp only [face2Index] at e1 ⊢
      rw [e1, readMaterial_uvs, emitFaces_uvs]
    · intro e he
      have := e2 e he
      rw [hfc] at this
      exact this
  · simp only [Bool.not_eq_true] at h3
    exact ⟨[], by rw [decodeRecord_uvs_of_id u uvs m (Or.inl h3), List.append_nil], by simp⟩

theorem decodeRecord_invariant {α : Type} (u : Machine α) (uvs : List (List α)) (m : Nat)
    (st : FaceLoop α) (h : LoopInvariant st)
    (hmax : 3 * (st.face_index + faceCount m) ≤ 2 ^ 31) :
    LoopInvariant (decodeRecord u uvs m st) := by
  obtain ⟨h1, h2⟩ := h
  have hfc : (0 : Int) ≤ faceCount m := Int.ofNat_nonneg _
  have hfi : (0 : Int) ≤ st.face_index := by rw [h1]; exact Int.ofNat_nonneg _
  obtain ⟨news, e1, e2⟩ := decodeRecord_uvs_range u uvs m st hfi hmax
  have hnext : nextFaceIndex m st.face_index = st.face_index + faceCount m :=
    nextFaceIndex_of_range m st.face_index hfi (by omega)
  refine ⟨?_, ?_⟩
  · rw [decodeRecord_face_index, decodeRecord_faces_length, hnext, h1]
    push_cast
    rfl
  · intro e he
    rw [e1] at he
    rw [decodeRecord_face_index, hnext]
    rcases List.mem_append.mp he with he | he
    · have := h2 e he
      constructor <;> omega
    · have := e2 e he
      constructor <;> omega

theorem faceLoop_faces_length_ge {α : Type} (u : Machine α) (uvs : List (List α)) (fuel : Nat)
    (st : FaceLoop α) :
    st.geometry.faces.length ≤ (faceLoop u uvs fuel st).geometry.faces.length := by
  induction fuel generalizing st with
  | zero => exact Nat.le_refl _
  | succ n ih =>
    obtain ⟨g, fi, ⟨rest, k⟩⟩ := st
    cases rest with
    | nil => exact Nat.le_refl _
    | cons m s =>
      rw [faceLoop_cons]
      have h := ih (decodeRecord u uvs m ⟨g, fi, ⟨s, k⟩⟩)
      rw [decodeRecord_faces_length] at h
      simp only at h ⊢
      omega

theorem faceLoop_invariant {α : Type} (u : Machine α) (uvs : List (List α)) (fuel : Nat)
    (st : FaceLoop α) (h : LoopInvariant st)
    (hmax : 3 * ((faceLoop u uvs fuel st).geometry.faces.length : Int) ≤ 2 ^ 31) :
    LoopInvariant (faceLoop u uvs fuel st) := by
  induction fuel generalizing st with
  | zero => exact h
  | succ n ih =>
    obtain ⟨g, fi, ⟨rest, k⟩⟩ := st
    cases rest with
    | nil => exact h
    | cons m s =>
      rw [faceLoop_cons] at hmax ⊢
      refine ih _ (decodeRecord_invariant u uvs m _ h ?_) hmax
      have hge := faceLoop_faces_length_ge u uvs n (decodeRecord u uvs m ⟨g, fi, ⟨s, k⟩⟩)
      rw [decodeRecord_faces_length] at hge
      have h1 := h.1
      simp only at hge h1 ⊢
      omega

/-- C16 (amended): started on a geometry without faces, and as long as the addresses
`3 * face_index + slot` fit in `int` (at most `715827882` faces), the face loop has `face_index`
equal to the number of faces of the geometry at the start of every iteration; then
`face1_index` (and `face2_index = face1_index + 1` for a quad) are the positions of the faces
the iteration appends, every UV address the iteration writes lies in `3 * face1_index ..
3 * (face1_index + number of faces appended) - 1`, and every address written before lies
below `3 * face1_index`. -/
theorem face_index_invariant {α : Type} (u : Machine α) (uvs : List (List α))
    (g : GthreeGeometry α) (s : List Nat) (hfaces : g.faces = []) (huvs : g.uvs = []) :
    (∀ k, 3 * ((faceLoop u uvs k ⟨g, 0, ⟨s, 0⟩⟩).geometry.faces.length : Int) ≤ 2 ^ 31 →
        LoopInvariant (faceLoop u uvs k ⟨g, 0, ⟨s, 0⟩⟩)) ∧
      ∀ (m : Nat) (st : FaceLoop α), LoopInvariant st →
        ((emitFaces u m st).2.face1 : Int) = (emitFaces u m st).2.face1_index ∧
        (emitFaces u m st).2.face1_index = st.face_index ∧
        (emitFaces u m st).2.face1 = st.geometry.faces.length ∧
        (∃ news, (decodeRecord u uvs m st).geometry.faces = st.geometry.faces ++ news ∧
          news.length = faceCount m) ∧
        (3 * (st.face_index + faceCount m) ≤ 2 ^ 31 →
          (m.testBit 0 = true →
            (emitFaces u m st).2.face2 = some ((emitFaces u m st).2.face1 + 1) ∧
            (emitFaces u m st).2.face2_index = (emitFaces u m st).2.face1_index + 1) ∧
          (∃ news, (decodeRecord u uvs m st).geometry.uvs = st.geometry.uvs ++ news ∧
            (∀ e ∈ news, 3 * st.face_index ≤ e.2.1 ∧
              e.2.1 < 3 * (st.face_index + faceCount m)) ∧
            ∀ e ∈ st.geometry.uvs, 0 ≤ e.2.1 ∧ e.2.1 < 3 * st.face_index) ∧
          LoopInvariant (decodeRecord u uvs m st)) := by
  constructor
  · intro k hk
    apply faceLoop_invariant _ _ _ _ _ hk
    exact ⟨by simp [hfaces], by simp [huvs]⟩
  · intro m st hinv
    have hfc : (0 : Int) ≤ faceCount m := Int.ofNat_nonneg _
    have hfi : (0 : Int) ≤ st.face_index := by rw [hinv.1]; exact Int.ofNat_nonneg _
    rw [emitFaces_locals]
    refine ⟨hinv.1.symm, rfl, rfl, decodeRecord_faces_prefix u uvs m st, ?_⟩
    intro hmax
    refine ⟨?_, ?_, decodeRecord_invariant u uvs m st hinv hmax⟩
    · intro h0
      have h2 : faceCount m = 2 := by simp [faceCount, h0]
      rw [h2] at hmax
      simp only [h0, if_true, face2Index, true_and]
      exact wrapInt_of_range _ (by omega) (by push_cast at hmax; omega)
    · obtain ⟨news, e1, e2⟩ := decodeRecord_uvs_range u uvs m st hfi hmax
      exact ⟨news, e1, e2, hinv.2⟩

/-- C16 (amended), at the stream of a triangle and the round-trip quad, after one iteration:
`face_index` is the number of faces appended. -/
theorem face_index_invariant_witness :
    (faceLoop zeros [[0, 0, 1, 0, 1, 1, 0, 1]] 1
        ⟨gthree_geometry_new, 0, ⟨[0, 0, 1, 2, 11, 0, 1, 2, 3, 5, 0, 1, 2, 3], 0⟩⟩).face_index =
      (faceLoop zeros [[0, 0, 1, 0, 1, 1, 0, 1]] 1
        ⟨gthree_geometry_new, 0,
          ⟨[0, 0, 1, 2, 11, 0, 1, 2, 3, 5, 0, 1, 2, 3], 0⟩⟩).geometry.faces.length :=
  ((face_index_invariant zeros [[0, 0, 1, 0, 1, 1, 0, 1]] gthree_geometry_new
    [0, 0, 1, 2, 11, 0, 1, 2, 3, 5, 0, 1, 2, 3] rfl rfl).1 1 (by decide)).1

theorem shiftUv_shiftUv {α : Type} (d1 d2 : Int) (es : List (Nat × Int × (α × α))) :
    (es.map (shiftUv d1)).map (shiftUv d2) = es.map (shiftUv (d1 + d2)) := by
  rw [List.map_map]
  apply List.map_congr_left
  intro e _
  simp only [Function.comp, shiftUv, Int.add_assoc]

theorem slotUvs_shift {α : Type} (q : Bool) (layer : Nat) (f1 f2 f2s d : Int)
    (vec : List (α × α)) (dflt : α × α) (h : q = true → f2s = f2 + d) :
    slotUvs id q layer (f1 + d) f2s vec dflt =
      (slotUvs id q layer f1 f2 vec dflt).map (shiftUv (3 * d)) := by
  cases q
  · simp only [slotUvs, id_eq, Bool.false_eq_true, if_false, List.map_cons, List.map_nil,
      shiftUv]
    simp only [List.cons.injEq, Prod.mk.injEq, true_and, and_true]
    refine ⟨?_, ?_, ?_⟩ <;> omega
  · rw [h rfl]
    simp only [slotUvs, id_eq, if_true, List.map_cons, List.map_nil, shiftUv]
    simp only [List.cons.injEq, Prod.mk.injEq, true_and, and_true]
    refine ⟨?_, ?_, ?_, ?_, ?_, ?_⟩ <;> omega

theorem layersUvs_shift {α : Type} (deref : Nat → List α → Nat → α × α) (dflt : α × α)
    (q : Bool) (f1 f2 f2s d : Int) (h : q = true → f2s = f2 + d) (layer : Nat)
    (uvs : List (List α)) (idx : List Nat) :
    layersUvs id deref dflt q (f1 + d) f2s layer uvs idx =
      (layersUvs id deref dflt q f1 f2 layer uvs idx).map (shiftUv (3 * d)) := by
  induction uvs generalizing layer idx with
  | nil => simp [layersUvs]
  | cons buf more ih =>
    simp only [layersUvs, List.map_append, ih, slotUvs_shift q layer f1 f2 f2s d _ dflt h]

theorem recordUvsWith_shift {α : Type} (u : Machine α) (uvs : List (List α)) (m : Nat)
    (fi d : Int) (fields : List Nat) :
    recordUvsWith id u uvs m (fi + d) fields =
      (recordUvsWith id u uvs m fi fields).map (shiftUv (3 * d)) := by
  simp only [recordUvsWith]
  split
  · apply layersUvs_shift
    intro h0
    simp only [face2Index, id_eq, h0, if_true]
    omega
  · rfl

/-- As long as the addresses fit in `int`, the UV assignments of a record decoded at
`face_index = fi` are those of the record decoded at `face_index = 0`, moved by `3 * fi`. -/
theorem recordUvs_shift {α : Type} (u : Machine α) (uvs : List (List α)) (m : Nat)
    (fi : Int) (fields : List Nat) (h1 : 0 ≤ fi) (h2 : 3 * (fi + faceCount m) ≤ 2 ^ 31) :
    recordUvs u uvs m fi fields = (recordUvs u uvs m 0 fields).map (shiftUv (3 * fi)) := by
  have hfc : (0 : Int) ≤ faceCount m := Int.ofNat_nonneg _
  rw [recordUvs_wrapInt u uvs m fi fields h1 h2,
    recordUvs_wrapInt u uvs m 0 fields (Int.le_refl 0) (by omega)]
  have h := recordUvsWith_shift u uvs m 0 fi fields
  rw [Int.zero_add] at h
  exact h

theorem applyRecords_faces {α : Type} (u : Machine α) (uvs : List (List α))
    (rs : List (List Nat)) (g : GthreeGeometry α) (fi : Int) :
    (applyRecords u uvs g fi rs).1.faces =
      g.faces ++ (applyRecords u uvs gthree_geometry_new 0 rs).1.faces := by
  induction rs generalizing g fi with
  | nil => simp [applyRecords, gthree_geometry_new]
  | cons r rs ih =>
    cases r with
    | nil => simp only [applyRecords]; exact ih g fi
    | cons m fields =>
      simp only [applyRecords]
      rw [ih (recordGeometry u uvs m fi fields g),
        ih (recordGeometry u uvs m 0 fields gthree_geometry_new)]
      simp only [recordGeometry, gthree_geometry_new, List.nil_append, List.append_assoc]

theorem applyRecords_vertices {α : Type} (u : Machine α) (uvs : List (List α))
    (rs : List (List Nat)) (g : GthreeGeometry α) (fi : Int) :
    (applyRecords u uvs g fi rs).1.vertices =
      g.vertices ++ (applyRecords u uvs gthree_geometry_new 0 rs).1.vertices := by
  induction rs generalizing g fi with
  | nil => simp [applyRecords, gthree_geometry_new]
  | cons r rs ih =>
    cases r with
    | nil => simp only [applyRecords]; exact ih g fi
    | cons m fields =>
      simp only [applyRecords]
      rw [ih (recordGeometry u uvs m fi fields g),
        ih (recordGeometry u uvs m 0 fields gthree_geometry_new)]
      simp only [recordGeometry, gthree_geometry_new, List.nil_append, List.append_assoc]

theorem applyRecords_faces_length_cons {α : Type} (u : Machine α) (uvs : List (List α))
    (m : Nat) (fields : List Nat) (rs : List (List Nat)) :
    (applyRecords u uvs (gthree_geometry_new : GthreeGeometry α) 0
        ((m :: fields) :: rs)).1.faces.length =
      faceCount m +
        (applyRecords u uvs (gthree_geometry_new : GthreeGeometry α) 0 rs).1.faces.length := by
  simp only [applyRecords]
  rw [applyRecords_faces u uvs rs (recordGeometry u uvs m 0 fields gthree_geometry_new)]
  simp only [recordGeometry, gthree_geometry_new, List.nil_append, List.length_append,
    recordFaces_length]

/-- As long as it fits in `int`, the face counter after a sequence of records is the counter
before plus the number of faces of the records. -/
theorem applyRecords_face_index {α : Type} (u : Machine α) (uvs : List (List α))
    (rs : List (List Nat)) (g : GthreeGeometry α) (fi : Int) (h1 : 0 ≤ fi)
    (h2 : fi + ((applyRecords u uvs gthree_geometry_new 0 rs).1.faces.length : Int) < 2 ^ 31) :
    (applyRecords u uvs g fi rs).2 =
      fi + ((applyRecords u uvs gthree_geometry_new 0 rs).1.faces.length : Int) := by
  induction rs generalizing g fi with
  | nil => simp [applyRecords, gthree_geometry_new]
  | cons r rs ih =>
    cases r with
    | nil =>
      simp only [applyRecords] at h2 ⊢
      exact ih g fi h1 h2
    | cons m fields =>
      have hfc : (0 : Int) ≤ faceCount m := Int.ofNat_nonneg _
      have hl : (0 : Int) ≤
          ((applyRecords u uvs (gthree_geometry_new : GthreeGeometry α) 0 rs).1.faces.length :
            Int) := Int.ofNat_nonneg _
      rw [applyRecords_faces_length_cons] at h2 ⊢
      push_cast at h2 ⊢
      have hn : nextFaceIndex m fi = fi + faceCount m :=
        nextFaceIndex_of_range m fi h1 (by omega)
      simp only [applyRecords]
      rw [hn, ih (recordGeometry u uvs m fi fields g) (fi + faceCount m) (by omega) (by omega)]
      omega

/-- As long as the addresses fit in `int`, the UV assignments after a sequence of records are
those before, followed by what the records give on an empty geometry with every address moved
by `3 * fi`. -/
theorem applyRecords_uvs_shift {α : Type} (u : Machine α) (uvs : List (List α))
    (rs : List (List Nat)) (g : GthreeGeometry α) (fi : Int) (h1 : 0 ≤ fi)
    (h2 : 3 * (fi + ((applyRecords u uvs gthree_geometry_new 0 rs).1.faces.length : Int)) ≤
      2 ^ 31) :
    (applyRecords u uvs g fi rs).1.uvs =
      g.uvs ++ (applyRecords u uvs gthree_geometry_new 0 rs).1.uvs.map (shiftUv (3 * fi)) := by
  induction rs generalizing g fi with
  | nil => simp [applyRecords, gthree_geometry_new]
  | cons r rs ih =>
    cases r with
    | nil =>
      simp only [applyRecords] at h2 ⊢
      exact ih g fi h1 h2
    | cons m fields =>
      have hfc : (0 : Int) ≤ faceCount m := Int.ofNat_nonneg _
      have hl : (0 : Int) ≤
          ((applyRecords u uvs (gthree_geometry_new : GthreeGeometry α) 0 rs).1.faces.length :
            Int) := Int.ofNat_nonneg _
      rw [applyRecords_faces_length_cons] at h2
      push_cast at h2
      have hn : nextFaceIndex m fi = fi + faceCount m :=
        nextFaceIndex_of_range m fi h1 (by omega)
      have hn0 : nextFaceIndex m 0 = 0 + faceCount m :=
        nextFaceIndex_of_range m 0 (Int.le_refl 0) (by omega)
      simp only [applyRecords]
      rw [hn, hn0, ih (recordGeometry u uvs m fi fields g) (fi + faceCount m) (by omega)
          (by omega),
        ih (recordGeometry u uvs m 0 fields gthree_geometry_new) (0 + faceCount m) (by omega)
          (by omega)]
      simp only [recordGeometry, gthree_geometry_new, List.nil_append, List.append_assoc,
        List.map_append, shiftUv_shiftUv, recordUvs_shift u uvs m fi fields h1 (by omega),
        Int.zero_add]
      have e3 : 3 * (fi + (faceCount m : Int)) = 3 * (faceCount m : Int) + 3 * fi := by omega
      rw [e3]

/-- C19 (amended): for two streams that are concatenations of complete records, as long as the
addresses `3 * face_index + slot` fit in `int`, decoding the concatenation gives the faces
(with their material indices) of the first followed by those of the second, and the UV
assignments of the first followed by those of the second with every address moved by three
times the number of faces of the first. -/
theorem decode_concatenation {α : Type} (u : Machine α) (uvs : List (List α))
    (rs1 rs2 : List (List Nat)) (h1 : ∀ r ∈ rs1, CompleteRecord uvs.length r)
    (h2 : ∀ r ∈ rs2, CompleteRecord uvs.length r)
    (hmax : 3 * ((decodeFaces u uvs gthree_geometry_new
      (rs1.flatten ++ rs2.flatten)).geometry.faces.length : Int) ≤ 2 ^ 31) :
    (decodeFaces u uvs gthree_geometry_new (rs1.flatten ++ rs2.flatten)).geometry.faces =
        (decodeFaces u uvs gthree_geometry_new rs1.flatten).geometry.faces ++
          (decodeFaces u uvs gthree_geometry_new rs2.flatten).geometry.faces ∧
      (decodeFaces u uvs gthree_geometry_new (rs1.flatten ++ rs2.flatten)).geometry.uvs =
        (decodeFaces u uvs gthree_geometry_new rs1.flatten).geometry.uvs ++
          (decodeFaces u uvs gthree_geometry_new rs2.flatten).geometry.uvs.map
            (shiftUv (3 * ((decodeFaces u uvs gthree_geometry_new
              rs1.flatten).geometry.faces.length : Int))) ∧
      (decodeFaces u uvs gthree_geometry_new (rs1.flatten ++ rs2.flatten)).geometry.vertices =
        (decodeFaces u uvs gthree_geometry_new rs1.flatten).geometry.vertices ++
          (decodeFaces u uvs gthree_geometry_new rs2.flatten).geometry.vertices ∧
      (decodeFaces u uvs gthree_geometry_new (rs1.flatten ++ rs2.flatten)).face_index =
        (decodeFaces u uvs gthree_geometry_new rs1.flatten).face_index +
          (decodeFaces u uvs gthree_geometry_new rs2.flatten).face_index := by
  have h12 : ∀ r ∈ rs1 ++ rs2, CompleteRecord uvs.length r := by
    intro r hr
    rcases List.mem_append.mp hr with hr | hr
    · exact h1 r hr
    · exact h2 r hr
  have e : rs1.flatten ++ rs2.flatten = (rs1 ++ rs2).flatten := by simp
  rw [e, decodeFaces_complete u uvs _ h12] at hmax
  rw [e, decodeFaces_complete u uvs _ h12, decodeFaces_complete u uvs _ h1,
    decodeFaces_complete u uvs _ h2]
  rw [applyRecords_append] at hmax ⊢
  simp only at hmax ⊢
  rw [applyRecords_faces u uvs rs2] at hmax
  rw [List.length_append] at hmax
  push_cast at hmax
  have hl1 : (0 : Int) ≤
      ((applyRecords u uvs (gthree_geometry_new : GthreeGeometry α) 0 rs1).1.faces.length : Int) :=
    Int.ofNat_nonneg _
  have hl2 : (0 : Int) ≤
      ((applyRecords u uvs (gthree_geometry_new : GthreeGeometry α) 0 rs2).1.faces.length : Int) :=
    Int.ofNat_nonneg _
  have hfi1 := applyRecords_face_index u uvs rs1 (gthree_geometry_new : GthreeGeometry α) 0
    (Int.le_refl 0) (by omega)
  rw [Int.zero_add] at hfi1
  have hfi2 := applyRecords_face_index u uvs rs2 (gthree_geometry_new : GthreeGeometry α) 0
    (Int.le_refl 0) (by omega)
  rw [Int.zero_add] at hfi2
  refine ⟨applyRecords_faces u uvs rs2 _ _, ?_, applyRecords_vertices u uvs rs2 _ _, ?_⟩
  · rw [applyRecords_uvs_shift u uvs rs2 _ _ (by rw [hfi1]; exact hl1)
      (by rw [hfi1]; omega), hfi1]
  · rw [applyRecords_face_index u uvs rs2 _ _ (by rw [hfi1]; exact hl1) (by rw [hfi1]; omega),
      hfi1, hfi2]

/-- C19 (amended), at `s1` = a quad with vertex UVs and `s2` = a triangle with vertex UVs: the
UV addresses of `s2` are moved by `3 * 2`. -/
theorem decode_concatenation_witness :
    (decodeFaces zeros [[0, 0, 1, 0, 1, 1, 0, 1]] gthree_geometry_new
        ([[9, 0, 1, 2, 3, 0, 1, 2, 3]].flatten ++ [[8, 3, 2, 1, 3, 2, 1]].flatten)).geometry.uvs =
      (decodeFaces zeros [[0, 0, 1, 0, 1, 1, 0, 1]] gthree_geometry_new
        [[9, 0, 1, 2, 3, 0, 1, 2, 3]].flatten).geometry.uvs ++
        (decodeFaces zeros [[0, 0, 1, 0, 1, 1, 0, 1]] gthree_geometry_new
          [[8, 3, 2, 1, 3, 2, 1]].flatten).geometry.uvs.map
            (shiftUv (3 * ((decodeFaces zeros [[0, 0, 1, 0, 1, 1, 0, 1]] gthree_geometry_new
              [[9, 0, 1, 2, 3, 0, 1, 2, 3]].flatten).geometry.faces.length : Int))) :=
  (decode_concatenation zeros [[0, 0, 1, 0, 1, 1, 0, 1]] [[9, 0, 1, 2, 3, 0, 1, 2, 3]]
    [[8, 3, 2, 1, 3, 2, 1]] (by decide) (by decide) (by decide)).2.1

theorem toGuint32_spec (v : Int) :
    ((toGuint32 v : Nat) : Int) = v % 2 ^ 32 ∧ toGuint32 v < 2 ^ 32 := by
  have h0 : (0 : Int) ≤ v % 2 ^ 32 := Int.emod_nonneg v (by norm_num)
  have h1 : v % 2 ^ 32 < 2 ^ 32 := Int.emod_lt_of_pos v (by norm_num)
  have e : ((toGuint32 v : Nat) : Int) = v % 2 ^ 32 := by
    simp only [toGuint32]; exact Int.toNat_of_nonneg h0
  refine ⟨e, ?_⟩
  have : ((toGuint32 v : Nat) : Int) < ((2 ^ 32 : Nat) : Int) := by
    rw [e]; exact_mod_cast h1
  exact_mod_cast this

theorem convert_faces {α : Type} (zero : α) (members : List (String × JsonNode α))
    (elems : List (JsonNode α)) (variant : GVariant α)
    (hm : json_object_get_member members "faces" = some (JsonNode.array elems))
    (hok : (gthree_loader_convert_json_to_variant zero (some (JsonNode.object members))).1 =
      some variant) :
    variant.faces = some (elems.map (fun e => toGuint32 (json_array_get_int_element e))) := by
  revert hok
  simp only [gthree_loader_convert_json_to_variant, JSON_NODE_HOLDS_OBJECT, json_node_get_object,
    Bool.not_true, Bool.false_eq_true, if_false, hm]
  split
  · intro h; exact Option.noConfusion h
  · split
    · intro h; exact Option.noConfusion h
    · simp only [convertFaces, JSON_NODE_HOLDS_ARRAY, Bool.not_true, Bool.false_eq_true,
        if_false, json_node_get_array]
      intro h
      simp only [Option.some.injEq] at h
      rw [← h]

/-- C18: every element of the `"faces"` array, read as the 64-bit integer `v` the accessor
returns, is stored as `v mod 2 ^ 32`, an unsigned 32-bit value; the buffer has the length and
the order of the array. -/
theorem faces_are_cast_to_guint32 {α : Type} (zero : α) (members : List (String × JsonNode α))
    (elems : List (JsonNode α)) (variant : GVariant α)
    (hm : json_object_get_member members "faces" = some (JsonNode.array elems))
    (hok : (gthree_loader_convert_json_to_variant zero (some (JsonNode.object members))).1 =
      some variant) :
    ∃ buf, variant.faces = some buf ∧ buf.length = elems.length ∧
      ∀ (i : Nat) (d : α) (v : Int), elems.get? i = some (JsonNode.value d v) →
        ∃ w, buf.get? i = some w ∧ (w : Int) = v % 2 ^ 32 ∧ w < 2 ^ 32 := by
  refine ⟨_, convert_faces zero members elems variant hm hok, by simp, ?_⟩
  intro i d v hi
  refine ⟨toGuint32 v, ?_, (toGuint32_spec v).1, (toGuint32_spec v).2⟩
  rw [List.get?_eq_getElem?, List.getElem?_map, ← List.get?_eq_getElem?, hi]
  rfl

/-- C18, at `{"faces": [-1, 4294967297]}`: the buffer is `[4294967295, 1]`. -/
theorem faces_are_cast_to_guint32_witness :
    (gthree_loader_convert_json_to_variant (0 : Int) (some (JsonNode.object
        [("faces", JsonNode.array [JsonNode.value 0 (-1), JsonNode.value 0 4294967297])]))).1 =
      some { uvs := none, vertices := none, faces := some [4294967295, 1] } ∧
    ∃ buf, (some [4294967295, 1] : Option (List Nat)) = some buf ∧
      buf.length = [JsonNode.value (0 : Int) (-1), JsonNode.value 0 4294967297].length ∧
      ∀ (i : Nat) (d : Int) (v : Int),
        [JsonNode.value (0 : Int) (-1), JsonNode.value 0 4294967297].get? i =
            some (JsonNode.value d v) →
          ∃ w, buf.get? i = some w ∧ (w : Int) = v % 2 ^ 32 ∧ w < 2 ^ 32 :=
  ⟨by decide, faces_are_cast_to_guint32 (0 : Int)
    [("faces", JsonNode.array [JsonNode.value 0 (-1), JsonNode.value 0 4294967297])]
    [JsonNode.value 0 (-1), JsonNode.value 0 4294967297]
    { uvs := none, vertices := none, faces := some [4294967295, 1] } rfl (by decide)⟩

theorem uvDeref_wrap {α : Type} (u : Machine α) (layer : Nat) (buf : List α) (k : Nat) :
    uvDeref u layer buf (2 ^ 31 + k) = uvDeref u layer buf k := by
  have e1 : (2 ^ 31 + k) * 2 % 2 ^ 32 = k * 2 % 2 ^ 32 := by omega
  have e2 : ((2 ^ 31 + k) * 2 + 1) % 2 ^ 32 = (k * 2 + 1) % 2 ^ 32 := by omega
  simp only [uvDeref, e1, e2]

/-- C20: the two offsets of a UV index `i` are `(2 * i) mod 2 ^ 32` and
`(2 * i + 1) mod 2 ^ 32`; for `k < 2 ^ 31` the index `2 ^ 31 + k` has the offsets `2 * k` and
`2 * k + 1` of the index `k`, so it is dereferenced to the same pair, also inside the loop over
the UV indices of a layer (lines 291-299). -/
theorem uv_offsets_wrap {α : Type} (u : Machine α) (layer : Nat) (buf : List α) :
    (∀ i : Nat, uvDeref u layer buf i =
      (uvFetch u layer buf (2 * i % 2 ^ 32), uvFetch u layer buf ((2 * i + 1) % 2 ^ 32))) ∧
      ∀ k : Nat, k < 2 ^ 31 →
        2 * (2 ^ 31 + k) % 2 ^ 32 = 2 * k ∧ (2 * (2 ^ 31 + k) + 1) % 2 ^ 32 = 2 * k + 1 ∧
        uvDeref u layer buf (2 ^ 31 + k) = uvDeref u layer buf k ∧
        ∀ (n : Nat) (rest : List Nat) (c : Nat),
          readVec u layer buf (n + 1) ⟨(2 ^ 31 + k) :: rest, c⟩ =
            readVec u layer buf (n + 1) ⟨k :: rest, c⟩ := by
  constructor
  · intro i
    simp only [uvDeref, Nat.mul_comm i 2]
  · intro k hk
    refine ⟨by omega, by omega, uvDeref_wrap u layer buf k, ?_⟩
    intro n rest c
    simp only [readVec, loop_u_cons, uvDeref_wrap u layer buf k]

/-- C20, at the index `2147483648` and the layer `[5, 6]`: the pair read is
`(layer[0], layer[1]) = (5, 6)`. -/
theorem uv_offsets_wrap_witness :
    2 * (2 ^ 31 + 0) % 2 ^ 32 = 2 * 0 ∧ (2 * (2 ^ 31 + 0) + 1) % 2 ^ 32 = 2 * 0 + 1 ∧
      uvDeref probe 0 [5, 6] (2 ^ 31 + 0) = uvDeref probe 0 [5, 6] 0 ∧
      uvDeref probe 0 [5, 6] 0 = (5, 6) :=
  ⟨((uv_offsets_wrap probe 0 [5, 6]).2 0 (by decide)).1,
    ((uv_offsets_wrap probe 0 [5, 6]).2 0 (by decide)).2.1,
    ((uv_offsets_wrap probe 0 [5, 6]).2 0 (by decide)).2.2.1, by decide⟩

theorem manyTriangles_complete {α : Type} (uvs : List (List α)) :
    ∀ r ∈ manyTriangles, CompleteRecord uvs.length r := by
  intro r hr
  rw [List.eq_of_mem_replicate hr]
  show [0, 0, 0].length = fieldCount uvs.length 0
  simp [fieldCount, coreCount, reservedCount, vertexCount, flagBit]

/-- The geometry and the face counter after `n` triangle records `0, 0,0,0`, as long as the
counter fits in `int`. -/
theorem applyRecords_replicate {α : Type} (u : Machine α) (uvs : List (List α)) (n : Nat)
    (g : GthreeGeometry α) (fi : Int) (h1 : 0 ≤ fi) (h2 : fi + n < 2 ^ 31) :
    applyRecords u uvs g fi (List.replicate n [0, 0, 0, 0]) =
      ({ vertices := g.vertices ++ List.replicate n u.v,
         faces := g.faces ++ List.replicate n (gthree_face_new 0 0 0),
         uvs := g.uvs }, fi + n) := by
  induction n generalizing g fi with
  | zero => simp [applyRecords]
  | succ n ih =>
    push_cast at h2
    have hn : nextFaceIndex 0 fi = fi + 1 := by
      have := nextFaceIndex_of_range 0 fi h1 (by simp [faceCount]; omega)
      simpa [faceCount] using this
    rw [List.replicate_succ]
    simp only [applyRecords]
    rw [hn, ih _ _ (by omega) (by omega)]
    simp only [recordGeometry, recordFaces, recordMaterial, recordUvs, recordUvsWith,
      Nat.zero_testBit, Bool.false_eq_true, if_false, List.append_nil, List.append_assoc,
      List.singleton_append, List.replicate_succ, Prod.mk.injEq, GthreeGeometry.mk.injEq]
    exact ⟨⟨trivial, rfl, trivial⟩, by push_cast; omega⟩

theorem lastRecord_uvs :
    recordUvs zeros [[5, 6]] 8 715827883 [0, 0, 0, 0, 0, 0] =
      [(0, -2147483647, (5, 6)), (0, -2147483646, (5, 6)), (0, -2147483645, (5, 6))] := by
  decide

/-- The UV assignments and the number of faces after `715827883` triangle records followed by
the triangle record `8, 0,0,0, 0,0,0` with vertex UVs. -/
theorem manyTriangles_decode :
    (decodeFaces zeros [[5, 6]] gthree_geometry_new
        (manyTriangles ++ [[8, 0, 0, 0, 0, 0, 0]]).flatten).geometry.uvs =
      [(0, -2147483647, (5, 6)), (0, -2147483646, (5, 6)), (0, -2147483645, (5, 6))] ∧
    (decodeFaces zeros [[5, 6]] gthree_geometry_new
        (manyTriangles ++ [[8, 0, 0, 0, 0, 0, 0]]).flatten).geometry.faces.length =
      715827884 ∧
    (decodeFaces zeros [[5, 6]] gthree_geometry_new manyTriangles.flatten).geometry.uvs = [] ∧
    (decodeFaces zeros [[5, 6]] gthree_geometry_new manyTriangles.flatten).geometry.faces.length =
      715827883 ∧
    (decodeFaces zeros [[5, 6]] gthree_geometry_new manyTriangles.flatten).face_index =
      715827883 := by
  have hc : ∀ r ∈ manyTriangles ++ [[8, 0, 0, 0, 0, 0, 0]],
      CompleteRecord [[(5 : Int), 6]].length r := by
    intro r hr
    rcases List.mem_append.mp hr with hr | hr
    · exact manyTriangles_complete _ r hr
    · rw [List.mem_singleton.mp hr]; decide
  have hrep := applyRecords_replicate zeros [[5, 6]] 715827883 gthree_geometry_new 0
    (Int.le_refl 0) (by norm_num)
  rw [decodeFaces_complete zeros [[5, 6]] _ hc,
    decodeFaces_complete zeros [[5, 6]] _ (manyTriangles_complete _), applyRecords_append]
  unfold manyTriangles
  rw [hrep]
  simp only [applyRecords, recordGeometry, gthree_geometry_new, List.nil_append,
    List.length_append, List.length_replicate, recordFaces_length]
  refine ⟨?_, by decide, trivial, trivial, by norm_num⟩
  have h := lastRecord_uvs
  norm_num at h ⊢
  exact h

/-- C16 fails as stated: after `715827883` triangle records `face_index` is `715827883`, the
number of faces appended; the triangle record `8, 0,0,0, 0,0,0` that follows gets
`face1_index = 715827883`, and `face1_index * 3` is above the largest `int`: the UV addresses it
writes are `-2147483647, -2147483646, -2147483645`, which are the addresses of no face. -/
theorem face_index_invariant_counterexample :
    (decodeFaces zeros [[5, 6]] gthree_geometry_new manyTriangles.flatten).face_index =
        715827883 ∧
      (decodeFaces zeros [[5, 6]] gthree_geometry_new
        manyTriangles.flatten).geometry.faces.length = 715827883 ∧
      (decodeFaces zeros [[5, 6]] gthree_geometry_new
        (manyTriangles ++ [[8, 0, 0, 0, 0, 0, 0]]).flatten).geometry.uvs =
          [(0, -2147483647, (5, 6)), (0, -2147483646, (5, 6)), (0, -2147483645, (5, 6))] ∧
      ¬ LoopInvariant (decodeFaces zeros [[5, 6]] gthree_geometry_new
        (manyTriangles ++ [[8, 0, 0, 0, 0, 0, 0]]).flatten) := by
  obtain ⟨h1, _, _, h4, h5⟩ := manyTriangles_decode
  refine ⟨h5, h4, h1, ?_⟩
  intro hinv
  have := (hinv.2 (0, -2147483647, (5, 6)) (by rw [h1]; exact List.mem_cons_self _ _)).1
  simp only at this
  omega

theorem lastRecord_alone :
    (decodeFaces zeros [[5, 6]] gthree_geometry_new
        [[8, 0, 0, 0, 0, 0, 0]].flatten).geometry.uvs =
      [(0, 0, (5, 6)), (0, 1, (5, 6)), (0, 2, (5, 6))] := by
  decide

/-- C19 fails as stated: for `s1` = `715827883` triangle records and `s2` = the triangle record
`8, 0,0,0, 0,0,0`, decoding `s1 ++ s2` writes the UV addresses
`-2147483647, -2147483646, -2147483645`, whereas the addresses `0, 1, 2` of `s2` moved by three
times the number of faces of `s1` are `2147483649, 2147483650, 2147483651`: the two sides of
the claim differ. -/
theorem decode_concatenation_counterexample :
    (decodeFaces zeros [[5, 6]] gthree_geometry_new
        (manyTriangles.flatten ++ [[8, 0, 0, 0, 0, 0, 0]].flatten)).geometry.uvs =
      [(0, -2147483647, (5, 6)), (0, -2147483646, (5, 6)), (0, -2147483645, (5, 6))] ∧
    (decodeFaces zeros [[5, 6]] gthree_geometry_new manyTriangles.flatten).geometry.uvs ++
        (decodeFaces zeros [[5, 6]] gthree_geometry_new
          [[8, 0, 0, 0, 0, 0, 0]].flatten).geometry.uvs.map
            (shiftUv (3 * ((decodeFaces zeros [[5, 6]] gthree_geometry_new
              manyTriangles.flatten).geometry.faces.length : Int))) =
      [(0, 2147483649, (5, 6)), (0, 2147483650, (5, 6)), (0, 2147483651, (5, 6))] ∧
    (decodeFaces zeros [[5, 6]] gthree_geometry_new
        (manyTriangles.flatten ++ [[8, 0, 0, 0, 0, 0, 0]].flatten)).geometry.uvs ≠
      (decodeFaces zeros [[5, 6]] gthree_geometry_new manyTriangles.flatten).geometry.uvs ++
        (decodeFaces zeros [[5, 6]] gthree_geometry_new
          [[8, 0, 0, 0, 0, 0, 0]].flatten).geometry.uvs.map
            (shiftUv (3 * ((decodeFaces zeros [[5, 6]] gthree_geometry_new
              manyTriangles.flatten).geometry.faces.length : Int))) := by
  obtain ⟨h1, _, h3, h4, _⟩ := manyTriangles_decode
  rw [List.flatten_append] at h1
  have h2 : (decodeFaces zeros [[5, 6]] gthree_geometry_new manyTriangles.flatten).geometry.uvs ++
      (decodeFaces zeros [[5, 6]] gthree_geometry_new
        [[8, 0, 0, 0, 0, 0, 0]].flatten).geometry.uvs.map
          (shiftUv (3 * ((decodeFaces zeros [[5, 6]] gthree_geometry_new
            manyTriangles.flatten).geometry.faces.length : Int))) =
      [(0, 2147483649, (5, 6)), (0, 2147483650, (5, 6)), (0, 2147483651, (5, 6))] := by
    rw [h3, h4, lastRecord_alone]
    decide
  refine ⟨h1, h2, ?_⟩
  rw [h1, h2]
  decide

end Gthree
